import Mathlib

/-!
# Verification of `index.js` (browser test suite with HTML report)

The script drives a browser through five navigation steps, saves a screenshot
after each one and appends one row per step to an HTML report.

The embedding is shallow.  Every call that leaves the script (a WebDriver
command, a file-system call, a console call) is a primitive that is logged in
a trace together with its result.  Whether such a call throws is decided by
the environment `Env`, as a function of the history so far and of the call:
this covers every browser behaviour (navigation timeouts, missing elements,
a dead session) and every file-system fault (full disk, missing parent,
permissions).  `async`/`await` code is sequential, so an `async` function is a
state-passing function that returns either a value or the thrown error.

Conventions of the model:
* `console.log`, `console.error` and `fs.existsSync` never throw;
* a file-system call that throws leaves the files as they were, one that
  succeeds has its whole effect (`fs.appendFileSync` creates a missing file);
* `path.join` is the POSIX one (`/` as separator);
* `__dirname` is the field `dirname` of the environment.
-/

namespace Tarea4

/-! ## `path.join` (POSIX flavour of the Node.js library function) -/

/-- Split a path at every `/`. -/
def splitSlash : List Char → List (List Char)
  | [] => [[]]
  | c :: cs =>
    if c = '/' then [] :: splitSlash cs
    else
      match splitSlash cs with
      | [] => [[c]]
      | s :: ss => (c :: s) :: ss

/-- Resolve `.` and `..` segments and drop empty ones; `acc` is the stack of
segments kept so far, most recent first. -/
def normalizeSegments (allowAboveRoot : Bool) :
    List (List Char) → List (List Char) → List (List Char)
  | acc, [] => acc.reverse
  | acc, s :: rest =>
    if s = [] ∨ s = ['.'] then normalizeSegments allowAboveRoot acc rest
    else if s = ['.', '.'] then
      match acc with
      | [] => normalizeSegments allowAboveRoot (if allowAboveRoot then [s] else []) rest
      | t :: acc' =>
        if t = ['.', '.'] then
          normalizeSegments allowAboveRoot (if allowAboveRoot then s :: t :: acc' else t :: acc') rest
        else normalizeSegments allowAboveRoot acc' rest
    else normalizeSegments allowAboveRoot (s :: acc) rest

/-- Put the separator back between the segments. -/
def joinSegments : List (List Char) → List Char
  | [] => []
  | [s] => s
  | s :: rest => s ++ '/' :: joinSegments rest

/-- The function `path.posix.normalize` on the characters of a path. -/
def normalizeChars (p : List Char) : List Char :=
  if p = [] then ['.']
  else
    let isAbsolute := p.head? = some '/'
    let trailingSeparator := p.getLast? = some '/'
    let body := joinSegments (normalizeSegments (!isAbsolute) [] (splitSlash p))
    if body = [] then
      if isAbsolute then ['/'] else if trailingSeparator then ['.', '/'] else ['.']
    else
      (if isAbsolute then ['/'] else []) ++ body ++ (if trailingSeparator then ['/'] else [])

/-- One turn of the loop of `path.join`: empty arguments are skipped, the
others are chained with `/`. -/
def joinArg (joined : Option (List Char)) (arg : List Char) : Option (List Char) :=
  if arg = [] then joined
  else
    match joined with
    | none => some arg
    | some j => some (j ++ '/' :: arg)

/-- The function `path.join` applied to two arguments. -/
def path.join (a b : String) : String :=
  match joinArg (joinArg none a.data) b.data with
  | none => "."
  | some joined => String.mk (normalizeChars joined)

/-! ## The world outside the script -/

/-- A thrown JavaScript value, by its message. -/
abbrev Err := String

/-- What a path of the file system holds. -/
inductive Node
  | file (data : String)
  | dir
  deriving DecidableEq, Repr

/-- The file system: the first binding of a path is the current one. -/
abbrev FS := List (String × Node)

/-- The calls that leave the script. -/
inductive Call
  | build (browser : String)
  | maximize
  | get (url : String)
  | sleep (ms : Nat)
  | findElement (css : String)
  | getText (css : String)
  | click (css : String)
  | sendKeys (css : String) (keys : List String)
  | takeScreenshot
  | quit
  | existsSync (path : String)
  | mkdirSync (path : String)
  | writeFileSync (path data : String) (encoding : Option String)
  | appendFileSync (path data : String)
  | consoleLog (args : List String)
  | consoleError (args : List String)
  deriving DecidableEq, Repr

/-- One logged call; `err` is the error it threw, if any. -/
structure Entry where
  call : Call
  err : Option Err
  deriving DecidableEq, Repr

/-- The state threaded through the script. -/
structure World where
  files : FS
  trace : List Entry
  deriving DecidableEq, Repr

/-- The environment: the directory of the script, which calls throw, and what
the browser returns. -/
structure Env where
  dirname : String
  fault : List Entry → Call → Option Err
  screenshot : List Entry → String
  text : List Entry → String
  base64Decode : String → String

/-- Result of running a piece of code: a value, or the error thrown. -/
inductive Outcome (α : Type)
  | ok (a : α)
  | throw (e : Err)
  deriving DecidableEq, Repr

/-- A piece of (possibly `async`) code. -/
def Eff (α : Type) : Type := World → Outcome α × World

/-- Return a value. -/
def Eff.pure {α : Type} (a : α) : Eff α := fun w => (Outcome.ok a, w)

/-- Sequencing (`await` / `;`): an error thrown by the first part skips the second. -/
def Eff.bind {α β : Type} (m : Eff α) (f : α → Eff β) : Eff β := fun w =>
  match m w with
  | (Outcome.ok a, w1) => f a w1
  | (Outcome.throw e, w1) => (Outcome.throw e, w1)

instance : Monad Eff where
  pure := Eff.pure
  bind := Eff.bind

instance : LawfulMonad Eff := LawfulMonad.mk' Eff
  (by
    intro α x
    funext w
    show Eff.bind x (fun a => Eff.pure (id a)) w = x w
    simp only [Eff.bind, Eff.pure, id]
    rcases x w with ⟨r, w1⟩
    cases r <;> rfl)
  (by intro α β a f; rfl)
  (by
    intro α β γ m f g
    funext w
    show Eff.bind (Eff.bind m f) g w = Eff.bind m (fun a => Eff.bind (f a) g) w
    simp only [Eff.bind]
    rcases m w with ⟨r, w1⟩
    cases r <;> rfl)

/-- The statement `try { body } catch (error) { handler error }`. -/
def tryCatch {α : Type} (body : Eff α) (handler : Err → Eff α) : Eff α := fun w =>
  match body w with
  | (Outcome.ok a, w1) => (Outcome.ok a, w1)
  | (Outcome.throw e, w1) => handler e w1

/-- The statement `try { body } catch (error) { handler error } finally { fin }`:
`fin` runs in every case; an error thrown by `fin` replaces the pending result. -/
def tryCatchFinally {α : Type} (body : Eff α) (handler : Err → Eff α) (fin : Eff Unit) : Eff α :=
  fun w =>
    match tryCatch body handler w with
    | (r, w1) =>
      match fin w1 with
      | (Outcome.ok _, w2) => (r, w2)
      | (Outcome.throw e, w2) => (Outcome.throw e, w2)

/-- A call that may throw: it is logged with its result; when it succeeds,
`eff` is applied to the file system and `ret` computes the returned value from
the history. -/
def prim {α : Type} (env : Env) (c : Call) (eff : FS → FS) (ret : List Entry → α) : Eff α :=
  fun w =>
    match env.fault w.trace c with
    | some e => (Outcome.throw e, { files := w.files, trace := w.trace ++ [⟨c, some e⟩] })
    | none => (Outcome.ok (ret w.trace), { files := eff w.files, trace := w.trace ++ [⟨c, none⟩] })

/-- A call that never throws (console output, `fs.existsSync`). -/
def note {α : Type} (c : Call) (ret : FS → α) : Eff α := fun w =>
  (Outcome.ok (ret w.files), { files := w.files, trace := w.trace ++ [⟨c, none⟩] })

/-! ## The library surface the script uses -/

/-- A browser session. -/
structure Driver where
  browser : String
  deriving DecidableEq, Repr

/-- An element found on the page, by its selector. -/
structure WebElement where
  css : String
  deriving DecidableEq, Repr

/-- The Selenium key `Key.RETURN`. -/
def Key.RETURN : String := "\uE006"

/-- Start a session: `new Builder().forBrowser(browser).build()`. -/
def Builder.build (env : Env) (browser : String) : Eff Driver :=
  prim env (Call.build browser) id (fun _ => ⟨browser⟩)

/-- The call `driver.manage().window().maximize()`. -/
def Driver.maximize (_driver : Driver) (env : Env) : Eff Unit :=
  prim env Call.maximize id (fun _ => ())

def Driver.get (_driver : Driver) (env : Env) (url : String) : Eff Unit :=
  prim env (Call.get url) id (fun _ => ())

def Driver.sleep (_driver : Driver) (env : Env) (ms : Nat) : Eff Unit :=
  prim env (Call.sleep ms) id (fun _ => ())

/-- The call `driver.findElement(By.css(css))`. -/
def Driver.findElement (_driver : Driver) (env : Env) (css : String) : Eff WebElement :=
  prim env (Call.findElement css) id (fun _ => ⟨css⟩)

def Driver.takeScreenshot (_driver : Driver) (env : Env) : Eff String :=
  prim env Call.takeScreenshot id env.screenshot

def Driver.quit (_driver : Driver) (env : Env) : Eff Unit :=
  prim env Call.quit id (fun _ => ())

def WebElement.getText (el : WebElement) (env : Env) : Eff String :=
  prim env (Call.getText el.css) id env.text

def WebElement.click (el : WebElement) (env : Env) : Eff Unit :=
  prim env (Call.click el.css) id (fun _ => ())

def WebElement.sendKeys (el : WebElement) (env : Env) (keys : List String) : Eff Unit :=
  prim env (Call.sendKeys el.css keys) id (fun _ => ())

/-- Current content of a path. -/
def FS.find (files : FS) (p : String) : Option Node := files.lookup p

/-- Content of a regular file, the empty string when there is none. -/
def FS.read (files : FS) (p : String) : String :=
  match FS.find files p with
  | some (Node.file d) => d
  | _ => ""

def fs.existsSync (p : String) : Eff Bool :=
  note (Call.existsSync p) (fun files => (FS.find files p).isSome)

def fs.mkdirSync (env : Env) (p : String) : Eff Unit :=
  prim env (Call.mkdirSync p) (fun files => (p, Node.dir) :: files) (fun _ => ())

/-- The call `fs.writeFileSync(p, data, encoding)`: creates or replaces the file. -/
def fs.writeFileSync (env : Env) (p data : String) (encoding : Option String) : Eff Unit :=
  prim env (Call.writeFileSync p data encoding)
    (fun files =>
      (p, Node.file (if encoding = some "base64" then env.base64Decode data else data)) :: files)
    (fun _ => ())

/-- The call `fs.appendFileSync(p, data)`: creates the file when it is absent. -/
def fs.appendFileSync (env : Env) (p data : String) : Eff Unit :=
  prim env (Call.appendFileSync p data)
    (fun files => (p, Node.file (FS.read files p ++ data)) :: files) (fun _ => ())

def console.log (args : List String) : Eff Unit :=
  note (Call.consoleLog args) (fun _ => ())

def console.error (args : List String) : Eff Unit :=
  note (Call.consoleError args) (fun _ => ())

/-! ## The script -/

def initializeWebDriver (env : Env) (browser : String) : Eff Driver := do
  let driver ← Builder.build env browser
  driver.maximize env
  pure driver

def setupDirectory (env : Env) (dirName : String) : Eff String := do
  let dirPath := path.join env.dirname dirName
  let found ← fs.existsSync dirPath
  if !found then fs.mkdirSync env dirPath
  pure dirPath

def generateReportHeader : String :=
  "\n    <html>\n    <head>\n      <title>Reporte de Pruebas</title>\n      <link rel=\"stylesheet\" href=\"styles.css\">\n    </head>\n    <body>\n      <h1>Reporte de Pruebas Automatizadas</h1>\n      <table>\n        <thead>\n          <tr>\n            <th>Escenario</th>\n            <th>Resultado</th>\n            <th>Captura</th>\n          </tr>\n        </thead>\n        <tbody>\n  "

def initializeReportFile (env : Env) (fileName : String) : Eff String := do
  let filePath := path.join env.dirname fileName
  fs.writeFileSync env filePath generateReportHeader none
  pure filePath

/-- The text appended by `finalizeReport`. -/
def reportFooter : String :=
  "\n        </tbody>\n      </table>\n    </body>\n    </html>\n    "

def finalizeReport (env : Env) (reportFile : String) : Eff Unit :=
  fs.appendFileSync env reportFile reportFooter

def saveScreenshot (env : Env) (driver : Driver) (dir filename : String) : Eff Unit := do
  let screenshot ← driver.takeScreenshot env
  let filePath := path.join dir (filename ++ ".png")
  fs.writeFileSync env filePath screenshot (some "base64")
  console.log ["Captura guardada en: " ++ filePath]

/-- The text appended by `addToReport`. -/
def reportRow (testName result screenshot : String) : String :=
  let statusClass := if result = "Completada" then "success" else "failure"
  let screenshotPath := path.join "capturas" screenshot
  "\n    <tr>\n      <td>" ++ testName ++ "</td>\n      <td class=\"" ++ statusClass ++ "\">"
    ++ result ++ "</td>\n      <td><a href=\"" ++ screenshotPath
    ++ "\" target=\"_blank\">Ver</a></td>\n    </tr>\n    "

def addToReport (env : Env) (reportFile testName result screenshot : String) : Eff Unit :=
  fs.appendFileSync env reportFile (reportRow testName result screenshot)

def handleTestError (env : Env) (driver : Driver) (captureDir reportFile : String)
    (error : Err) : Eff Unit := do
  console.error ["Error capturado:", error]
  saveScreenshot env driver captureDir "test_error"
  addToReport env reportFile "Error durante la ejecución" "Fallo" "test_error.png"

def navigateToHome (env : Env) (driver : Driver) (captureDir reportFile : String) : Eff Unit := do
  driver.get env "https://stackoverflow.com"
  driver.sleep env 5000
  saveScreenshot env driver captureDir "inicio_stack"
  addToReport env reportFile "Inicio de StackOverflow" "Completada" "inicio_stack.png"

def selectFirstQuestion (env : Env) (driver : Driver) (captureDir reportFile : String) :
    Eff Unit :=
  tryCatch
    (do
      driver.get env "https://stackoverflow.com/questions"
      driver.sleep env 5000
      let firstQuestion ← driver.findElement env ".s-post-summary .s-link"
      let _questionText ← firstQuestion.getText env
      firstQuestion.click env
      driver.sleep env 5000
      saveScreenshot env driver captureDir "primera_pregunta"
      addToReport env reportFile "Seleccionar primera pregunta" "Completada"
        "primera_pregunta.png")
    (fun error => handleTestError env driver captureDir reportFile error)

def searchTags (env : Env) (driver : Driver) (captureDir reportFile : String) : Eff Unit :=
  tryCatch
    (do
      driver.get env "https://stackoverflow.com/tags"
      let searchText := "Javascript"
      let searchBox ← driver.findElement env "input[placeholder=\"Filter by tag name\"]"
      searchBox.sendKeys env [searchText]
      driver.sleep env 2000
      saveScreenshot env driver captureDir "busqueda_tags"
      addToReport env reportFile ("Búsqueda de tags: " ++ searchText) "Completada"
        "busqueda_tags.png")
    (fun error => handleTestError env driver captureDir reportFile error)

def validateLoginOnAskPage (env : Env) (driver : Driver) (captureDir reportFile : String) :
    Eff Unit :=
  tryCatch
    (do
      driver.get env "https://stackoverflow.com/questions/ask"
      saveScreenshot env driver captureDir "login_pregunta"
      addToReport env reportFile "Validación de login en Preguntar" "Completada"
        "login_pregunta.png")
    (fun error => handleTestError env driver captureDir reportFile error)

def searchAndClickCompany (env : Env) (driver : Driver) (captureDir reportFile : String) :
    Eff Unit :=
  tryCatch
    (do
      driver.get env "https://stackoverflow.com/jobs/companies"
      let searchInput ← driver.findElement env "input[placeholder=\"Search all companies\"]"
      searchInput.sendKeys env ["Contentful", Key.RETURN]
      driver.sleep env 5000
      saveScreenshot env driver captureDir "search_companies"
      addToReport env reportFile "Buscar y seleccionar compañía" "Completada"
        "search_companies.png")
    (fun error => handleTestError env driver captureDir reportFile error)

def testSuite (env : Env) (driver : Driver) (captureDir reportFile : String) : Eff Unit := do
  navigateToHome env driver captureDir reportFile
  selectFirstQuestion env driver captureDir reportFile
  searchTags env driver captureDir reportFile
  validateLoginOnAskPage env driver captureDir reportFile
  searchAndClickCompany env driver captureDir reportFile

/-- The `try`/`catch`/`finally` statement of `main`, once the three resources
are in hand. -/
def mainGuarded (env : Env) (driver : Driver) (captureDir reportFile : String) : Eff Unit :=
  tryCatchFinally
    (testSuite env driver captureDir reportFile)
    (fun error => do
      console.error ["Error durante la ejecución:", error]
      handleTestError env driver captureDir reportFile error)
    (do
      finalizeReport env reportFile
      driver.quit env
      console.log ["Reporte generado en:", reportFile])

def main (env : Env) : Eff Unit := do
  let driver ← initializeWebDriver env "chrome"
  let captureDir ← setupDirectory env "capturas"
  let reportFile ← initializeReportFile env "reporte.html"
  mainGuarded env driver captureDir reportFile

/-! ## Vocabulary of the properties -/

/-- The data of an entry when it is a successful append to `rep`. -/
def appendedData (rep : String) (e : Entry) : Option String :=
  match e.call, e.err with
  | Call.appendFileSync p d, none => if p = rep then some d else none
  | _, _ => none

/-- The blocks appended to `rep` over a stretch of trace, in order. -/
def appended (rep : String) (t : List Entry) : List String :=
  t.filterMap (appendedData rep)

/-- No call of the stretch threw. -/
def FaultFree (t : List Entry) : Prop := ∀ e ∈ t, e.err = none

instance (t : List Entry) : Decidable (FaultFree t) := by
  unfold FaultFree; infer_instance

/-- The path holds a regular file. -/
def IsFile (files : FS) (p : String) : Prop := ∃ d, FS.find files p = some (Node.file d)

/-- Number of entries of a stretch that are calls of `c` (thrown or not). -/
def callCount (c : Call) (t : List Entry) : Nat := (t.filter (fun e => e.call = c)).length

/-- The row a step appends on its success path. -/
def completedRow (testName name : String) : String :=
  reportRow testName "Completada" (name ++ ".png")

/-- The row `handleTestError` appends. -/
def failedRow : String := reportRow "Error durante la ejecución" "Fallo" "test_error.png"

/-- The diagnostic of `handleTestError` never throws: neither its screenshot
(the browser call that follows the `Error capturado:` console line), nor the
write of `test_error.png`, nor the append of the `Fallo` row. -/
structure DiagOk (env : Env) (captureDir reportFile : String) : Prop where
  shot : ∀ (h : List Entry) (e : Err),
    env.fault (h ++ [⟨Call.consoleError ["Error capturado:", e], none⟩]) Call.takeScreenshot = none
  write : ∀ (h : List Entry) (data : String),
    env.fault h (Call.writeFileSync (path.join captureDir "test_error.png") data (some "base64"))
      = none
  append : ∀ h : List Entry, env.fault h (Call.appendFileSync reportFile failedRow) = none

/-- The entries a piece of code adds to the trace when run from `w`. -/
def delta {α : Type} (m : Eff α) (w : World) : List Entry :=
  (m w).2.trace.drop w.trace.length

/-- Every run of `m` only adds entries, all of them satisfying `P`. -/
def Emits {α : Type} (P : Entry → Prop) (m : Eff α) : Prop :=
  ∀ w, (m w).2.trace = w.trace ++ delta m w ∧ ∀ e ∈ delta m w, P e

/-- Straight-line code that leaves the files alone: it adds entries satisfying
`P`, and it throws exactly when its last call threw. -/
def Lead {α : Type} (P : Entry → Prop) (m : Eff α) : Prop :=
  ∀ w, (m w).2.trace = w.trace ++ delta m w ∧ (∀ e ∈ delta m w, P e) ∧
    (m w).2.files = w.files ∧
    ((∃ a, (m w).1 = Outcome.ok a ∧ FaultFree (delta m w)) ∨
     (∃ e, (m w).1 = Outcome.throw e ∧ ¬ FaultFree (delta m w)))

/-- The entries `saveScreenshot driver dir name` can log. -/
def SaveEntry (dir name : String) (e : Entry) : Prop :=
  e.call = Call.takeScreenshot ∨
  (∃ data, e.call = Call.writeFileSync (path.join dir (name ++ ".png")) data (some "base64")) ∨
  e.call = Call.consoleLog ["Captura guardada en: " ++ path.join dir (name ++ ".png")]

/-- What a run of a `block` from `w` does, seen from outside: `P` bounds the
entries it logs, `row` is the row it appends and `shot` the file it writes. -/
structure BlockRun (env : Env) (rep : String) (P : Entry → Prop) (m : Eff Unit) (w : World)
    (row shot : String) : Prop where
  trace_eq : (m w).2.trace = w.trace ++ delta m w
  calls : ∀ e ∈ delta m w, P e
  keeps : ∀ p, IsFile w.files p → IsFile (m w).2.files p
  read_eq : shot ≠ rep →
    FS.read (m w).2.files rep = FS.read w.files rep ++ String.join (appended rep (delta m w))
  outcome :
    ((m w).1 = Outcome.ok () ∧ FaultFree (delta m w) ∧ appended rep (delta m w) = [row] ∧
      IsFile (m w).2.files shot) ∨
    (∃ e, (m w).1 = Outcome.throw e ∧ ¬ FaultFree (delta m w) ∧ appended rep (delta m w) = [])
  wrote : FaultFree (delta m w) →
    ∃ t, (⟨Call.writeFileSync shot (env.screenshot t) (some "base64"), none⟩ : Entry)
        ∈ delta m w ∧
      (shot ≠ rep →
        FS.find (m w).2.files shot = some (Node.file (env.base64Decode (env.screenshot t))))

/-- Every run of `m` logs a call of `c` first, then entries satisfying `P`. -/
def Headed {α : Type} (c : Call) (P : Entry → Prop) (m : Eff α) : Prop :=
  ∀ w, ∃ err rest, delta m w = ⟨c, err⟩ :: rest ∧ ∀ e ∈ rest, P e

/-- The entries `handleTestError` can log. -/
def HandlerEntry (captureDir reportFile : String) (e : Entry) : Prop :=
  (∃ x, e.call = Call.consoleError ["Error capturado:", x]) ∨
  SaveEntry captureDir "test_error" e ∨
  e.call = Call.appendFileSync reportFile failedRow

/-- What a run of one step from `w` does, seen from outside.  The step logs
its navigation `get url` first; `P` bounds what it logs afterwards; it ends in
one of three ways: clean (nothing threw, the `Completada` row `row` was
appended and `shot` written), recovered (something threw and the handler
appended the `Fallo` row and wrote `errShot`), or failed (it threw, and
appended nothing). -/
structure StepRun (env : Env) (rep url : String) (P : Entry → Prop) (m : Eff Unit)
    (w : World) (row shot errShot : String) : Prop where
  trace_eq : (m w).2.trace = w.trace ++ delta m w
  head : ∃ err rest, delta m w = ⟨Call.get url, err⟩ :: rest ∧ ∀ e ∈ rest, P e
  keeps : ∀ p, IsFile w.files p → IsFile (m w).2.files p
  read_eq : shot ≠ rep → errShot ≠ rep →
    FS.read (m w).2.files rep = FS.read w.files rep ++ String.join (appended rep (delta m w))
  outcome :
    ((m w).1 = Outcome.ok () ∧ FaultFree (delta m w) ∧ appended rep (delta m w) = [row] ∧
      IsFile (m w).2.files shot) ∨
    ((m w).1 = Outcome.ok () ∧ ¬ FaultFree (delta m w) ∧
      appended rep (delta m w) = [failedRow] ∧ IsFile (m w).2.files errShot) ∨
    (∃ e, (m w).1 = Outcome.throw e ∧ ¬ FaultFree (delta m w) ∧ appended rep (delta m w) = [])
  wrote : FaultFree (delta m w) →
    ∃ t, (⟨Call.writeFileSync shot (env.screenshot t) (some "base64"), none⟩ : Entry)
        ∈ delta m w ∧
      (shot ≠ rep →
        FS.find (m w).2.files shot = some (Node.file (env.base64Decode (env.screenshot t))))

/-- A plain file name: not empty, no separator, neither `.` nor `..`. -/
def PlainName (b : List Char) : Prop :=
  b ≠ [] ∧ '/' ∉ b ∧ b ≠ ['.'] ∧ b ≠ ['.', '.']

/-- The common shape of a step action and of `handleTestError`: some leading
calls, then `saveScreenshot`, then `addToReport`. -/
def block (env : Env) (driver : Driver) (captureDir reportFile : String) (lead : Eff Unit)
    (name testName result : String) : Eff Unit := do
  lead
  saveScreenshot env driver captureDir name
  addToReport env reportFile testName result (name ++ ".png")

/-- Leading calls of `navigateToHome`. -/
def leadHome (env : Env) (driver : Driver) : Eff Unit := do
  driver.get env "https://stackoverflow.com"
  driver.sleep env 5000

/-- Leading calls of `selectFirstQuestion`. -/
def leadQuestion (env : Env) (driver : Driver) : Eff Unit := do
  driver.get env "https://stackoverflow.com/questions"
  driver.sleep env 5000
  let firstQuestion ← driver.findElement env ".s-post-summary .s-link"
  let _questionText ← firstQuestion.getText env
  firstQuestion.click env
  driver.sleep env 5000

/-- Leading calls of `searchTags`. -/
def leadTags (env : Env) (driver : Driver) : Eff Unit := do
  driver.get env "https://stackoverflow.com/tags"
  let searchBox ← driver.findElement env "input[placeholder=\"Filter by tag name\"]"
  searchBox.sendKeys env ["Javascript"]
  driver.sleep env 2000

/-- Leading calls of `validateLoginOnAskPage`. -/
def leadAsk (env : Env) (driver : Driver) : Eff Unit :=
  driver.get env "https://stackoverflow.com/questions/ask"

/-- Leading calls of `searchAndClickCompany`. -/
def leadCompany (env : Env) (driver : Driver) : Eff Unit := do
  driver.get env "https://stackoverflow.com/jobs/companies"
  let searchInput ← driver.findElement env "input[placeholder=\"Search all companies\"]"
  searchInput.sendKeys env ["Contentful", Key.RETURN]
  driver.sleep env 5000

/-- The constants of one step of the suite: where it navigates, the browser
calls it makes afterwards, the name of its screenshot and of its report row. -/
structure StepInfo where
  url : String
  calls : List Call
  name : String
  testName : String
  deriving DecidableEq, Repr

def homeInfo : StepInfo :=
  ⟨"https://stackoverflow.com", [Call.sleep 5000], "inicio_stack", "Inicio de StackOverflow"⟩

def questionInfo : StepInfo :=
  ⟨"https://stackoverflow.com/questions",
    [Call.sleep 5000, Call.findElement ".s-post-summary .s-link",
      Call.getText ".s-post-summary .s-link", Call.click ".s-post-summary .s-link"],
    "primera_pregunta", "Seleccionar primera pregunta"⟩

def tagsInfo : StepInfo :=
  ⟨"https://stackoverflow.com/tags",
    [Call.findElement "input[placeholder=\"Filter by tag name\"]",
      Call.sendKeys "input[placeholder=\"Filter by tag name\"]" ["Javascript"], Call.sleep 2000],
    "busqueda_tags", "Búsqueda de tags: Javascript"⟩

def askInfo : StepInfo :=
  ⟨"https://stackoverflow.com/questions/ask", [], "login_pregunta",
    "Validación de login en Preguntar"⟩

def companyInfo : StepInfo :=
  ⟨"https://stackoverflow.com/jobs/companies",
    [Call.findElement "input[placeholder=\"Search all companies\"]",
      Call.sendKeys "input[placeholder=\"Search all companies\"]" ["Contentful", Key.RETURN],
      Call.sleep 5000],
    "search_companies", "Buscar y seleccionar compañía"⟩

/-- The five steps, in the order `testSuite` runs them. -/
def suiteInfo : List StepInfo := [homeInfo, questionInfo, tagsInfo, askInfo, companyInfo]

/-- The screenshot file of a step. -/
def StepInfo.shot (info : StepInfo) (captureDir : String) : String :=
  path.join captureDir (info.name ++ ".png")

/-- The `Completada` row of a step. -/
def StepInfo.row (info : StepInfo) : String := completedRow info.testName info.name

/-- The entries a step can log after its navigation: its own browser calls,
its screenshot, its `Completada` row, and the calls of `handleTestError`. -/
def StepEntry (captureDir reportFile : String) (info : StepInfo) (e : Entry) : Prop :=
  e.call ∈ info.calls ∨ SaveEntry captureDir info.name e ∨
  e.call = Call.appendFileSync reportFile info.row ∨ HandlerEntry captureDir reportFile e

/-- Run pieces of code in order; the first one that throws ends the run. -/
def runAll : List (Eff Unit) → Eff Unit
  | [] => pure ()
  | m :: rest => m >>= fun _ => runAll rest

/-- The stretch of trace each piece logs when `runAll` runs the list from
`w`: one stretch per piece that starts. -/
def segments : List (Eff Unit) → World → List (List Entry)
  | [], _ => []
  | m :: rest, w =>
    delta m w ::
      (match m w with
       | (Outcome.ok _, w1) => segments rest w1
       | (Outcome.throw _, _) => [])

/-- The five step functions, in the order `testSuite` calls them. -/
def suiteSteps (env : Env) (driver : Driver) (captureDir reportFile : String) :
    List (Eff Unit) :=
  [navigateToHome env driver captureDir reportFile,
   selectFirstQuestion env driver captureDir reportFile,
   searchTags env driver captureDir reportFile,
   validateLoginOnAskPage env driver captureDir reportFile,
   searchAndClickCompany env driver captureDir reportFile]

/-- What the stretch `seg` of a step tells, `files` being the files at the
end of the run: it starts with the navigation of the step and goes on with
entries of the step; and either nothing threw, the `Completada` row is the one
block appended and the screenshot of the step is on disk, or something threw
and the `Fallo` row is the one block appended and `test_error.png` is on
disk, or something threw and nothing was appended. -/
def SegOf (captureDir reportFile : String) (files : FS) (info : StepInfo)
    (seg : List Entry) : Prop :=
  (∃ err rest, seg = ⟨Call.get info.url, err⟩ :: rest ∧
    ∀ e ∈ rest, StepEntry captureDir reportFile info e) ∧
  ((FaultFree seg ∧ appended reportFile seg = [info.row] ∧
      IsFile files (info.shot captureDir)) ∨
   (¬ FaultFree seg ∧ appended reportFile seg = [failedRow] ∧
      IsFile files (path.join captureDir "test_error.png")) ∨
   (¬ FaultFree seg ∧ appended reportFile seg = []))

/-- What a run of `runAll steps` from `w` does, the steps being described by
`infos`: the trace grows by the stretches of the steps that started, in order;
files are kept; the report grows by the blocks appended; each stretch has the
shape `SegOf`; and either the run returns, every step ran and appended exactly
one block, or it throws, the last step that started threw and appended
nothing, and the ones before it appended exactly one block each. -/
structure SuiteRun (cap rep : String) (steps : List (Eff Unit)) (infos : List StepInfo)
    (w : World) : Prop where
  trace_eq : (runAll steps w).2.trace = w.trace ++ (segments steps w).flatten
  keeps : ∀ p, IsFile w.files p → IsFile (runAll steps w).2.files p
  read_eq : (∀ info ∈ infos, info.shot cap ≠ rep) → path.join cap "test_error.png" ≠ rep →
    FS.read (runAll steps w).2.files rep =
      FS.read w.files rep ++ String.join (appended rep (segments steps w).flatten)
  segs : List.Forall₂ (SegOf cap rep (runAll steps w).2.files)
    (infos.take (segments steps w).length) (segments steps w)
  outcome :
    ((runAll steps w).1 = Outcome.ok () ∧ (segments steps w).length = steps.length ∧
      ∀ seg ∈ segments steps w, (appended rep seg).length = 1) ∨
    (∃ e pre last, (runAll steps w).1 = Outcome.throw e ∧ segments steps w = pre ++ [last] ∧
      (∀ seg ∈ pre, (appended rep seg).length = 1) ∧ appended rep last = [] ∧
      ¬ FaultFree last)

/-- The `catch` block of `main`. -/
def mainCatch (env : Env) (driver : Driver) (captureDir reportFile : String) (error : Err) :
    Eff Unit := do
  console.error ["Error durante la ejecución:", error]
  handleTestError env driver captureDir reportFile error

/-- The `finally` block of `main`. -/
def mainFinally (env : Env) (driver : Driver) (reportFile : String) : Eff Unit := do
  finalizeReport env reportFile
  driver.quit env
  console.log ["Reporte generado en:", reportFile]

/-- The entry of the footer append, with its result. -/
def footerEntry (reportFile : String) (err : Option Err) : Entry :=
  ⟨Call.appendFileSync reportFile reportFooter, err⟩

/-- The stretch `t` a call `handleTestError(driver, captureDir, reportFile, e)`
logs and its result `r`: the console line, then the screenshot, the write of
`test_error.png`, the console line of `saveScreenshot` and the append of the
`Fallo` row, cut short at the first of them that throws. -/
def HandlerTrace (cap rep : String) (e : Err) (t : List Entry) (r : Outcome Unit) : Prop :=
  ∃ data,
    (∃ x, r = Outcome.throw x ∧
      t = [⟨Call.consoleError ["Error capturado:", e], none⟩,
        ⟨Call.takeScreenshot, some x⟩]) ∨
    (∃ x, r = Outcome.throw x ∧
      t = [⟨Call.consoleError ["Error capturado:", e], none⟩, ⟨Call.takeScreenshot, none⟩,
        ⟨Call.writeFileSync (path.join cap "test_error.png") data (some "base64"), some x⟩]) ∨
    (∃ x, r = Outcome.throw x ∧
      t = [⟨Call.consoleError ["Error capturado:", e], none⟩, ⟨Call.takeScreenshot, none⟩,
        ⟨Call.writeFileSync (path.join cap "test_error.png") data (some "base64"), none⟩,
        ⟨Call.consoleLog ["Captura guardada en: " ++ path.join cap "test_error.png"], none⟩,
        ⟨Call.appendFileSync rep failedRow, some x⟩]) ∨
    (r = Outcome.ok () ∧
      t = [⟨Call.consoleError ["Error capturado:", e], none⟩, ⟨Call.takeScreenshot, none⟩,
        ⟨Call.writeFileSync (path.join cap "test_error.png") data (some "base64"), none⟩,
        ⟨Call.consoleLog ["Captura guardada en: " ++ path.join cap "test_error.png"], none⟩,
        ⟨Call.appendFileSync rep failedRow, none⟩])

/-- What a run of the `try` statement of `main` from `w` does.  `suite` is the
result of `testSuite` and `segs` the stretches of its steps, `top` is what the
`catch` block logged, `fin` what the `finally` block logged, `mid` the result
pending when the `finally` block starts, and `final` the result and the world
at the end. -/
structure MainRun (env : Env) (cap rep : String) (w : World) (suite : Outcome Unit)
    (segs : List (List Entry)) (top fin : List Entry) (mid : Outcome Unit)
    (final : Outcome Unit × World) : Prop where
  trace_eq : final.2.trace = w.trace ++ (segs.flatten ++ top ++ fin)
  keeps : ∀ p, IsFile w.files p → IsFile final.2.files p
  read_eq : (∀ info ∈ suiteInfo, info.shot cap ≠ rep) → path.join cap "test_error.png" ≠ rep →
    FS.read final.2.files rep =
      FS.read w.files rep ++ String.join (appended rep (segs.flatten ++ top ++ fin))
  segs_ok : List.Forall₂ (SegOf cap rep final.2.files) (suiteInfo.take segs.length) segs
  suite_cases :
    (suite = Outcome.ok () ∧ segs.length = 5 ∧ ∀ seg ∈ segs, (appended rep seg).length = 1) ∨
    (∃ e pre last, suite = Outcome.throw e ∧ segs = pre ++ [last] ∧
      (∀ seg ∈ pre, (appended rep seg).length = 1) ∧ appended rep last = [] ∧
      ¬ FaultFree last)
  top_cases :
    (suite = Outcome.ok () ∧ top = [] ∧ mid = Outcome.ok ()) ∨
    (∃ e t, suite = Outcome.throw e ∧
      top = ⟨Call.consoleError ["Error durante la ejecución:", e], none⟩ :: t ∧
      (∀ x ∈ t, HandlerEntry cap rep x) ∧ HandlerTrace cap rep e t mid ∧
      ((mid = Outcome.ok () ∧ FaultFree t ∧ appended rep t = [failedRow] ∧
          IsFile final.2.files (path.join cap "test_error.png")) ∨
       (∃ e', mid = Outcome.throw e' ∧ ¬ FaultFree t ∧ appended rep t = [])))
  fin_cases :
    (∃ e, fin = [footerEntry rep (some e)] ∧ final.1 = Outcome.throw e) ∨
    (∃ e, fin = [footerEntry rep none, ⟨Call.quit, some e⟩] ∧ final.1 = Outcome.throw e) ∨
    (fin = [footerEntry rep none, ⟨Call.quit, none⟩,
        ⟨Call.consoleLog ["Reporte generado en:", rep], none⟩] ∧ final.1 = mid)
  diag : DiagOk env cap rep →
    mid = Outcome.ok () ∧ ∀ e, suite = Outcome.throw e → segs.length = 1

/-- The three resources of `main` have been acquired from `w`: the browser
session `d`, the capture directory `cap` and the report file `rep`, leaving
the world `w3`. -/
def Acquired (env : Env) (w : World) (d : Driver) (cap rep : String) (w3 : World) : Prop :=
  ∃ w1 w2, initializeWebDriver env "chrome" w = (Outcome.ok d, w1) ∧
    setupDirectory env "capturas" w1 = (Outcome.ok cap, w2) ∧
    initializeReportFile env "reporte.html" w2 = (Outcome.ok rep, w3)
/-- The arguments of one call `addToReport(reportFile, testName, result, screenshot)`. -/
structure RowCall where
  testName : String
  result : String
  screenshot : String
  deriving DecidableEq, Repr

/-- The calls `addToReport(reportFile, ...)` of a list, made in order. -/
def addAll (env : Env) (reportFile : String) : List RowCall → Eff Unit
  | [] => pure ()
  | c :: rest => do
    addToReport env reportFile c.testName c.result c.screenshot
    addAll env reportFile rest

/-- A report session: `initializeReportFile`, then the calls of `addToReport`,
then `finalizeReport`. -/
def reportSession (env : Env) (fileName : String) (calls : List RowCall) : Eff Unit := do
  let reportFile ← initializeReportFile env fileName
  addAll env reportFile calls
  finalizeReport env reportFile

/-- One row of the report table, spelled out: scenario name, result cell with
its CSS class, link to the capture. -/
def rowMarkup (testName statusClass result href : String) : String :=
  "\n    <tr>\n      <td>" ++ testName ++ "</td>\n      <td class=\"" ++ statusClass ++ "\">"
    ++ result ++ "</td>\n      <td><a href=\"" ++ href
    ++ "\" target=\"_blank\">Ver</a></td>\n    </tr>\n    "

/-- The entries logged before the `finally` block of `main`: those of the
five steps, the console line of the `catch` block, and those of
`handleTestError`. -/
def InnerEntry (cap rep : String) (e : Entry) : Prop :=
  (∃ info ∈ suiteInfo, e.call = Call.get info.url ∨ StepEntry cap rep info e) ∨
  (∃ x, e.call = Call.consoleError ["Error durante la ejecución:", x]) ∨
  HandlerEntry cap rep e

/-- The entries a run of the `try` statement of `main` can log: the inner
ones and the three calls of the `finally` block. -/
def MainEntry (cap rep : String) (e : Entry) : Prop :=
  InnerEntry cap rep e ∨
  e.call = Call.appendFileSync rep reportFooter ∨
  e.call = Call.quit ∨
  e.call = Call.consoleLog ["Reporte generado en:", rep]
/-- Evidence naming for the step `m` with constants `info`: from every world,
when no call of the step throws, the step returns, the file
`<name>.png` under the capture directory holds the picture the browser
returned (whatever it held before), the write of that file is logged, and the
one block the step appends to the report is the `Completada` row linking to
`capturas/<name>.png`. -/
def NamesEvidence (env : Env) (cap rep : String) (m : Eff Unit) (info : StepInfo) : Prop :=
  ∀ w, FaultFree (delta m w) →
    (m w).1 = Outcome.ok () ∧
    (∃ t, FS.find (m w).2.files (path.join cap (info.name ++ ".png")) =
        some (Node.file (env.base64Decode (env.screenshot t))) ∧
      (⟨Call.writeFileSync (path.join cap (info.name ++ ".png")) (env.screenshot t)
        (some "base64"), none⟩ : Entry) ∈ delta m w) ∧
    appended rep (delta m w) =
      [rowMarkup info.testName "success" "Completada" ("capturas/" ++ info.name ++ ".png")]

/-- The navigations of a stretch of trace: the addresses of its `get` calls,
in order. -/
def navigations (t : List Entry) : List String :=
  t.filterMap (fun e => match e.call with
    | Call.get url => some url
    | _ => none)

/-- The call is one of the page interactions of the steps. -/
def Call.isInteraction : Call → Bool
  | Call.sleep _ => true
  | Call.findElement _ => true
  | Call.getText _ => true
  | Call.click _ => true
  | Call.sendKeys _ _ => true
  | _ => false

/-! ## Counting tags in a text -/

/-- Number of positions of `s` at which the text `pat` starts. -/
def occurrences (pat : List Char) : List Char → Nat
  | [] => 0
  | c :: cs => (if pat.isPrefixOf (c :: cs) then 1 else 0) + occurrences pat cs

/-- Number of places of the text `s` where the text `pat` occurs (for instance
the number of `<tr>` tags of a piece of markup). -/
def countOf (pat s : String) : Nat :=
  occurrences pat.data s.data

/-- No ending of `a` is the beginning of an occurrence of `pat` that goes on
past the end of `a`. -/
def straddleFree (pat : List Char) : List Char → Bool
  | [] => true
  | c :: cs =>
    (decide (pat.length ≤ (c :: cs).length) || !(c :: cs).isPrefixOf pat) && straddleFree pat cs

/-- The block a call of `fs.appendFileSync` on `rep` was given, whether the
call threw or not. -/
def attemptedData (rep : String) (e : Entry) : Option String :=
  match e.call with
  | Call.appendFileSync p d => if p = rep then some d else none
  | _ => none

/-- The blocks the calls of `fs.appendFileSync` on `rep` were given over a
stretch of trace, in order, whether they threw or not. -/
def attempted (rep : String) (t : List Entry) : List String :=
  t.filterMap (attemptedData rep)

/-! ## Concrete inputs -/

/-- A world with no file and no history. -/
def emptyWorld : World := ⟨[], []⟩

/-- An environment in which no call throws. -/
def calmEnv : Env where
  dirname := "/home/u/tarea"
  fault := fun _ _ => none
  screenshot := fun _ => "iVBORw0KGgo="
  text := fun _ => "How do I undo the most recent local commits in Git?"
  base64Decode := fun s => s

/-- The navigation to the home page times out; every other call succeeds. -/
def homeDownEnv : Env where
  dirname := "/home/u/tarea"
  fault := fun _ c =>
    if c = Call.get "https://stackoverflow.com" then some "TimeoutError" else none
  screenshot := fun _ => "iVBORw0KGgo="
  text := fun _ => ""
  base64Decode := fun s => s

/-- The browser dies once the session is started: every later WebDriver
command throws, the files and the console work. -/
def deadBrowserEnv : Env where
  dirname := "/home/u/tarea"
  fault := fun _ c =>
    match c with
    | Call.get _ => some "NoSuchSessionError"
    | Call.sleep _ => some "NoSuchSessionError"
    | Call.findElement _ => some "NoSuchSessionError"
    | Call.getText _ => some "NoSuchSessionError"
    | Call.click _ => some "NoSuchSessionError"
    | Call.sendKeys _ _ => some "NoSuchSessionError"
    | Call.takeScreenshot => some "NoSuchSessionError"
    | Call.quit => some "NoSuchSessionError"
    | _ => none
  screenshot := fun _ => ""
  text := fun _ => ""
  base64Decode := fun s => s

/-- The page of the questions has no element for the selector of the second
step; every other call succeeds. -/
def noQuestionEnv : Env where
  dirname := "/home/u/tarea"
  fault := fun _ c =>
    if c = Call.findElement ".s-post-summary .s-link" then some "NoSuchElementError" else none
  screenshot := fun _ => "iVBORw0KGgo="
  text := fun _ => ""
  base64Decode := fun s => s

/-- The disk is full when the footer is appended; every other call succeeds. -/
def diskFullEnv : Env where
  dirname := "/home/u/tarea"
  fault := fun _ c =>
    if c = Call.appendFileSync "/home/u/tarea/reporte.html" reportFooter then some "ENOSPC"
    else none
  screenshot := fun _ => "iVBORw0KGgo="
  text := fun _ => ""
  base64Decode := fun s => s

/-- A file system where `capturas` is a regular file. -/
def capturasIsFile : World :=
  ⟨[("/home/u/tarea/capturas", Node.file "not a directory")], []⟩

/-- The session of the concrete runs. -/
def chrome : Driver := ⟨"chrome"⟩

/-- A report session of two rows. -/
def twoRows : List RowCall :=
  [⟨"Inicio de StackOverflow", "Completada", "inicio_stack.png"⟩,
   ⟨"Error durante la ejecución", "Fallo", "test_error.png"⟩]

/-- A world where the report file holds the text of an older run. -/
def staleReport : World := ⟨[("/home/u/tarea/reporte.html", Node.file "<html>old</html>")], []⟩

/-- The browser dies when the second step navigates: that navigation throws,
and so does every screenshot asked for once a call has thrown. -/
def dyingBrowserEnv : Env where
  dirname := "/home/u/tarea"
  fault := fun h c =>
    match c with
    | Call.get url =>
      if url = "https://stackoverflow.com/questions" then some "NoSuchSessionError" else none
    | Call.takeScreenshot =>
      if h.any (fun e => e.err.isSome) then some "NoSuchSessionError" else none
    | _ => none
  screenshot := fun _ => "iVBORw0KGgo="
  text := fun _ => ""
  base64Decode := fun s => s

/-- The world in which the `try` statement of `main` starts, when the run
starts from `emptyWorld`. -/
def acquiredWorld (env : Env) : World :=
  (initializeReportFile env "reporte.html"
    (setupDirectory env "capturas" (initializeWebDriver env "chrome" emptyWorld).2).2).2

/-- A report session of one row whose scenario name holds markup. -/
def markupRow : List RowCall :=
  [⟨"x</td></tr><tr><td>y", "Completada", "a.png"⟩]

/-- The append of the row of the second step throws; every other call
succeeds. -/
def rowLostEnv : Env where
  dirname := "/home/u/tarea"
  fault := fun _ c =>
    if c = Call.appendFileSync "/home/u/tarea/reporte.html" questionInfo.row then some "EIO"
    else none
  screenshot := fun _ => "iVBORw0KGgo="
  text := fun _ => ""
  base64Decode := fun s => s

/-- The navigation to the home page times out and the disk is full when the
footer is appended; every other call succeeds. -/
def homeDownDiskFullEnv : Env where
  dirname := "/home/u/tarea"
  fault := fun _ c =>
    if c = Call.get "https://stackoverflow.com" then some "TimeoutError"
    else if c = Call.appendFileSync "/home/u/tarea/reporte.html" reportFooter then some "ENOSPC"
    else none
  screenshot := fun _ => "iVBORw0KGgo="
  text := fun _ => ""
  base64Decode := fun s => s

/-! ## Running the primitives -/

@[simp] theorem bind_run {α β : Type} (m : Eff α) (f : α → Eff β) (w : World) :
    (m >>= f) w = Eff.bind m f w := rfl

@[simp] theorem pure_run {α : Type} (a : α) (w : World) :
    (Pure.pure a : Eff α) w = (Outcome.ok a, w) := rfl

theorem bind_ok {α β : Type} {m : Eff α} {f : α → Eff β} {w w1 : World} {a : α}
    (h : m w = (Outcome.ok a, w1)) : Eff.bind m f w = f a w1 := by
  simp [Eff.bind, h]

theorem bind_throw {α β : Type} {m : Eff α} {f : α → Eff β} {w w1 : World} {e : Err}
    (h : m w = (Outcome.throw e, w1)) : Eff.bind m f w = (Outcome.throw e, w1) := by
  simp [Eff.bind, h]

theorem bind_assoc_run {α β γ : Type} (m : Eff α) (f : α → Eff β) (g : β → Eff γ) :
    Eff.bind (Eff.bind m f) g = Eff.bind m (fun a => Eff.bind (f a) g) := by
  funext w
  simp only [Eff.bind]
  rcases m w with ⟨r, w1⟩
  cases r <;> rfl

theorem prim_none {α : Type} {env : Env} {c : Call} {eff : FS → FS} {ret : List Entry → α}
    {w : World} (h : env.fault w.trace c = none) :
    prim env c eff ret w =
      (Outcome.ok (ret w.trace), { files := eff w.files, trace := w.trace ++ [⟨c, none⟩] }) := by
  simp [prim, h]

theorem prim_some {α : Type} {env : Env} {c : Call} {eff : FS → FS} {ret : List Entry → α}
    {w : World} {e : Err} (h : env.fault w.trace c = some e) :
    prim (α := α) env c eff ret w =
      (Outcome.throw e, { files := w.files, trace := w.trace ++ [⟨c, some e⟩] }) := by
  simp [prim, h]

theorem string_foldl_append (l : List String) (acc : String) :
    l.foldl (fun r s => r ++ s) acc = acc ++ l.foldl (fun r s => r ++ s) "" := by
  induction l generalizing acc with
  | nil => simp
  | cons a t ih =>
    simp only [List.foldl_cons]
    rw [ih, ih ("" ++ a)]
    simp [String.append_assoc]

@[simp] theorem string_join_nil : String.join [] = "" := rfl

@[simp] theorem string_join_cons (a : String) (l : List String) :
    String.join (a :: l) = a ++ String.join l := by
  simp only [String.join, List.foldl_cons]
  rw [string_foldl_append]
  simp

theorem string_join_append (l1 l2 : List String) :
    String.join (l1 ++ l2) = String.join l1 ++ String.join l2 := by
  simp only [String.join, List.foldl_append]
  rw [string_foldl_append]

theorem appended_append (rep : String) (s t : List Entry) :
    appended rep (s ++ t) = appended rep s ++ appended rep t := by
  simp [appended]

theorem faultFree_append {s t : List Entry} : FaultFree (s ++ t) ↔ FaultFree s ∧ FaultFree t := by
  simp only [FaultFree, List.mem_append]
  constructor
  · intro h; exact ⟨fun e he => h e (Or.inl he), fun e he => h e (Or.inr he)⟩
  · rintro ⟨h1, h2⟩ e (he | he)
    · exact h1 e he
    · exact h2 e he

theorem handleTestError_eq (env : Env) (d : Driver) (cap rep : String) (e : Err) :
    handleTestError env d cap rep e =
      block env d cap rep (console.error ["Error capturado:", e]) "test_error"
        "Error durante la ejecución" "Fallo" := rfl

/-! ## The trace only grows -/

theorem delta_of_eq {α : Type} {m : Eff α} {w : World} {t : List Entry}
    (h : (m w).2.trace = w.trace ++ t) : delta m w = t := by
  simp [delta, h]

theorem delta_prim {α : Type} (env : Env) (c : Call) (eff : FS → FS) (ret : List Entry → α)
    (w : World) : delta (prim env c eff ret) w = [⟨c, env.fault w.trace c⟩] := by
  apply delta_of_eq
  cases h : env.fault w.trace c <;> simp [prim, h]

theorem delta_note {α : Type} (c : Call) (ret : FS → α) (w : World) :
    delta (note c ret) w = [⟨c, none⟩] := by
  apply delta_of_eq
  simp [note]

theorem emits_prim {α : Type} {P : Entry → Prop} (env : Env) (c : Call) (eff : FS → FS)
    (ret : List Entry → α) (h : ∀ err, P ⟨c, err⟩) : Emits P (prim env c eff ret) := by
  intro w
  rw [delta_prim]
  refine ⟨?_, by simpa using h _⟩
  cases h : env.fault w.trace c <;> simp [prim, h]

theorem emits_note {α : Type} {P : Entry → Prop} (c : Call) (ret : FS → α)
    (h : P ⟨c, none⟩) : Emits P (note c ret) := by
  intro w
  rw [delta_note]
  exact ⟨by simp [note], by simpa using h⟩

theorem emits_pure {α : Type} {P : Entry → Prop} (a : α) : Emits P (pure a : Eff α) := by
  intro w
  have : delta (pure a : Eff α) w = [] := delta_of_eq (by simp)
  rw [this]
  simp

theorem emits_bind_of {α β : Type} {P : Entry → Prop} {R : α → Prop} {m : Eff α}
    {f : α → Eff β} (hm : Emits P m) (hR : ∀ w a, (m w).1 = Outcome.ok a → R a)
    (hf : ∀ a, R a → Emits P (f a)) : Emits P (m >>= f) := by
  intro w
  obtain ⟨h1, h2⟩ := hm w
  have hRw := hR w
  have key : ∃ t, ((m >>= f) w).2.trace = w.trace ++ t ∧ ∀ e ∈ t, P e := by
    rcases hmw : m w with ⟨r, w1⟩
    rw [hmw] at h1 hRw
    cases r with
    | ok a =>
      obtain ⟨h3, h4⟩ := hf a (hRw a rfl) w1
      refine ⟨delta m w ++ delta (f a) w1, ?_, ?_⟩
      · rw [bind_run, bind_ok hmw, h3, h1, List.append_assoc]
      · intro e he
        rcases List.mem_append.1 he with he | he
        · exact h2 e he
        · exact h4 e he
    | throw e =>
      refine ⟨delta m w, ?_, h2⟩
      rw [bind_run, bind_throw hmw]
      exact h1
  obtain ⟨t, ht, hP⟩ := key
  rw [delta_of_eq ht]
  exact ⟨ht, hP⟩

theorem emits_bind {α β : Type} {P : Entry → Prop} {m : Eff α} {f : α → Eff β}
    (hm : Emits P m) (hf : ∀ a, Emits P (f a)) : Emits P (m >>= f) :=
  emits_bind_of (R := fun _ => True) hm (fun _ _ _ => trivial) (fun a _ => hf a)

theorem prim_returns {α : Type} (env : Env) (c : Call) (eff : FS → FS) (ret : List Entry → α)
    (w : World) (a : α) (h : (prim env c eff ret w).1 = Outcome.ok a) : ∃ t, a = ret t := by
  unfold prim at h
  cases hf : env.fault w.trace c with
  | none => rw [hf] at h; simp only [Outcome.ok.injEq] at h; exact ⟨w.trace, h.symm⟩
  | some e => rw [hf] at h; simp at h

theorem emits_bind_prim {α β : Type} {P : Entry → Prop} (env : Env) (c : Call) (eff : FS → FS)
    (ret : List Entry → α) {f : α → Eff β} (hc : ∀ err, P ⟨c, err⟩)
    (hf : ∀ t, Emits P (f (ret t))) : Emits P (prim env c eff ret >>= f) :=
  emits_bind_of (R := fun a => ∃ t, a = ret t) (emits_prim env c eff ret hc)
    (prim_returns env c eff ret) (by rintro a ⟨t, rfl⟩; exact hf t)

theorem emits_tryCatch {α : Type} {P : Entry → Prop} {m : Eff α} {h : Err → Eff α}
    (hm : Emits P m) (hh : ∀ e, Emits P (h e)) : Emits P (tryCatch m h) := by
  intro w
  obtain ⟨h1, h2⟩ := hm w
  have key : ∃ t, (tryCatch m h w).2.trace = w.trace ++ t ∧ ∀ e ∈ t, P e := by
    rcases hmw : m w with ⟨r, w1⟩
    rw [hmw] at h1
    cases r with
    | ok a =>
      refine ⟨delta m w, ?_, h2⟩
      simp only [tryCatch, hmw]
      exact h1
    | throw e =>
      obtain ⟨h3, h4⟩ := hh e w1
      refine ⟨delta m w ++ delta (h e) w1, ?_, ?_⟩
      · simp only [tryCatch, hmw]
        rw [h3, h1, List.append_assoc]
      · intro x hx
        rcases List.mem_append.1 hx with hx | hx
        · exact h2 x hx
        · exact h4 x hx
  obtain ⟨t, ht, hP⟩ := key
  rw [delta_of_eq ht]
  exact ⟨ht, hP⟩

theorem emits_mono {α : Type} {P Q : Entry → Prop} {m : Eff α} (hm : Emits P m)
    (hPQ : ∀ e, P e → Q e) : Emits Q m :=
  fun w => ⟨(hm w).1, fun e he => hPQ e ((hm w).2 e he)⟩

/-! ## Straight-line code -/

theorem lead_prim {α : Type} {P : Entry → Prop} (env : Env) (c : Call) (ret : List Entry → α)
    (h : ∀ err, P ⟨c, err⟩) : Lead P (prim env c id ret) := by
  intro w
  rw [delta_prim]
  cases hf : env.fault w.trace c <;> simp [prim, hf, FaultFree, h]

theorem lead_note {α : Type} {P : Entry → Prop} (c : Call) (ret : FS → α)
    (h : P ⟨c, none⟩) : Lead P (note c ret) := by
  intro w
  rw [delta_note]
  simp [note, FaultFree, h]

theorem lead_bind_of {α β : Type} {P : Entry → Prop} {R : α → Prop} {m : Eff α}
    {f : α → Eff β} (hm : Lead P m) (hR : ∀ w a, (m w).1 = Outcome.ok a → R a)
    (hf : ∀ a, R a → Lead P (f a)) : Lead P (m >>= f) := by
  intro w
  obtain ⟨h1, h2, h3, h4⟩ := hm w
  have hRw := hR w
  rcases hmw : m w with ⟨r, w1⟩
  rw [hmw] at h1 h3 h4 hRw
  cases r with
  | ok a =>
    obtain ⟨g1, g2, g3, g4⟩ := hf a (hRw a rfl) w1
    have hrun : (m >>= f) w = f a w1 := by rw [bind_run, bind_ok hmw]
    have ht : ((m >>= f) w).2.trace = w.trace ++ (delta m w ++ delta (f a) w1) := by
      rw [hrun, g1, h1, List.append_assoc]
    have hff : FaultFree (delta m w) := by
      rcases h4 with ⟨_, _, h⟩ | ⟨e, h, _⟩
      · exact h
      · simp at h
    rw [delta_of_eq ht, hrun]
    refine ⟨by rw [g1, h1, List.append_assoc], ?_, by rw [g3, h3], ?_⟩
    · intro e he
      rcases List.mem_append.1 he with he | he
      · exact h2 e he
      · exact g2 e he
    · rcases g4 with ⟨b, hb, hfb⟩ | ⟨e, he, hfe⟩
      · exact Or.inl ⟨b, hb, faultFree_append.2 ⟨hff, hfb⟩⟩
      · exact Or.inr ⟨e, he, fun hc => hfe (faultFree_append.1 hc).2⟩
  | throw e =>
    have hrun : (m >>= f) w = (Outcome.throw e, w1) := by rw [bind_run, bind_throw hmw]
    have ht : ((m >>= f) w).2.trace = w.trace ++ delta m w := by rw [hrun]; exact h1
    rw [delta_of_eq ht, hrun]
    refine ⟨h1, h2, h3, ?_⟩
    rcases h4 with ⟨a, h, _⟩ | ⟨e', h, hf'⟩
    · simp at h
    · exact Or.inr ⟨e, rfl, hf'⟩

theorem lead_bind_prim {α β : Type} {P : Entry → Prop} (env : Env) (c : Call)
    (ret : List Entry → α) {f : α → Eff β} (hc : ∀ err, P ⟨c, err⟩)
    (hf : ∀ t, Lead P (f (ret t))) : Lead P (prim env c id ret >>= f) :=
  lead_bind_of (R := fun a => ∃ t, a = ret t) (lead_prim env c ret hc)
    (prim_returns env c id ret) (by rintro a ⟨t, rfl⟩; exact hf t)

/-! ## `saveScreenshot` and `addToReport`, case by case -/

theorem saveScreenshot_run (env : Env) (d : Driver) (dir name : String) (w : World) :
    saveScreenshot env d dir name w =
      match env.fault w.trace Call.takeScreenshot with
      | some e =>
        (Outcome.throw e, { files := w.files, trace := w.trace ++ [⟨Call.takeScreenshot, some e⟩] })
      | none =>
        match env.fault (w.trace ++ [⟨Call.takeScreenshot, none⟩])
            (Call.writeFileSync (path.join dir (name ++ ".png")) (env.screenshot w.trace)
              (some "base64")) with
        | some e =>
          (Outcome.throw e,
            { files := w.files,
              trace := w.trace ++ [⟨Call.takeScreenshot, none⟩,
                ⟨Call.writeFileSync (path.join dir (name ++ ".png")) (env.screenshot w.trace)
                  (some "base64"), some e⟩] })
        | none =>
          (Outcome.ok (),
            { files := (path.join dir (name ++ ".png"),
                Node.file (env.base64Decode (env.screenshot w.trace))) :: w.files,
              trace := w.trace ++ [⟨Call.takeScreenshot, none⟩,
                ⟨Call.writeFileSync (path.join dir (name ++ ".png")) (env.screenshot w.trace)
                  (some "base64"), none⟩,
                ⟨Call.consoleLog ["Captura guardada en: " ++ path.join dir (name ++ ".png")],
                  none⟩] }) := by
  simp only [saveScreenshot, Driver.takeScreenshot, fs.writeFileSync, console.log, bind_run,
    Eff.bind, prim, note]
  cases h1 : env.fault w.trace Call.takeScreenshot with
  | some e => rfl
  | none =>
    simp only []
    cases h2 : env.fault (w.trace ++ [⟨Call.takeScreenshot, none⟩])
        (Call.writeFileSync (path.join dir (name ++ ".png")) (env.screenshot w.trace)
          (some "base64")) with
    | some e => simp
    | none => simp

theorem addToReport_run (env : Env) (rep testName result shot : String) (w : World) :
    addToReport env rep testName result shot w =
      match env.fault w.trace (Call.appendFileSync rep (reportRow testName result shot)) with
      | some e =>
        (Outcome.throw e,
          { files := w.files,
            trace := w.trace ++
              [⟨Call.appendFileSync rep (reportRow testName result shot), some e⟩] })
      | none =>
        (Outcome.ok (),
          { files := (rep, Node.file (FS.read w.files rep ++ reportRow testName result shot))
              :: w.files,
            trace := w.trace ++
              [⟨Call.appendFileSync rep (reportRow testName result shot), none⟩] }) := by
  simp only [addToReport, fs.appendFileSync, prim]

/-! ## Files -/

theorem read_cons_self (files : FS) (p d : String) :
    FS.read ((p, Node.file d) :: files) p = d := by
  simp [FS.read, FS.find, List.lookup]

theorem read_cons_ne (files : FS) (p q : String) (n : Node) (h : p ≠ q) :
    FS.read ((p, n) :: files) q = FS.read files q := by
  have : (q == p) = false := by simpa using fun hc => h hc.symm
  simp [FS.read, FS.find, List.lookup, this]

theorem isFile_cons_self (files : FS) (p d : String) : IsFile ((p, Node.file d) :: files) p :=
  ⟨d, by simp [FS.find, List.lookup]⟩

theorem isFile_cons (files : FS) (p q d : String) (h : IsFile files q) :
    IsFile ((p, Node.file d) :: files) q := by
  by_cases hpq : q = p
  · subst hpq; exact isFile_cons_self files q d
  · obtain ⟨x, hx⟩ := h
    have : (q == p) = false := by simpa using hpq
    exact ⟨x, by simpa [FS.find, List.lookup, this] using hx⟩

theorem appended_eq_nil {rep : String} {t : List Entry}
    (h : ∀ e ∈ t, appendedData rep e = none) : appended rep t = [] := by
  simpa [appended, List.filterMap_eq_nil_iff] using h

theorem saveEntry_not_appended (rep dir name : String) (e : Entry) (h : SaveEntry dir name e) :
    appendedData rep e = none := by
  rcases e with ⟨c, err⟩
  rcases h with h | ⟨data, h⟩ | h <;> simp only at h <;> subst h <;> rfl

/-! ## The tail of a block: `saveScreenshot` then `addToReport` -/

theorem tail_run (env : Env) (d : Driver) (cap rep name testName result : String) (w : World) :
    BlockRun env rep
      (fun e => SaveEntry cap name e ∨
        e.call = Call.appendFileSync rep (reportRow testName result (name ++ ".png")))
      (saveScreenshot env d cap name >>= fun _ =>
        addToReport env rep testName result (name ++ ".png")) w
      (reportRow testName result (name ++ ".png")) (path.join cap (name ++ ".png")) := by
  have hrun := saveScreenshot_run env d cap name w
  cases h1 : env.fault w.trace Call.takeScreenshot with
  | some e =>
    rw [h1] at hrun
    have hb := bind_throw (f := fun _ => addToReport env rep testName result (name ++ ".png")) hrun
    have hd := delta_of_eq (m := saveScreenshot env d cap name >>= fun _ =>
        addToReport env rep testName result (name ++ ".png")) (w := w)
        (t := [⟨Call.takeScreenshot, some e⟩]) (by rw [bind_run, hb])
    constructor
    · rw [hd, bind_run, hb]
    · rw [hd]; simp [SaveEntry]
    · intro p hp; rw [bind_run, hb]; exact hp
    · intro _; rw [hd, bind_run, hb]; simp [appended, appendedData]
    · right
      rw [hd, bind_run, hb]
      exact ⟨e, rfl, by simp [FaultFree], by simp [appended, appendedData]⟩
    · intro hff; rw [hd] at hff; exact absurd hff (by simp [FaultFree])
  | none =>
    rw [h1] at hrun
    simp only [] at hrun
    cases h2 : env.fault (w.trace ++ [⟨Call.takeScreenshot, none⟩])
        (Call.writeFileSync (path.join cap (name ++ ".png")) (env.screenshot w.trace)
          (some "base64")) with
    | some e =>
      rw [h2] at hrun
      have hb := bind_throw
        (f := fun _ => addToReport env rep testName result (name ++ ".png")) hrun
      have hd := delta_of_eq (m := saveScreenshot env d cap name >>= fun _ =>
          addToReport env rep testName result (name ++ ".png")) (w := w)
          (t := [⟨Call.takeScreenshot, none⟩,
            ⟨Call.writeFileSync (path.join cap (name ++ ".png")) (env.screenshot w.trace)
              (some "base64"), some e⟩]) (by rw [bind_run, hb])
      constructor
      · rw [hd, bind_run, hb]
      · rw [hd]; simp [SaveEntry]
      · intro p hp; rw [bind_run, hb]; exact hp
      · intro _; rw [hd, bind_run, hb]; simp [appended, appendedData]
      · right
        rw [hd, bind_run, hb]
        exact ⟨e, rfl, by simp [FaultFree], by simp [appended, appendedData]⟩
      · intro hff; rw [hd] at hff; exact absurd hff (by simp [FaultFree])
    | none =>
      rw [h2] at hrun
      simp only [] at hrun
      have hb := bind_ok
        (f := fun _ => addToReport env rep testName result (name ++ ".png")) hrun
      simp only [addToReport_run] at hb
      cases h3 : env.fault (w.trace ++ [⟨Call.takeScreenshot, none⟩,
            ⟨Call.writeFileSync (path.join cap (name ++ ".png")) (env.screenshot w.trace)
              (some "base64"), none⟩,
            ⟨Call.consoleLog ["Captura guardada en: " ++ path.join cap (name ++ ".png")],
              none⟩])
          (Call.appendFileSync rep (reportRow testName result (name ++ ".png"))) with
      | some e =>
        rw [h3] at hb
        simp only [] at hb
        have hd := delta_of_eq (m := saveScreenshot env d cap name >>= fun _ =>
          addToReport env rep testName result (name ++ ".png")) (w := w)
          (t := [⟨Call.takeScreenshot, none⟩,
            ⟨Call.writeFileSync (path.join cap (name ++ ".png")) (env.screenshot w.trace)
              (some "base64"), none⟩,
            ⟨Call.consoleLog ["Captura guardada en: " ++ path.join cap (name ++ ".png")],
              none⟩,
            ⟨Call.appendFileSync rep (reportRow testName result (name ++ ".png")), some e⟩])
          (by rw [bind_run, hb]; simp)
        constructor
        · rw [hd, bind_run, hb]; simp
        · rw [hd]; simp [SaveEntry]
        · intro p hp; rw [bind_run, hb]; exact isFile_cons _ _ _ _ hp
        · intro hne; rw [hd, bind_run, hb]
          simp [appended, appendedData, read_cons_ne _ _ _ _ hne]
        · right
          rw [hd, bind_run, hb]
          exact ⟨e, rfl, by simp [FaultFree], by simp [appended, appendedData]⟩
        · intro hff; rw [hd] at hff; exact absurd hff (by simp [FaultFree])
      | none =>
        rw [h3] at hb
        simp only [] at hb
        have hd := delta_of_eq (m := saveScreenshot env d cap name >>= fun _ =>
          addToReport env rep testName result (name ++ ".png")) (w := w)
          (t := [⟨Call.takeScreenshot, none⟩,
            ⟨Call.writeFileSync (path.join cap (name ++ ".png")) (env.screenshot w.trace)
              (some "base64"), none⟩,
            ⟨Call.consoleLog ["Captura guardada en: " ++ path.join cap (name ++ ".png")],
              none⟩,
            ⟨Call.appendFileSync rep (reportRow testName result (name ++ ".png")), none⟩])
          (by rw [bind_run, hb]; simp)
        constructor
        · rw [hd, bind_run, hb]; simp
        · rw [hd]; simp [SaveEntry]
        · intro p hp; rw [bind_run, hb]
          exact isFile_cons _ _ _ _ (isFile_cons _ _ _ _ hp)
        · intro hne; rw [hd, bind_run, hb]
          simp [appended, appendedData, read_cons_ne _ _ _ _ hne, read_cons_self]
        · left
          rw [hd, bind_run, hb]
          exact ⟨rfl, by simp [FaultFree], by simp [appended, appendedData],
            isFile_cons _ _ _ _ (isFile_cons_self _ _ _)⟩
        · intro _
          rw [hd, bind_run, hb]
          refine ⟨w.trace, by simp, fun hne => ?_⟩
          have hbeq : (path.join cap (name ++ ".png") == rep) = false := by simpa using hne
          simp [FS.find, List.lookup, hbeq]

/-! ## Blocks and steps -/

theorem emits_of_blockRun {rep row shot : String} {P : Entry → Prop} {m : Eff Unit}
    (h : ∀ w, BlockRun env rep P m w row shot) : Emits P m :=
  fun w => ⟨(h w).trace_eq, (h w).calls⟩

theorem blockRun_seq {rep row shot : String} {P Q : Entry → Prop} {lead tail : Eff Unit}
    (hlead : Lead P lead) (hP : ∀ e, P e → appendedData rep e = none)
    (htail : ∀ w1, BlockRun env rep Q tail w1 row shot) (w : World) :
    BlockRun env rep (fun e => P e ∨ Q e) (lead >>= fun _ => tail) w row shot := by
  obtain ⟨h1, h2, h3, h4⟩ := hlead w
  have hnil : appended rep (delta lead w) = [] := appended_eq_nil (fun e he => hP e (h2 e he))
  rcases hlw : lead w with ⟨r, w1⟩
  rw [hlw] at h1 h3 h4
  cases r with
  | throw e =>
    have hrun : (lead >>= fun _ => tail) w = (Outcome.throw e, w1) := by
      rw [bind_run, bind_throw hlw]
    have hd : delta (lead >>= fun _ => tail) w = delta lead w :=
      delta_of_eq (by rw [hrun]; exact h1)
    have hnf : ¬ FaultFree (delta lead w) := by
      rcases h4 with ⟨_, h, _⟩ | ⟨_, _, h⟩
      · simp at h
      · exact h
    constructor
    · rw [hd, hrun]; exact h1
    · rw [hd]; exact fun x hx => Or.inl (h2 x hx)
    · intro p hp; rw [hrun]; simp only; rw [h3]; exact hp
    · intro _; rw [hd, hrun, hnil]; simp only; rw [h3]; simp
    · right; rw [hd, hrun]; exact ⟨e, rfl, hnf, hnil⟩
    · intro hff; rw [hd] at hff; exact absurd hff hnf
  | ok a =>
    have hrun : (lead >>= fun _ => tail) w = tail w1 := by rw [bind_run, bind_ok hlw]
    have ht := htail w1
    have hd : delta (lead >>= fun _ => tail) w = delta lead w ++ delta tail w1 :=
      delta_of_eq (by rw [hrun, ht.trace_eq, h1, List.append_assoc])
    have hff : FaultFree (delta lead w) := by
      rcases h4 with ⟨_, _, h⟩ | ⟨_, h, _⟩
      · exact h
      · simp at h
    simp only at h1 h3
    constructor
    · rw [hd, hrun, ht.trace_eq, h1, List.append_assoc]
    · rw [hd]
      intro x hx
      rcases List.mem_append.1 hx with hx | hx
      · exact Or.inl (h2 x hx)
      · exact Or.inr (ht.calls x hx)
    · intro p hp; rw [hrun]; exact ht.keeps p (by rw [h3]; exact hp)
    · intro hne
      rw [hd, hrun, ht.read_eq hne, appended_append, hnil, h3]
      simp
    · rw [hd, hrun, appended_append, hnil]
      rcases ht.outcome with ⟨g1, g2, g3, g4⟩ | ⟨e, g1, g2, g3⟩
      · exact Or.inl ⟨g1, faultFree_append.2 ⟨hff, g2⟩, by simpa using g3, g4⟩
      · exact Or.inr ⟨e, g1, fun hc => g2 (faultFree_append.1 hc).2, by simpa using g3⟩
    · intro hc
      rw [hd] at hc
      obtain ⟨t, g1, g2⟩ := ht.wrote (faultFree_append.1 hc).2
      exact ⟨t, by rw [hd]; exact List.mem_append_right _ g1, by rw [hrun]; exact g2⟩

theorem block_run (env : Env) (d : Driver) (cap rep name testName result : String)
    {P : Entry → Prop} {lead : Eff Unit} (hlead : Lead P lead)
    (hP : ∀ e, P e → appendedData rep e = none) (w : World) :
    BlockRun env rep
      (fun e => P e ∨ SaveEntry cap name e ∨
        e.call = Call.appendFileSync rep (reportRow testName result (name ++ ".png")))
      (block env d cap rep lead name testName result) w
      (reportRow testName result (name ++ ".png")) (path.join cap (name ++ ".png")) :=
  blockRun_seq hlead hP (tail_run env d cap rep name testName result) w

theorem handleTestError_run (env : Env) (d : Driver) (cap rep : String) (x : Err) (w : World) :
    BlockRun env rep (HandlerEntry cap rep) (handleTestError env d cap rep x) w failedRow
      (path.join cap "test_error.png") := by
  have hlead : Lead (fun e => ∃ x, e.call = Call.consoleError ["Error capturado:", x])
      (console.error ["Error capturado:", x]) := lead_note _ _ ⟨x, rfl⟩
  have h := block_run env d cap rep "test_error" "Error durante la ejecución" "Fallo" hlead
    (by rintro ⟨c, err⟩ ⟨y, hy⟩; simp only at hy; subst hy; rfl) w
  rw [← handleTestError_eq] at h
  exact h

/-! ## The first call of a step -/

theorem headed_prim {α : Type} {P : Entry → Prop} (env : Env) (c : Call) (eff : FS → FS)
    (ret : List Entry → α) : Headed c P (prim env c eff ret) := by
  intro w
  exact ⟨env.fault w.trace c, [], delta_prim env c eff ret w, by simp⟩

theorem headed_bind {α β : Type} {c : Call} {P : Entry → Prop} {m : Eff α} {f : α → Eff β}
    (hm : Headed c P m) (hext : Emits (fun _ => True) m) (hf : ∀ a, Emits P (f a)) :
    Headed c P (m >>= f) := by
  intro w
  obtain ⟨err, rest, h1, h2⟩ := hm w
  have h0 := (hext w).1
  rcases hmw : m w with ⟨r, w1⟩
  rw [hmw] at h0
  cases r with
  | ok a =>
    obtain ⟨g1, g2⟩ := hf a w1
    have hd : delta (m >>= f) w = delta m w ++ delta (f a) w1 :=
      delta_of_eq (by rw [bind_run, bind_ok hmw, g1, h0, List.append_assoc])
    refine ⟨err, rest ++ delta (f a) w1, by rw [hd, h1]; rfl, ?_⟩
    intro e he
    rcases List.mem_append.1 he with he | he
    · exact h2 e he
    · exact g2 e he
  | throw x =>
    have hd : delta (m >>= f) w = delta m w :=
      delta_of_eq (by rw [bind_run, bind_throw hmw]; exact h0)
    exact ⟨err, rest, by rw [hd, h1], h2⟩

theorem headed_tryCatch {α : Type} {c : Call} {P : Entry → Prop} {m : Eff α} {h : Err → Eff α}
    (hm : Headed c P m) (hext : Emits (fun _ => True) m) (hh : ∀ e, Emits P (h e)) :
    Headed c P (tryCatch m h) := by
  intro w
  obtain ⟨err, rest, h1, h2⟩ := hm w
  have h0 := (hext w).1
  rcases hmw : m w with ⟨r, w1⟩
  rw [hmw] at h0
  cases r with
  | ok a =>
    have hd : delta (tryCatch m h) w = delta m w :=
      delta_of_eq (by simp only [tryCatch, hmw]; exact h0)
    exact ⟨err, rest, by rw [hd, h1], h2⟩
  | throw x =>
    obtain ⟨g1, g2⟩ := hh x w1
    have hd : delta (tryCatch m h) w = delta m w ++ delta (h x) w1 :=
      delta_of_eq (by simp only [tryCatch, hmw]; rw [g1, h0, List.append_assoc])
    refine ⟨err, rest ++ delta (h x) w1, by rw [hd, h1]; rfl, ?_⟩
    intro e he
    rcases List.mem_append.1 he with he | he
    · exact h2 e he
    · exact g2 e he

theorem headed_mono {α : Type} {c : Call} {P Q : Entry → Prop} {m : Eff α}
    (hm : Headed c P m) (hPQ : ∀ e, P e → Q e) : Headed c Q m := by
  intro w
  obtain ⟨err, rest, h1, h2⟩ := hm w
  exact ⟨err, rest, h1, fun e he => hPQ e (h2 e he)⟩

theorem emits_true {α : Type} {P : Entry → Prop} {m : Eff α} (hm : Emits P m) :
    Emits (fun _ => True) m :=
  emits_mono hm (fun _ _ => trivial)

/-! ## Summaries of the two kinds of step -/

/-- A step without `try`: the summary of its block, it never recovers. -/
theorem stepRun_bare {rep url row shot : String} (errShot : String) {P Q : Entry → Prop}
    {m : Eff Unit} {w : World} (hb : BlockRun env rep P m w row shot)
    (hhead : Headed (Call.get url) Q m) : StepRun env rep url Q m w row shot errShot where
  trace_eq := hb.trace_eq
  head := hhead w
  keeps := hb.keeps
  read_eq := fun h _ => hb.read_eq h
  outcome := by
    rcases hb.outcome with h | h
    · exact Or.inl h
    · exact Or.inr (Or.inr h)
  wrote := hb.wrote

/-- A step of the form `try { body } catch (error) { handler error }`. -/
theorem stepRun_guarded {rep url row shot errShot : String} {P Q R : Entry → Prop}
    {body : Eff Unit} {handler : Err → Eff Unit} (w : World)
    (hb : BlockRun env rep P body w row shot)
    (hh : ∀ e w1, BlockRun env rep Q (handler e) w1 failedRow errShot)
    (hhead : Headed (Call.get url) R (tryCatch body handler)) :
    StepRun env rep url R (tryCatch body handler) w row shot errShot := by
  rcases hbw : body w with ⟨r, w1⟩
  have hbt := hb.trace_eq
  have hbk := hb.keeps
  have hbr := hb.read_eq
  have hbo := hb.outcome
  have hbx := hb.wrote
  rw [hbw] at hbt hbk hbr hbo hbx
  simp only at hbt hbk hbr hbo hbx
  cases r with
  | ok a =>
    have hrun : tryCatch body handler w = (Outcome.ok a, w1) := by simp only [tryCatch, hbw]
    have hd : delta (tryCatch body handler) w = delta body w :=
      delta_of_eq (by rw [hrun]; exact hbt)
    constructor
    · rw [hd, hrun]; exact hbt
    · exact hhead w
    · rw [hrun]; exact hbk
    · intro h _; rw [hd, hrun]; exact hbr h
    · rw [hd, hrun]
      rcases hbo with h | ⟨e, h, _⟩
      · exact Or.inl h
      · simp at h
    · rw [hd, hrun]; exact hbx
  | throw x =>
    have hrun : tryCatch body handler w = handler x w1 := by simp only [tryCatch, hbw]
    have hx := hh x w1
    have hd : delta (tryCatch body handler) w = delta body w ++ delta (handler x) w1 :=
      delta_of_eq (by rw [hrun, hx.trace_eq, hbt, List.append_assoc])
    have hbody : ¬ FaultFree (delta body w) ∧ appended rep (delta body w) = [] := by
      rcases hbo with ⟨h, _⟩ | ⟨e, _, h2, h3⟩
      · simp at h
      · exact ⟨h2, h3⟩
    have hnf : ¬ FaultFree (delta body w ++ delta (handler x) w1) :=
      fun hc => hbody.1 (faultFree_append.1 hc).1
    constructor
    · rw [hd, hrun, hx.trace_eq, hbt, List.append_assoc]
    · exact hhead w
    · intro p hp; rw [hrun]; exact hx.keeps p (hbk p hp)
    · intro h1 h2
      rw [hd, hrun, hx.read_eq h2, hbr h1, appended_append, string_join_append,
        String.append_assoc]
    · rw [hd, hrun, appended_append, hbody.2]
      rcases hx.outcome with ⟨g1, _, g3, g4⟩ | ⟨e, g1, _, g3⟩
      · exact Or.inr (Or.inl ⟨g1, hnf, by simpa using g3, g4⟩)
      · exact Or.inr (Or.inr ⟨e, g1, hnf, by simpa using g3⟩)
    · intro hc; rw [hd] at hc; exact absurd hc hnf

theorem emits_of_lead {α : Type} {P : Entry → Prop} {m : Eff α} (h : Lead P m) : Emits P m :=
  fun w => ⟨(h w).1, (h w).2.1⟩

/-- The summary of a step built from a block, with or without `try`. -/
theorem block_stepRun (env : Env) (d : Driver) (cap rep : String) (info : StepInfo)
    {lead : Eff Unit}
    (hlead : Lead (fun e => e.call = Call.get info.url ∨ e.call ∈ info.calls) lead)
    (hhead : Headed (Call.get info.url) (fun e => e.call ∈ info.calls) lead)
    (hcalls : ∀ c ∈ info.calls, ∀ p x, c ≠ Call.appendFileSync p x) (w : World) :
    StepRun env rep info.url (StepEntry cap rep info)
        (block env d cap rep lead info.name info.testName "Completada") w
        info.row (info.shot cap) (path.join cap "test_error.png") ∧
    StepRun env rep info.url (StepEntry cap rep info)
        (tryCatch (block env d cap rep lead info.name info.testName "Completada")
          (fun error => handleTestError env d cap rep error)) w
        info.row (info.shot cap) (path.join cap "test_error.png") := by
  have hP : ∀ e : Entry, (e.call = Call.get info.url ∨ e.call ∈ info.calls) →
      appendedData rep e = none := by
    rintro ⟨c, err⟩ (h | h)
    · simp only at h; subst h; rfl
    · simp only at h
      have := hcalls c h
      cases c <;> first | rfl | exact absurd rfl (this _ _)
  have hblock := fun w1 =>
    block_run env d cap rep info.name info.testName "Completada" hlead hP w1
  have hheadB : Headed (Call.get info.url) (StepEntry cap rep info)
      (block env d cap rep lead info.name info.testName "Completada") := by
    apply headed_bind (headed_mono hhead (fun e he => Or.inl he))
      (emits_true (emits_of_lead hlead))
    intro _
    apply emits_mono (emits_of_blockRun (tail_run env d cap rep info.name info.testName
      "Completada"))
    rintro e (h | h)
    · exact Or.inr (Or.inl h)
    · exact Or.inr (Or.inr (Or.inl h))
  refine ⟨stepRun_bare _ (hblock w) hheadB, ?_⟩
  apply stepRun_guarded w (hblock w) (handleTestError_run env d cap rep)
  apply headed_tryCatch hheadB (emits_true (emits_of_blockRun hblock))
  intro x
  exact emits_mono (emits_of_blockRun (handleTestError_run env d cap rep x))
    (fun e he => Or.inr (Or.inr (Or.inr he)))

theorem leadHome_lead (env : Env) (d : Driver) :
    Lead (fun e => e.call = Call.get homeInfo.url ∨ e.call ∈ homeInfo.calls) (leadHome env d) ∧
    Headed (Call.get homeInfo.url) (fun e => e.call ∈ homeInfo.calls) (leadHome env d) := by
  unfold leadHome Driver.get Driver.sleep
  constructor
  · repeat' (first | apply lead_prim | apply lead_bind_prim | intro _)
    all_goals simp [homeInfo]
  · apply headed_bind (headed_prim _ _ _ _) (emits_prim (P := fun _ => True) _ _ _ _ (fun _ => trivial))
    repeat' (first | apply emits_prim | apply emits_bind_prim | intro _)
    all_goals simp [homeInfo]

theorem leadQuestion_lead (env : Env) (d : Driver) :
    Lead (fun e => e.call = Call.get questionInfo.url ∨ e.call ∈ questionInfo.calls)
      (leadQuestion env d) ∧
    Headed (Call.get questionInfo.url) (fun e => e.call ∈ questionInfo.calls)
      (leadQuestion env d) := by
  unfold leadQuestion Driver.get Driver.sleep Driver.findElement WebElement.getText
    WebElement.click
  constructor
  · repeat' (first | apply lead_prim | apply lead_bind_prim | intro _)
    all_goals simp [questionInfo]
  · apply headed_bind (headed_prim _ _ _ _) (emits_prim (P := fun _ => True) _ _ _ _ (fun _ => trivial))
    repeat' (first | apply emits_prim | apply emits_bind_prim | intro _)
    all_goals simp [questionInfo]

theorem leadTags_lead (env : Env) (d : Driver) :
    Lead (fun e => e.call = Call.get tagsInfo.url ∨ e.call ∈ tagsInfo.calls) (leadTags env d) ∧
    Headed (Call.get tagsInfo.url) (fun e => e.call ∈ tagsInfo.calls) (leadTags env d) := by
  unfold leadTags Driver.get Driver.sleep Driver.findElement WebElement.sendKeys
  constructor
  · repeat' (first | apply lead_prim | apply lead_bind_prim | intro _)
    all_goals simp [tagsInfo]
  · apply headed_bind (headed_prim _ _ _ _) (emits_prim (P := fun _ => True) _ _ _ _ (fun _ => trivial))
    repeat' (first | apply emits_prim | apply emits_bind_prim | intro _)
    all_goals simp [tagsInfo]

theorem leadAsk_lead (env : Env) (d : Driver) :
    Lead (fun e => e.call = Call.get askInfo.url ∨ e.call ∈ askInfo.calls) (leadAsk env d) ∧
    Headed (Call.get askInfo.url) (fun e => e.call ∈ askInfo.calls) (leadAsk env d) := by
  unfold leadAsk Driver.get
  exact ⟨lead_prim _ _ _ (by simp [askInfo]), headed_prim _ _ _ _⟩

theorem leadCompany_lead (env : Env) (d : Driver) :
    Lead (fun e => e.call = Call.get companyInfo.url ∨ e.call ∈ companyInfo.calls)
      (leadCompany env d) ∧
    Headed (Call.get companyInfo.url) (fun e => e.call ∈ companyInfo.calls)
      (leadCompany env d) := by
  unfold leadCompany Driver.get Driver.sleep Driver.findElement WebElement.sendKeys
  constructor
  · repeat' (first | apply lead_prim | apply lead_bind_prim | intro _)
    all_goals simp [companyInfo]
  · apply headed_bind (headed_prim _ _ _ _) (emits_prim (P := fun _ => True) _ _ _ _ (fun _ => trivial))
    repeat' (first | apply emits_prim | apply emits_bind_prim | intro _)
    all_goals simp [companyInfo]

/-! ## The five steps -/

theorem navigateToHome_run (env : Env) (d : Driver) (cap rep : String) (w : World) :
    StepRun env rep homeInfo.url (StepEntry cap rep homeInfo) (navigateToHome env d cap rep) w
      homeInfo.row (homeInfo.shot cap) (path.join cap "test_error.png") := by
  have h : navigateToHome env d cap rep =
      block env d cap rep (leadHome env d) homeInfo.name homeInfo.testName "Completada" := by
    simp only [navigateToHome, block, leadHome, bind_assoc]
    rfl
  rw [h]
  exact (block_stepRun env d cap rep homeInfo (leadHome_lead env d).1 (leadHome_lead env d).2
    (by simp [homeInfo]) w).1

theorem selectFirstQuestion_run (env : Env) (d : Driver) (cap rep : String) (w : World) :
    StepRun env rep questionInfo.url (StepEntry cap rep questionInfo)
      (selectFirstQuestion env d cap rep) w
      questionInfo.row (questionInfo.shot cap) (path.join cap "test_error.png") := by
  have h : selectFirstQuestion env d cap rep =
      tryCatch (block env d cap rep (leadQuestion env d) questionInfo.name
        questionInfo.testName "Completada")
        (fun error => handleTestError env d cap rep error) := by
    simp only [selectFirstQuestion, block, leadQuestion, bind_assoc]
    rfl
  rw [h]
  exact (block_stepRun env d cap rep questionInfo (leadQuestion_lead env d).1
    (leadQuestion_lead env d).2 (by simp [questionInfo]) w).2

theorem searchTags_run (env : Env) (d : Driver) (cap rep : String) (w : World) :
    StepRun env rep tagsInfo.url (StepEntry cap rep tagsInfo) (searchTags env d cap rep) w
      tagsInfo.row (tagsInfo.shot cap) (path.join cap "test_error.png") := by
  have h : searchTags env d cap rep =
      tryCatch (block env d cap rep (leadTags env d) tagsInfo.name tagsInfo.testName
        "Completada")
        (fun error => handleTestError env d cap rep error) := by
    simp only [searchTags, block, leadTags, bind_assoc]
    rfl
  rw [h]
  exact (block_stepRun env d cap rep tagsInfo (leadTags_lead env d).1 (leadTags_lead env d).2
    (by simp [tagsInfo]) w).2

theorem validateLoginOnAskPage_run (env : Env) (d : Driver) (cap rep : String) (w : World) :
    StepRun env rep askInfo.url (StepEntry cap rep askInfo)
      (validateLoginOnAskPage env d cap rep) w
      askInfo.row (askInfo.shot cap) (path.join cap "test_error.png") := by
  have h : validateLoginOnAskPage env d cap rep =
      tryCatch (block env d cap rep (leadAsk env d) askInfo.name askInfo.testName
        "Completada")
        (fun error => handleTestError env d cap rep error) := by
    simp only [validateLoginOnAskPage, block, leadAsk, bind_assoc]
    rfl
  rw [h]
  exact (block_stepRun env d cap rep askInfo (leadAsk_lead env d).1 (leadAsk_lead env d).2
    (by simp [askInfo]) w).2

theorem searchAndClickCompany_run (env : Env) (d : Driver) (cap rep : String) (w : World) :
    StepRun env rep companyInfo.url (StepEntry cap rep companyInfo)
      (searchAndClickCompany env d cap rep) w
      companyInfo.row (companyInfo.shot cap) (path.join cap "test_error.png") := by
  have h : searchAndClickCompany env d cap rep =
      tryCatch (block env d cap rep (leadCompany env d) companyInfo.name
        companyInfo.testName "Completada")
        (fun error => handleTestError env d cap rep error) := by
    simp only [searchAndClickCompany, block, leadCompany, bind_assoc]
    rfl
  rw [h]
  exact (block_stepRun env d cap rep companyInfo (leadCompany_lead env d).1
    (leadCompany_lead env d).2 (by simp [companyInfo]) w).2

theorem testSuite_eq (env : Env) (d : Driver) (cap rep : String) :
    testSuite env d cap rep = runAll (suiteSteps env d cap rep) := by
  simp [testSuite, runAll, suiteSteps]

theorem suiteSteps_run (env : Env) (d : Driver) (cap rep : String) :
    List.Forall₂
      (fun m info => ∀ w, StepRun env rep info.url (StepEntry cap rep info) m w info.row
        (info.shot cap) (path.join cap "test_error.png"))
      (suiteSteps env d cap rep) suiteInfo := by
  unfold suiteSteps suiteInfo
  refine List.Forall₂.cons (navigateToHome_run env d cap rep) ?_
  refine List.Forall₂.cons (selectFirstQuestion_run env d cap rep) ?_
  refine List.Forall₂.cons (searchTags_run env d cap rep) ?_
  refine List.Forall₂.cons (validateLoginOnAskPage_run env d cap rep) ?_
  exact List.Forall₂.cons (searchAndClickCompany_run env d cap rep) List.Forall₂.nil

/-! ## The suite -/

theorem segOf_mono {cap rep : String} {files files' : FS} {info : StepInfo} {seg : List Entry}
    (hk : ∀ p, IsFile files p → IsFile files' p) (h : SegOf cap rep files info seg) :
    SegOf cap rep files' info seg := by
  refine ⟨h.1, ?_⟩
  rcases h.2 with ⟨a, b, c⟩ | ⟨a, b, c⟩ | h3
  · exact Or.inl ⟨a, b, hk _ c⟩
  · exact Or.inr (Or.inl ⟨a, b, hk _ c⟩)
  · exact Or.inr (Or.inr h3)

theorem segOf_of_stepRun {cap rep : String} {info : StepInfo} {m : Eff Unit} {w : World}
    (h : StepRun env rep info.url (StepEntry cap rep info) m w info.row (info.shot cap)
      (path.join cap "test_error.png")) :
    SegOf cap rep (m w).2.files info (delta m w) := by
  refine ⟨h.head, ?_⟩
  rcases h.outcome with ⟨_, a, b, c⟩ | ⟨_, a, b, c⟩ | ⟨e, _, a, b⟩
  · exact Or.inl ⟨a, b, c⟩
  · exact Or.inr (Or.inl ⟨a, b, c⟩)
  · exact Or.inr (Or.inr ⟨a, b⟩)

theorem runAll_run {cap rep : String} {steps : List (Eff Unit)} {infos : List StepInfo}
    (hsteps : List.Forall₂
      (fun m info => ∀ w, StepRun env rep info.url (StepEntry cap rep info) m w info.row
        (info.shot cap) (path.join cap "test_error.png")) steps infos) :
    ∀ w, SuiteRun cap rep steps infos w := by
  induction hsteps with
  | nil =>
    intro w
    constructor
    · simp [runAll, segments]
    · intro p hp; simpa [runAll] using hp
    · intro _ _; simp [runAll, segments, appended]
    · simp [segments]
    · left; simp [runAll, segments]
  | @cons m info steps infos hm _ ih =>
    intro w
    have hs := hm w
    rcases hmw : m w with ⟨r1, w1⟩
    have hst := hs.trace_eq
    have hsk := hs.keeps
    have hsr := hs.read_eq
    have hso := hs.outcome
    have hsg := segOf_of_stepRun hs
    rw [hmw] at hst hsk hsr hso hsg
    simp only at hst hsk hsr hso hsg
    cases r1 with
    | throw e =>
      have hrun : runAll (m :: steps) w = (Outcome.throw e, w1) := by
        simp only [runAll, bind_run]; exact bind_throw hmw
      have hseg : segments (m :: steps) w = [delta m w] := by simp [segments, hmw]
      have hthrown : ¬ FaultFree (delta m w) ∧ appended rep (delta m w) = [] := by
        rcases hso with ⟨h, _⟩ | ⟨h, _⟩ | ⟨_, _, a, b⟩
        · simp at h
        · simp at h
        · exact ⟨a, b⟩
      constructor
      · rw [hrun, hseg]; simpa using hst
      · rw [hrun]; exact hsk
      · intro h1 h2
        rw [hrun, hseg]
        simpa using hsr (h1 info (List.mem_cons_self _ _)) h2
      · rw [hrun, hseg]
        simpa using hsg
      · right
        exact ⟨e, [], delta m w, by rw [hrun], by rw [hseg]; rfl, by simp, hthrown.2,
          hthrown.1⟩
    | ok a =>
      have hrun : runAll (m :: steps) w = runAll steps w1 := by
        simp only [runAll, bind_run]; exact bind_ok hmw
      have hseg : segments (m :: steps) w = delta m w :: segments steps w1 := by
        simp [segments, hmw]
      have hi := ih w1
      have hone : (appended rep (delta m w)).length = 1 := by
        rcases hso with ⟨_, _, h, _⟩ | ⟨_, _, h, _⟩ | ⟨_, h, _⟩
        · rw [h]; rfl
        · rw [h]; rfl
        · simp at h
      constructor
      · rw [hrun, hseg, hi.trace_eq, hst]; simp
      · intro p hp; rw [hrun]; exact hi.keeps p (hsk p hp)
      · intro h1 h2
        rw [hrun, hseg, hi.read_eq (fun i hi' => h1 i (List.mem_cons_of_mem _ hi')) h2,
          hsr (h1 info (List.mem_cons_self _ _)) h2]
        simp [appended_append, string_join_append, String.append_assoc]
      · rw [hrun, hseg]
        simp only [List.length_cons, List.take_succ_cons]
        exact List.Forall₂.cons (segOf_mono hi.keeps hsg) hi.segs
      · rw [hrun, hseg]
        rcases hi.outcome with ⟨g1, g2, g3⟩ | ⟨e, pre, last, g1, g2, g3, g4, g5⟩
        · left
          refine ⟨g1, by simp [g2], ?_⟩
          intro seg hseg'
          rcases List.mem_cons.1 hseg' with h | h
          · rw [h]; exact hone
          · exact g3 seg h
        · right
          refine ⟨e, delta m w :: pre, last, g1, by rw [g2]; rfl, ?_, g4, g5⟩
          intro seg hseg'
          rcases List.mem_cons.1 hseg' with h | h
          · rw [h]; exact hone
          · exact g3 seg h

theorem testSuite_run (env : Env) (d : Driver) (cap rep : String) (w : World) :
    SuiteRun cap rep (suiteSteps env d cap rep) suiteInfo w :=
  runAll_run (suiteSteps_run env d cap rep) w

/-! ## Last character of a joined path -/

theorem splitSlash_ne_nil (p : List Char) : splitSlash p ≠ [] := by
  cases p with
  | nil => simp [splitSlash]
  | cons c cs =>
    unfold splitSlash
    split
    · simp
    · split <;> simp

theorem splitSlash_plain (b : List Char) (hb : '/' ∉ b) : splitSlash b = [b] := by
  induction b with
  | nil => rfl
  | cons c cs ih =>
    have hc : c ≠ '/' := fun h => hb (by simp [h])
    have hcs : '/' ∉ cs := fun h => hb (List.mem_cons_of_mem _ h)
    simp [splitSlash, hc, ih hcs]

theorem splitSlash_snoc (a b : List Char) (hb : '/' ∉ b) :
    splitSlash (a ++ '/' :: b) = splitSlash a ++ [b] := by
  induction a with
  | nil => simp [splitSlash, splitSlash_plain b hb]
  | cons c cs ih =>
    by_cases hc : c = '/'
    · simp [splitSlash, hc, ih]
    · rcases hs : splitSlash cs with _ | ⟨s, ss⟩
      · exact absurd hs (splitSlash_ne_nil cs)
      · simp [splitSlash, hc, ih, hs]

theorem normalizeSegments_snoc (f : Bool) (b : List Char) (h1 : b ≠ []) (h2 : b ≠ ['.'])
    (h3 : b ≠ ['.', '.']) (xs : List (List Char)) :
    ∀ acc, normalizeSegments f acc (xs ++ [b]) = normalizeSegments f acc xs ++ [b] := by
  induction xs with
  | nil => intro acc; simp [normalizeSegments, h1, h2, h3]
  | cons s rest ih =>
    intro acc
    simp only [List.cons_append, normalizeSegments]
    split
    · exact ih _
    · split
      · split
        · exact ih _
        · split
          · exact ih _
          · exact ih _
      · exact ih _

theorem joinSegments_snoc (b : List Char) (xs : List (List Char)) :
    ∃ pre, joinSegments (xs ++ [b]) = pre ++ b := by
  induction xs with
  | nil => exact ⟨[], rfl⟩
  | cons s rest ih =>
    obtain ⟨pre, hpre⟩ := ih
    rcases hr : rest ++ [b] with _ | ⟨y, ys⟩
    · simp at hr
    · refine ⟨s ++ '/' :: pre, ?_⟩
      rw [List.cons_append, hr, joinSegments, ← hr, hpre]
      · simp
      · simp

theorem normalizeChars_last (p b : List Char) (hb : PlainName b)
    (hp : ∃ xs, splitSlash p = xs ++ [b]) (hlast : p.getLast? = b.getLast?) :
    (normalizeChars p).getLast? = b.getLast? := by
  obtain ⟨h1, h0, h2, h3⟩ := hb
  obtain ⟨xs, hxs⟩ := hp
  have hpne : p ≠ [] := by
    intro h; rw [h] at hlast
    exact h1 (List.getLast?_eq_none_iff.1 hlast.symm)
  have hbl : b.getLast? ≠ some '/' := by
    intro h
    exact h0 (List.mem_of_getLast?_eq_some h)
  have htr : ¬ (p.getLast? = some '/') := by rw [hlast]; exact hbl
  obtain ⟨pre, hpre⟩ := joinSegments_snoc b
    (normalizeSegments (!decide (p.head? = some '/')) [] xs)
  have hbody : joinSegments (normalizeSegments (!decide (p.head? = some '/')) []
      (splitSlash p)) = pre ++ b := by
    rw [hxs, normalizeSegments_snoc _ b h1 h2 h3, hpre]
  have hne : pre ++ b ≠ [] := by simp [h1]
  unfold normalizeChars
  simp only [hpne, if_false, hbody, hne, htr, List.append_nil]
  rw [← List.append_assoc, List.getLast?_append_of_ne_nil _ h1]

theorem join_last (a b : String) (hb : PlainName b.data) :
    (path.join a b).data.getLast? = b.data.getLast? := by
  have hbne : b.data ≠ [] := hb.1
  unfold path.join joinArg
  by_cases ha : a.data = []
  · simp only [ha, if_true, hbne, if_false]
    exact normalizeChars_last _ _ hb ⟨[], by simp [splitSlash_plain _ hb.2.1]⟩ rfl
  · simp only [ha, if_false, hbne]
    refine normalizeChars_last _ _ hb ⟨splitSlash a.data, splitSlash_snoc _ _ hb.2.1⟩ ?_
    rw [List.getLast?_append_of_ne_nil _ (by simp)]
    rcases hd : b.data with _ | ⟨c, cs⟩
    · exact absurd hd hbne
    · simp [List.getLast?_cons_cons]

theorem shot_ne_report (dirname cap name : String) (hname : PlainName (name ++ ".png").data)
    (hg : (name ++ ".png").data.getLast? = some 'g') :
    path.join cap (name ++ ".png") ≠ path.join dirname "reporte.html" := by
  intro h
  have h1 := join_last cap (name ++ ".png") hname
  have h2 := join_last dirname "reporte.html" (by unfold PlainName; decide)
  rw [h, h2, hg] at h1
  revert h1
  decide

theorem suite_shots_ne_report (dirname cap : String) :
    (∀ info ∈ suiteInfo, info.shot cap ≠ path.join dirname "reporte.html") ∧
    path.join cap "test_error.png" ≠ path.join dirname "reporte.html" := by
  refine ⟨?_, shot_ne_report dirname cap "test_error" (by unfold PlainName; decide)
    (by decide)⟩
  intro info hinfo
  simp only [suiteInfo, List.mem_cons, List.mem_singleton, List.not_mem_nil, or_false] at hinfo
  rcases hinfo with h | h | h | h | h <;> subst h <;>
    exact shot_ne_report dirname cap _ (by unfold PlainName; decide) (by decide)

/-! ## The `try` statement of `main` -/

theorem mainGuarded_eq (env : Env) (d : Driver) (cap rep : String) :
    mainGuarded env d cap rep =
      tryCatchFinally (testSuite env d cap rep) (mainCatch env d cap rep)
        (mainFinally env d rep) := rfl

theorem mainCatch_run (env : Env) (d : Driver) (cap rep : String) (e : Err) (w : World) :
    mainCatch env d cap rep e w =
      handleTestError env d cap rep e
        { files := w.files,
          trace := w.trace ++ [⟨Call.consoleError ["Error durante la ejecución:", e], none⟩] } :=
  rfl

theorem mainFinally_run (env : Env) (d : Driver) (rep : String) (w : World) :
    (∃ e, mainFinally env d rep w =
      (Outcome.throw e, { files := w.files, trace := w.trace ++ [footerEntry rep (some e)] })) ∨
    (∃ e, mainFinally env d rep w =
      (Outcome.throw e,
        { files := (rep, Node.file (FS.read w.files rep ++ reportFooter)) :: w.files,
          trace := w.trace ++ [footerEntry rep none, ⟨Call.quit, some e⟩] })) ∨
    mainFinally env d rep w =
      (Outcome.ok (),
        { files := (rep, Node.file (FS.read w.files rep ++ reportFooter)) :: w.files,
          trace := w.trace ++ [footerEntry rep none, ⟨Call.quit, none⟩,
            ⟨Call.consoleLog ["Reporte generado en:", rep], none⟩] }) := by
  simp only [mainFinally, finalizeReport, fs.appendFileSync, Driver.quit, console.log, bind_run,
    Eff.bind, prim, note, footerEntry]
  cases h1 : env.fault w.trace (Call.appendFileSync rep reportFooter) with
  | some e => left; exact ⟨e, rfl⟩
  | none =>
    right
    simp only []
    cases h2 : env.fault (w.trace ++ [⟨Call.appendFileSync rep reportFooter, none⟩])
        Call.quit with
    | some e => left; exact ⟨e, by simp⟩
    | none => right; simp

theorem handleTestError_ok {env : Env} {cap rep : String} (h : DiagOk env cap rep)
    (d : Driver) (x : Err) (w : World) :
    (handleTestError env d cap rep x w).1 = Outcome.ok () := by
  have hpng : ("test_error" ++ ".png" : String) = "test_error.png" := by decide
  have ha : ∀ t, env.fault t (Call.appendFileSync rep
      (reportRow "Error durante la ejecución" "Fallo" "test_error.png")) = none := h.append
  simp [handleTestError, Eff.bind, console.error, note, saveScreenshot_run, addToReport_run,
    hpng, h.shot, h.write, ha]

theorem tryCatch_ok {body : Eff Unit} {handler : Err → Eff Unit}
    (h : ∀ e w, (handler e w).1 = Outcome.ok ()) (w : World) :
    (tryCatch body handler w).1 = Outcome.ok () := by
  unfold tryCatch
  rcases body w with ⟨r, w1⟩
  cases r with
  | ok a => rfl
  | throw e => exact h e w1

theorem runAll_ok {steps : List (Eff Unit)} (h : ∀ m ∈ steps, ∀ w, (m w).1 = Outcome.ok ()) :
    ∀ w, (runAll steps w).1 = Outcome.ok () := by
  induction steps with
  | nil => intro w; rfl
  | cons m rest ih =>
    intro w
    have hm := h m (List.mem_cons_self _ _) w
    rcases hmw : m w with ⟨r, w1⟩
    rw [hmw] at hm
    simp only at hm
    subst hm
    simp only [runAll, bind_run]
    rw [bind_ok hmw]
    exact ih (fun m' hm' => h m' (List.mem_cons_of_mem _ hm')) w1

theorem diag_suite {env : Env} {cap rep : String} (h : DiagOk env cap rep) (d : Driver)
    (w : World) (e : Err) (hs : (testSuite env d cap rep w).1 = Outcome.throw e) :
    (segments (suiteSteps env d cap rep) w).length = 1 := by
  have hrest : ∀ w1, (runAll [selectFirstQuestion env d cap rep, searchTags env d cap rep,
      validateLoginOnAskPage env d cap rep, searchAndClickCompany env d cap rep] w1).1
      = Outcome.ok () := by
    apply runAll_ok
    intro m hm
    simp only [List.mem_cons, List.mem_singleton, List.not_mem_nil, or_false] at hm
    rcases hm with rfl | rfl | rfl | rfl <;> intro w <;>
      exact tryCatch_ok (fun x w' => handleTestError_ok h d x w') w
  rw [testSuite_eq] at hs
  have hs' : (Eff.bind (navigateToHome env d cap rep) (fun _ =>
      runAll [selectFirstQuestion env d cap rep, searchTags env d cap rep,
        validateLoginOnAskPage env d cap rep, searchAndClickCompany env d cap rep]) w).1
      = Outcome.throw e := hs
  simp only [suiteSteps, segments]
  rcases hw : navigateToHome env d cap rep w with ⟨r, w1⟩
  cases r with
  | throw x => simp
  | ok a =>
    rw [bind_ok hw, hrest w1] at hs'
    simp at hs'

theorem handleTestError_trace (env : Env) (d : Driver) (cap rep : String) (e : Err)
    (w : World) :
    HandlerTrace cap rep e (delta (handleTestError env d cap rep e) w)
      (handleTestError env d cap rep e w).1 := by
  have hpng : ("test_error" ++ ".png" : String) = "test_error.png" := by decide
  refine ⟨env.screenshot (w.trace ++ [⟨Call.consoleError ["Error capturado:", e], none⟩]), ?_⟩
  have hrun : handleTestError env d cap rep e w =
      (saveScreenshot env d cap "test_error" >>= fun _ =>
        addToReport env rep "Error durante la ejecución" "Fallo" "test_error.png")
        { files := w.files,
          trace := w.trace ++ [⟨Call.consoleError ["Error capturado:", e], none⟩] } := rfl
  cases h1 : env.fault (w.trace ++ [⟨Call.consoleError ["Error capturado:", e], none⟩])
      Call.takeScreenshot with
  | some x =>
    have hres : handleTestError env d cap rep e w =
        (Outcome.throw x,
          { files := w.files,
            trace := w.trace ++ [⟨Call.consoleError ["Error capturado:", e], none⟩,
              ⟨Call.takeScreenshot, some x⟩] }) := by
      rw [hrun]
      simp [Eff.bind, saveScreenshot_run, h1]
    rw [delta_of_eq (congrArg (fun r => r.2.trace) hres), hres]
    exact Or.inl ⟨x, rfl, rfl⟩
  | none =>
    cases h2 : env.fault
        (w.trace ++ [⟨Call.consoleError ["Error capturado:", e], none⟩,
          ⟨Call.takeScreenshot, none⟩])
        (Call.writeFileSync (path.join cap "test_error.png")
          (env.screenshot (w.trace ++ [⟨Call.consoleError ["Error capturado:", e], none⟩]))
          (some "base64")) with
    | some x =>
      have hres : handleTestError env d cap rep e w =
          (Outcome.throw x,
            { files := w.files,
              trace := w.trace ++ [⟨Call.consoleError ["Error capturado:", e], none⟩,
                ⟨Call.takeScreenshot, none⟩,
                ⟨Call.writeFileSync (path.join cap "test_error.png")
                  (env.screenshot
                    (w.trace ++ [⟨Call.consoleError ["Error capturado:", e], none⟩]))
                  (some "base64"), some x⟩] }) := by
        rw [hrun]
        simp [Eff.bind, saveScreenshot_run, h1, h2, hpng]
      rw [delta_of_eq (congrArg (fun r => r.2.trace) hres), hres]
      exact Or.inr (Or.inl ⟨x, rfl, rfl⟩)
    | none =>
      cases h3 : env.fault
          (w.trace ++ [⟨Call.consoleError ["Error capturado:", e], none⟩,
            ⟨Call.takeScreenshot, none⟩,
            ⟨Call.writeFileSync (path.join cap "test_error.png")
              (env.screenshot
                (w.trace ++ [⟨Call.consoleError ["Error capturado:", e], none⟩]))
              (some "base64"), none⟩,
            ⟨Call.consoleLog ["Captura guardada en: " ++ path.join cap "test_error.png"],
              none⟩])
          (Call.appendFileSync rep
            (reportRow "Error durante la ejecución" "Fallo" "test_error.png")) with
      | some x =>
        have hres : (handleTestError env d cap rep e w).1 = Outcome.throw x ∧
            (handleTestError env d cap rep e w).2.trace =
              w.trace ++ [⟨Call.consoleError ["Error capturado:", e], none⟩,
                ⟨Call.takeScreenshot, none⟩,
                ⟨Call.writeFileSync (path.join cap "test_error.png")
                  (env.screenshot
                    (w.trace ++ [⟨Call.consoleError ["Error capturado:", e], none⟩]))
                  (some "base64"), none⟩,
                ⟨Call.consoleLog ["Captura guardada en: " ++ path.join cap "test_error.png"],
                  none⟩,
                ⟨Call.appendFileSync rep failedRow, some x⟩] := by
          rw [hrun]
          simp [Eff.bind, saveScreenshot_run, addToReport_run, h1, h2, h3, hpng, failedRow]
        rw [delta_of_eq hres.2, hres.1]
        exact Or.inr (Or.inr (Or.inl ⟨x, rfl, rfl⟩))
      | none =>
        have hres : (handleTestError env d cap rep e w).1 = Outcome.ok () ∧
            (handleTestError env d cap rep e w).2.trace =
              w.trace ++ [⟨Call.consoleError ["Error capturado:", e], none⟩,
                ⟨Call.takeScreenshot, none⟩,
                ⟨Call.writeFileSync (path.join cap "test_error.png")
                  (env.screenshot
                    (w.trace ++ [⟨Call.consoleError ["Error capturado:", e], none⟩]))
                  (some "base64"), none⟩,
                ⟨Call.consoleLog ["Captura guardada en: " ++ path.join cap "test_error.png"],
                  none⟩,
                ⟨Call.appendFileSync rep failedRow, none⟩] := by
          rw [hrun]
          simp [Eff.bind, saveScreenshot_run, addToReport_run, h1, h2, h3, hpng, failedRow]
        rw [delta_of_eq hres.2, hres.1]
        exact Or.inr (Or.inr (Or.inr ⟨rfl, rfl⟩))

theorem mainGuarded_run (env : Env) (d : Driver) (cap rep : String) (w : World) :
    ∃ top fin mid, MainRun env cap rep w (testSuite env d cap rep w).1
      (segments (suiteSteps env d cap rep) w) top fin mid (mainGuarded env d cap rep w) := by
  have hs := testSuite_run env d cap rep w
  have ht := hs.trace_eq
  have hk := hs.keeps
  have hr := hs.read_eq
  have hg := hs.segs
  have hsuite := hs.outcome
  rw [← testSuite_eq] at ht hk hr hg hsuite
  clear hs
  -- the state after `try`/`catch`
  have hmid : ∃ top mid w2,
      tryCatch (testSuite env d cap rep) (mainCatch env d cap rep) w = (mid, w2) ∧
      w2.trace = w.trace ++ ((segments (suiteSteps env d cap rep) w).flatten ++ top) ∧
      (∀ p, IsFile w.files p → IsFile w2.files p) ∧
      ((∀ info ∈ suiteInfo, info.shot cap ≠ rep) → path.join cap "test_error.png" ≠ rep →
        FS.read w2.files rep = FS.read w.files rep ++
          String.join (appended rep ((segments (suiteSteps env d cap rep) w).flatten ++ top))) ∧
      List.Forall₂ (SegOf cap rep w2.files)
        (suiteInfo.take (segments (suiteSteps env d cap rep) w).length)
        (segments (suiteSteps env d cap rep) w) ∧
      (((testSuite env d cap rep w).1 = Outcome.ok () ∧ top = [] ∧ mid = Outcome.ok ()) ∨
       (∃ e t, (testSuite env d cap rep w).1 = Outcome.throw e ∧
        top = ⟨Call.consoleError ["Error durante la ejecución:", e], none⟩ :: t ∧
        (∀ x ∈ t, HandlerEntry cap rep x) ∧ HandlerTrace cap rep e t mid ∧
        ((mid = Outcome.ok () ∧ FaultFree t ∧ appended rep t = [failedRow] ∧
            IsFile w2.files (path.join cap "test_error.png")) ∨
         (∃ e', mid = Outcome.throw e' ∧ ¬ FaultFree t ∧ appended rep t = [])))) := by
    rcases hsw : testSuite env d cap rep w with ⟨r1, w1⟩
    rw [hsw] at ht hk hr hg
    simp only at ht hk hr hg
    cases r1 with
    | ok a =>
      refine ⟨[], Outcome.ok (), w1, by simp only [tryCatch, hsw], by simpa using ht, hk,
        by simpa using hr, hg, Or.inl ⟨rfl, rfl, rfl⟩⟩
    | throw e =>
      have hc := handleTestError_run env d cap rep e
        { files := w1.files,
          trace := w1.trace ++ [⟨Call.consoleError ["Error durante la ejecución:", e], none⟩] }
      have hct := hc.trace_eq
      have hck := hc.keeps
      have hcr := hc.read_eq
      have hco := hc.outcome
      have hcc := hc.calls
      have htr := handleTestError_trace env d cap rep e
        { files := w1.files,
          trace := w1.trace ++ [⟨Call.consoleError ["Error durante la ejecución:", e], none⟩] }
      rw [← mainCatch_run] at hct hck hcr hco htr
      rcases hcw : mainCatch env d cap rep e w1 with ⟨r2, w2⟩
      rw [hcw] at hct hck hcr hco htr
      simp only at hct hck hcr hco htr
      generalize delta (handleTestError env d cap rep e)
        { files := w1.files,
          trace := w1.trace ++ [⟨Call.consoleError ["Error durante la ejecución:", e], none⟩] }
        = t at hct hcr hco hcc htr
      refine ⟨⟨Call.consoleError ["Error durante la ejecución:", e], none⟩ :: t, r2, w2,
        by simp only [tryCatch, hsw, hcw], ?_, fun p hp => hck p (hk p hp), ?_,
        hg.imp (fun _ _ h => segOf_mono hck h), Or.inr ⟨e, t, rfl, rfl, hcc, htr, ?_⟩⟩
      · rw [hct, ht]; simp
      · intro h1 h2
        rw [hcr h2, hr h1 h2]
        simp [appended_append, string_join_append, String.append_assoc, appended,
          appendedData]
      · rcases hco with ⟨g1, g2, g3, g4⟩ | ⟨e', g1, g2, g3⟩
        · exact Or.inl ⟨g1, g2, g3, g4⟩
        · exact Or.inr ⟨e', g1, g2, g3⟩
  clear ht hk hr hg
  obtain ⟨top, mid, w2, hrun, ht, hk, hr, hg, htop⟩ := hmid
  have hfinal : mainGuarded env d cap rep w =
      (match mainFinally env d rep w2 with
        | (Outcome.ok _, w3) => (mid, w3)
        | (Outcome.throw e, w3) => (Outcome.throw e, w3)) := by
    rw [mainGuarded_eq]
    simp only [tryCatchFinally, hrun]
  have hlen : (suiteSteps env d cap rep).length = 5 := rfl
  rw [hlen] at hsuite
  have hdiag : DiagOk env cap rep →
      mid = Outcome.ok () ∧ ∀ e, (testSuite env d cap rep w).1 = Outcome.throw e →
        (segments (suiteSteps env d cap rep) w).length = 1 := by
    intro h
    refine ⟨?_, fun e he => diag_suite h d w e he⟩
    have := @tryCatch_ok (testSuite env d cap rep) (mainCatch env d cap rep)
      (fun x w' => by rw [mainCatch_run]; exact handleTestError_ok h d x _) w
    rw [hrun] at this
    exact this
  rcases mainFinally_run env d rep w2 with ⟨e, hf⟩ | ⟨e, hf⟩ | hf
  · rw [hf] at hfinal
    refine ⟨top, [footerEntry rep (some e)], mid, ?_⟩
    rw [hfinal]
    refine ⟨by simp [ht], hk, ?_, hg, hsuite, htop, Or.inl ⟨e, rfl, rfl⟩, hdiag⟩
    intro h1 h2
    simp only
    rw [hr h1 h2]
    simp [appended_append, string_join_append, String.append_assoc, appended, appendedData,
      footerEntry]
  · rw [hf] at hfinal
    refine ⟨top, [footerEntry rep none, ⟨Call.quit, some e⟩], mid, ?_⟩
    rw [hfinal]
    have hk3 : ∀ p, IsFile w.files p →
        IsFile ((rep, Node.file (FS.read w2.files rep ++ reportFooter)) :: w2.files) p :=
      fun p hp => isFile_cons _ _ _ _ (hk p hp)
    refine ⟨by simp [ht], hk3, ?_, hg.imp (fun _ _ h => segOf_mono
      (fun p hp => isFile_cons _ _ _ _ hp) h), hsuite, ?_, Or.inr (Or.inl ⟨e, rfl, rfl⟩),
      hdiag⟩
    · intro h1 h2
      simp only
      rw [read_cons_self, hr h1 h2]
      simp [appended_append, string_join_append, String.append_assoc, appended, appendedData,
        footerEntry]
    · rcases htop with h | ⟨x, t, a, b, c, tr, h⟩
      · exact Or.inl h
      · refine Or.inr ⟨x, t, a, b, c, tr, ?_⟩
        rcases h with ⟨g1, g2, g3, g4⟩ | h
        · exact Or.inl ⟨g1, g2, g3, isFile_cons _ _ _ _ g4⟩
        · exact Or.inr h
  · rw [hf] at hfinal
    refine ⟨top, [footerEntry rep none, ⟨Call.quit, none⟩,
      ⟨Call.consoleLog ["Reporte generado en:", rep], none⟩], mid, ?_⟩
    rw [hfinal]
    have hk3 : ∀ p, IsFile w.files p →
        IsFile ((rep, Node.file (FS.read w2.files rep ++ reportFooter)) :: w2.files) p :=
      fun p hp => isFile_cons _ _ _ _ (hk p hp)
    refine ⟨by simp [ht], hk3, ?_, hg.imp (fun _ _ h => segOf_mono
      (fun p hp => isFile_cons _ _ _ _ hp) h), hsuite, ?_, Or.inr (Or.inr ⟨rfl, rfl⟩),
      hdiag⟩
    · intro h1 h2
      simp only
      rw [read_cons_self, hr h1 h2]
      simp [appended_append, string_join_append, String.append_assoc, appended, appendedData,
        footerEntry]
    · rcases htop with h | ⟨x, t, a, b, c, tr, h⟩
      · exact Or.inl h
      · refine Or.inr ⟨x, t, a, b, c, tr, ?_⟩
        rcases h with ⟨g1, g2, g3, g4⟩ | h
        · exact Or.inl ⟨g1, g2, g3, isFile_cons _ _ _ _ g4⟩
        · exact Or.inr h

theorem bind_ok_inv {α β : Type} {m : Eff α} {f : α → Eff β} {w w2 : World} {b : β}
    (h : (m >>= f) w = (Outcome.ok b, w2)) :
    ∃ a w1, m w = (Outcome.ok a, w1) ∧ f a w1 = (Outcome.ok b, w2) := by
  rw [bind_run] at h
  rcases hm : m w with ⟨r, w1⟩
  cases r with
  | ok a => rw [bind_ok hm] at h; exact ⟨a, w1, rfl, h⟩
  | throw e => rw [bind_throw hm] at h; simp at h

theorem prim_ok_inv {α : Type} {env : Env} {c : Call} {eff : FS → FS} {ret : List Entry → α}
    {w w1 : World} {a : α} (h : prim env c eff ret w = (Outcome.ok a, w1)) :
    env.fault w.trace c = none ∧
      w1 = { files := eff w.files, trace := w.trace ++ [⟨c, none⟩] } := by
  cases hf : env.fault w.trace c with
  | some e => rw [prim_some hf] at h; simp at h
  | none =>
    rw [prim_none hf] at h
    simp only [Prod.mk.injEq] at h
    exact ⟨rfl, h.2.symm⟩

theorem pure_ok_inv {α : Type} {a b : α} {w w1 : World}
    (h : (pure a : Eff α) w = (Outcome.ok b, w1)) : b = a ∧ w1 = w := by
  rw [pure_run] at h
  simp only [Prod.mk.injEq, Outcome.ok.injEq] at h
  exact ⟨h.1.symm, h.2.symm⟩

theorem setupDirectory_returns {env : Env} {dirName cap : String} {w w1 : World}
    (h : setupDirectory env dirName w = (Outcome.ok cap, w1)) :
    cap = path.join env.dirname dirName := by
  unfold setupDirectory at h
  obtain ⟨found, wa, _, h2⟩ := bind_ok_inv h
  dsimp only at h2
  split at h2
  · obtain ⟨_, wb, _, h3⟩ := bind_ok_inv h2
    exact (pure_ok_inv h3).1
  · obtain ⟨_, wb, _, h3⟩ := bind_ok_inv h2
    exact (pure_ok_inv h3).1

theorem initializeReportFile_returns {env : Env} {fileName rep : String} {w w1 : World}
    (h : initializeReportFile env fileName w = (Outcome.ok rep, w1)) :
    rep = path.join env.dirname fileName ∧
    w1 = { files := (rep, Node.file generateReportHeader) :: w.files,
           trace := w.trace ++ [⟨Call.writeFileSync rep generateReportHeader none, none⟩] } := by
  unfold initializeReportFile at h
  obtain ⟨_, wa, h1, h2⟩ := bind_ok_inv h
  obtain ⟨hr, hw⟩ := pure_ok_inv h2
  obtain ⟨_, hwa⟩ := prim_ok_inv h1
  subst hr
  rw [hw, hwa]
  simp

theorem acquired_main {env : Env} {w w3 : World} {d : Driver} {cap rep : String}
    (h : Acquired env w d cap rep w3) :
    main env w = mainGuarded env d cap rep w3 ∧
    rep = path.join env.dirname "reporte.html" ∧
    cap = path.join env.dirname "capturas" ∧
    FS.read w3.files rep = generateReportHeader := by
  obtain ⟨w1, w2, h1, h2, h3⟩ := h
  have hrun : main env w = mainGuarded env d cap rep w3 := by
    simp only [main, bind_run, bind_ok h1, bind_ok h2, bind_ok h3]
  obtain ⟨hr, hw⟩ := initializeReportFile_returns h3
  refine ⟨hrun, hr, setupDirectory_returns h2, ?_⟩
  rw [hw]
  exact read_cons_self _ _ _

theorem forall₂_mem_right {α β : Type} {R : α → β → Prop} {l₁ : List α} {l₂ : List β}
    (h : List.Forall₂ R l₁ l₂) : ∀ b ∈ l₂, ∃ a ∈ l₁, R a b := by
  induction h with
  | nil => intro b hb; cases hb
  | cons hab _ ih =>
    intro b hb
    rcases List.mem_cons.1 hb with rfl | hb
    · exact ⟨_, List.mem_cons_self _ _, hab⟩
    · obtain ⟨a, ha, hr⟩ := ih b hb
      exact ⟨a, List.mem_cons_of_mem _ ha, hr⟩

/-- The entries logged before the `finally` block. -/
theorem mainRun_inner {env : Env} {cap rep : String} {w : World} {suite mid : Outcome Unit}
    {segs : List (List Entry)} {top fin : List Entry} {final : Outcome Unit × World}
    (h : MainRun env cap rep w suite segs top fin mid final) :
    ∀ e ∈ segs.flatten ++ top, InnerEntry cap rep e := by
  intro e he
  rcases List.mem_append.1 he with he | he
  · obtain ⟨seg, hseg, hes⟩ := List.mem_flatten.1 he
    obtain ⟨info, hinfo, hso⟩ := forall₂_mem_right h.segs_ok seg hseg
    obtain ⟨err, rest, hh, hrest⟩ := hso.1
    refine Or.inl ⟨info, List.mem_of_mem_take hinfo, ?_⟩
    rw [hh] at hes
    rcases List.mem_cons.1 hes with rfl | hes
    · exact Or.inl rfl
    · exact Or.inr (hrest e hes)
  · rcases h.top_cases with ⟨_, ht, _⟩ | ⟨x, t, _, ht, hcalls, _⟩
    · rw [ht] at he; cases he
    · rw [ht] at he
      rcases List.mem_cons.1 he with rfl | he
      · exact Or.inr (Or.inl ⟨x, rfl⟩)
      · exact Or.inr (Or.inr (hcalls e he))

theorem mainGuarded_entries (env : Env) (d : Driver) (cap rep : String) (w : World) :
    ∀ e ∈ delta (mainGuarded env d cap rep) w, MainEntry cap rep e := by
  obtain ⟨top, fin, mid, h⟩ := mainGuarded_run env d cap rep w
  rw [delta_of_eq h.trace_eq]
  intro e he
  rcases List.mem_append.1 he with he | he
  · exact Or.inl (mainRun_inner h e he)
  · rcases h.fin_cases with ⟨x, hf, _⟩ | ⟨x, hf, _⟩ | ⟨hf, _⟩ <;> rw [hf] at he <;>
      simp only [List.mem_cons, List.mem_singleton, List.not_mem_nil, or_false] at he
    · subst he; exact Or.inr (Or.inl rfl)
    · rcases he with rfl | rfl
      · exact Or.inr (Or.inl rfl)
      · exact Or.inr (Or.inr (Or.inl rfl))
    · rcases he with rfl | rfl | rfl
      · exact Or.inr (Or.inl rfl)
      · exact Or.inr (Or.inr (Or.inl rfl))
      · exact Or.inr (Or.inr (Or.inr rfl))

theorem reportRow_markup (testName result screenshot : String) :
    reportRow testName result screenshot =
      rowMarkup testName (if result = "Completada" then "success" else "failure") result
        (path.join "capturas" screenshot) := rfl

theorem suite_rows_markup :
    ∀ info ∈ suiteInfo, info.row =
      rowMarkup info.testName "success" "Completada" ("capturas/" ++ info.name ++ ".png") := by
  intro info hinfo
  simp only [suiteInfo, List.mem_cons, List.mem_singleton, List.not_mem_nil, or_false] at hinfo
  rcases hinfo with h | h | h | h | h <;> subst h <;> rfl

theorem failedRow_markup :
    failedRow = rowMarkup "Error durante la ejecución" "failure" "Fallo"
      "capturas/test_error.png" := by
  rfl

theorem rows_ne_footer :
    (∀ info ∈ suiteInfo, info.row ≠ reportFooter) ∧ failedRow ≠ reportFooter := by
  decide

theorem suite_calls_plain :
    ∀ info ∈ suiteInfo, ∀ c ∈ info.calls,
      c ≠ Call.quit ∧ ∀ p x, c ≠ Call.appendFileSync p x := by
  intro info hinfo c hc
  simp only [suiteInfo, List.mem_cons, List.mem_singleton, List.not_mem_nil, or_false] at hinfo
  rcases hinfo with h | h | h | h | h <;> subst h <;>
    simp only [homeInfo, questionInfo, tagsInfo, askInfo, companyInfo, List.mem_cons,
      List.mem_singleton, List.not_mem_nil, or_false] at hc
  · subst hc; simp
  · rcases hc with h | h | h | h <;> subst h <;> simp
  · rcases hc with h | h | h <;> subst h <;> simp
  · rcases hc with h | h | h <;> subst h <;> simp

/-- What an append logged before the `finally` block can be. -/
theorem inner_appends {cap rep : String} {e : Entry} (h : InnerEntry cap rep e) (p data : String)
    (hcall : e.call = Call.appendFileSync p data) :
    p = rep ∧ (data = failedRow ∨ ∃ info ∈ suiteInfo, data = info.row) := by
  have hsave : ∀ name, SaveEntry cap name e → False := by
    rintro name (h | ⟨x, h⟩ | h) <;> rw [hcall] at h <;> cases h
  have hhandler : HandlerEntry cap rep e → p = rep ∧ data = failedRow := by
    rintro (⟨x, h⟩ | h | h)
    · rw [hcall] at h; cases h
    · exact (hsave _ h).elim
    · rw [hcall] at h; cases h; exact ⟨rfl, rfl⟩
  rcases h with ⟨info, hinfo, h | h | h | h | h⟩ | ⟨x, h⟩ | h
  · rw [hcall] at h; cases h
  · rw [hcall] at h
    exact absurd rfl ((suite_calls_plain info hinfo _ h).2 p data)
  · exact (hsave _ h).elim
  · rw [hcall] at h; cases h
    exact ⟨rfl, Or.inr ⟨info, hinfo, rfl⟩⟩
  · exact ⟨(hhandler h).1, Or.inl (hhandler h).2⟩
  · rw [hcall] at h; cases h
  · exact ⟨(hhandler h).1, Or.inl (hhandler h).2⟩

/-- Nothing before the `finally` block appends the footer or quits. -/
theorem inner_not_final {cap rep : String} {e : Entry} (h : InnerEntry cap rep e) :
    e.call ≠ Call.appendFileSync rep reportFooter ∧ e.call ≠ Call.quit := by
  constructor
  · intro hc
    obtain ⟨_, hd | ⟨info, hinfo, hd⟩⟩ := inner_appends h rep reportFooter hc
    · exact rows_ne_footer.2 hd.symm
    · exact rows_ne_footer.1 info hinfo hd.symm
  · intro hc
    have hsave : ∀ name, SaveEntry cap name e → False := by
      rintro name (h | ⟨x, h⟩ | h) <;> rw [hc] at h <;> cases h
    rcases h with ⟨info, hinfo, h | h | h | h | ⟨x, h⟩ | h | h⟩ | ⟨x, h⟩ | ⟨x, h⟩ | h | h
    · rw [hc] at h; cases h
    · rw [hc] at h; exact (suite_calls_plain info hinfo _ h).1 rfl
    · exact hsave _ h
    · rw [hc] at h; cases h
    · rw [hc] at h; cases h
    · exact hsave _ h
    · rw [hc] at h; cases h
    · rw [hc] at h; cases h
    · rw [hc] at h; cases h
    · exact hsave _ h
    · rw [hc] at h; cases h

/-- What an append logged by the `try` statement of `main` can be. -/
theorem mainGuarded_appends (env : Env) (d : Driver) (cap rep : String) (w : World) :
    ∀ e ∈ delta (mainGuarded env d cap rep) w, ∀ p data,
      e.call = Call.appendFileSync p data →
      p = rep ∧ (data = reportFooter ∨ data = failedRow ∨ ∃ info ∈ suiteInfo, data = info.row) := by
  intro e he p data hcall
  rcases mainGuarded_entries env d cap rep w e he with h | h | h | h
  · obtain ⟨hp, hd⟩ := inner_appends h p data hcall
    exact ⟨hp, Or.inr hd⟩
  · rw [hcall] at h; cases h; exact ⟨rfl, Or.inl rfl⟩
  · rw [hcall] at h; cases h
  · rw [hcall] at h; cases h

theorem callCount_append (c : Call) (s t : List Entry) :
    callCount c (s ++ t) = callCount c s + callCount c t := by
  simp [callCount]

theorem callCount_eq_zero {c : Call} {t : List Entry} (h : ∀ e ∈ t, e.call ≠ c) :
    callCount c t = 0 := by
  simp only [callCount, List.length_eq_zero, List.filter_eq_nil_iff]
  intro e he
  simpa using h e he

theorem faultFree_flatten {segs : List (List Entry)} :
    FaultFree segs.flatten ↔ ∀ seg ∈ segs, FaultFree seg := by
  simp only [FaultFree, List.mem_flatten]
  constructor
  · intro h seg hseg e he; exact h e ⟨seg, hseg, he⟩
  · rintro h e ⟨seg, hseg, he⟩; exact h seg hseg e he

theorem appended_flatten (rep : String) (segs : List (List Entry)) :
    appended rep segs.flatten = (segs.map (appended rep)).flatten := by
  induction segs with
  | nil => rfl
  | cons s rest ih => simp [appended_append, ih]

theorem appended_flatten_length {rep : String} {segs : List (List Entry)}
    (h : ∀ seg ∈ segs, (appended rep seg).length = 1) :
    (appended rep segs.flatten).length = segs.length := by
  induction segs with
  | nil => rfl
  | cons s rest ih =>
    simp only [List.flatten_cons, appended_append, List.length_append, List.length_cons]
    rw [h s (List.mem_cons_self _ _), ih (fun seg hseg => h seg (List.mem_cons_of_mem _ hseg))]
    omega

theorem mem_appended_flatten {rep : String} {segs : List (List Entry)} {seg : List Entry}
    {x : String} (hseg : seg ∈ segs) (hx : x ∈ appended rep seg) :
    x ∈ appended rep segs.flatten := by
  rw [appended_flatten]
  exact List.mem_flatten.2 ⟨_, List.mem_map.2 ⟨seg, hseg, rfl⟩, hx⟩

/-- The rows of stretches paired with steps, one row each. -/
theorem forall₂_rows {rep : String} {Q : StepInfo → String → Prop} {infos : List StepInfo}
    {segs : List (List Entry)}
    (h : List.Forall₂ (fun info seg => ∃ r, appended rep seg = [r] ∧ Q info r) infos segs) :
    List.Forall₂ Q infos (appended rep segs.flatten) := by
  induction h with
  | nil => exact List.Forall₂.nil
  | cons hab _ ih =>
    obtain ⟨r, hr, hq⟩ := hab
    simp only [List.flatten_cons, appended_append, hr, List.singleton_append]
    exact List.Forall₂.cons hq ih

theorem testSuite_delta (env : Env) (d : Driver) (cap rep : String) (w : World) :
    delta (testSuite env d cap rep) w = (segments (suiteSteps env d cap rep) w).flatten := by
  have h := (testSuite_run env d cap rep w).trace_eq
  rw [← testSuite_eq] at h
  exact delta_of_eq h

theorem forall₂_imp_mem {α β : Type} {R S : α → β → Prop} {l₁ : List α} {l₂ : List β}
    (h : List.Forall₂ R l₁ l₂) (himp : ∀ a b, a ∈ l₁ → b ∈ l₂ → R a b → S a b) :
    List.Forall₂ S l₁ l₂ := by
  induction h with
  | nil => exact List.Forall₂.nil
  | cons hab _ ih =>
    refine List.Forall₂.cons (himp _ _ (List.mem_cons_self _ _) (List.mem_cons_self _ _) hab)
      (ih ?_)
    intro a b ha hb hr
    exact himp a b (List.mem_cons_of_mem _ ha) (List.mem_cons_of_mem _ hb) hr

theorem forall₂_eq_map {α β : Type} {f : α → β} {l₁ : List α} {l₂ : List β}
    (h : List.Forall₂ (fun a b => b = f a) l₁ l₂) : l₂ = l₁.map f := by
  induction h with
  | nil => rfl
  | cons hab _ ih => rw [List.map_cons, hab, ih]

theorem suite_calls_interaction :
    ∀ info ∈ suiteInfo, ∀ c ∈ info.calls, c.isInteraction = true := by
  decide

/-- A step logs one navigation, its first call. -/
theorem stepEntry_not_nav {cap rep : String} {info : StepInfo} (hinfo : info ∈ suiteInfo)
    {e : Entry} (h : StepEntry cap rep info e) :
    (∀ url, e.call ≠ Call.get url) ∧
    ∀ x, e.call ≠ Call.consoleError ["Error durante la ejecución:", x] := by
  have hsave : ∀ name, SaveEntry cap name e →
      (∀ url, e.call ≠ Call.get url) ∧
      ∀ x, e.call ≠ Call.consoleError ["Error durante la ejecución:", x] := by
    rintro name (h | ⟨y, h⟩ | h) <;> rw [h] <;> exact ⟨fun _ hc => (by cases hc), fun _ hc => (by cases hc)⟩
  rcases h with h | h | h | ⟨y, h⟩ | h | h
  · have := suite_calls_interaction info hinfo _ h
    constructor <;> intro x hc <;> rw [hc] at this <;> cases this
  · exact hsave _ h
  · rw [h]; exact ⟨fun _ hc => (by cases hc), fun _ hc => (by cases hc)⟩
  · rw [h]
    refine ⟨fun _ hc => (by cases hc), fun x hc => ?_⟩
    have : ("Error capturado:" : String) = "Error durante la ejecución:" := by
      injection hc with hc
      exact (List.cons.inj hc).1
    revert this
    decide
  · exact hsave _ h
  · rw [h]; exact ⟨fun _ hc => (by cases hc), fun _ hc => (by cases hc)⟩

theorem navigations_append (s t : List Entry) :
    navigations (s ++ t) = navigations s ++ navigations t := by
  simp [navigations]

theorem navigations_eq_nil {t : List Entry} (h : ∀ e ∈ t, ∀ url, e.call ≠ Call.get url) :
    navigations t = [] := by
  simp only [navigations, List.filterMap_eq_nil_iff]
  intro e he
  have := h e he
  cases hc : e.call <;> first | rfl | exact absurd hc (this _)

theorem navigations_segs {cap rep : String} {files : FS} {infos : List StepInfo}
    {segs : List (List Entry)} (hinfos : ∀ info ∈ infos, info ∈ suiteInfo)
    (h : List.Forall₂ (SegOf cap rep files) infos segs) :
    navigations segs.flatten = infos.map StepInfo.url := by
  induction h with
  | nil => rfl
  | @cons info seg infos segs hab _ ih =>
    obtain ⟨err, rest, hseg, hrest⟩ := hab.1
    have hrestnil : navigations rest = [] :=
      navigations_eq_nil (fun e he =>
        (stepEntry_not_nav (hinfos info (List.mem_cons_self _ _)) (hrest e he)).1)
    rw [List.flatten_cons, navigations_append, ih (fun i hi => hinfos i (List.mem_cons_of_mem _ hi)),
      hseg]
    have : navigations (⟨Call.get info.url, err⟩ :: rest) = info.url :: navigations rest := by
      simp [navigations]
    rw [this, hrestnil]
    rfl

theorem handlerEntry_plain {cap rep : String} {e : Entry} (h : HandlerEntry cap rep e) :
    (∀ url, e.call ≠ Call.get url) ∧
    ∀ x, e.call ≠ Call.consoleError ["Error durante la ejecución:", x] :=
  @stepEntry_not_nav cap rep homeInfo (by decide) e (Or.inr (Or.inr (Or.inr h)))

/-! ## Counting tags in the report -/

theorem isPrefixOf_append_of_le (pat : List Char) :
    ∀ l b : List Char, pat.length ≤ l.length → pat.isPrefixOf (l ++ b) = pat.isPrefixOf l := by
  induction pat with
  | nil => intro l b _; simp
  | cons p ps ih =>
    intro l b h
    cases l with
    | nil => simp at h
    | cons x xs =>
      have := ih xs b (by simpa using h)
      simp [List.isPrefixOf, this]

theorem isPrefixOf_of_append (pat : List Char) :
    ∀ l b : List Char, l.length < pat.length → pat.isPrefixOf (l ++ b) = true →
      l.isPrefixOf pat = true := by
  induction pat with
  | nil => intro l b h; simp at h
  | cons p ps ih =>
    intro l b h hp
    cases l with
    | nil => simp
    | cons x xs =>
      simp only [List.cons_append, List.isPrefixOf, Bool.and_eq_true] at hp ⊢
      have hpx : p = x := by simpa using hp.1
      exact ⟨by simp [hpx], ih xs b (by simpa using h) hp.2⟩

theorem isPrefixOf_short (pat : List Char) :
    ∀ l : List Char, l.length < pat.length → pat.isPrefixOf l = false := by
  induction pat with
  | nil => intro l h; simp at h
  | cons p ps ih =>
    intro l h
    cases l with
    | nil => simp [List.isPrefixOf]
    | cons x xs => simp [List.isPrefixOf, ih xs (by simpa using h)]

theorem occurrences_append (pat b : List Char) :
    ∀ a : List Char, straddleFree pat a = true →
      occurrences pat (a ++ b) = occurrences pat a + occurrences pat b := by
  intro a
  induction a with
  | nil => intro _; simp [occurrences]
  | cons c cs ih =>
    intro h
    simp only [straddleFree, Bool.and_eq_true, Bool.or_eq_true, decide_eq_true_eq,
      Bool.not_eq_true', ] at h
    have hp : pat.isPrefixOf (c :: cs ++ b) = pat.isPrefixOf (c :: cs) := by
      rcases h.1 with hl | hn
      · exact isPrefixOf_append_of_le pat (c :: cs) b hl
      · by_cases hl : pat.length ≤ (c :: cs).length
        · exact isPrefixOf_append_of_le pat (c :: cs) b hl
        · have hlt : (c :: cs).length < pat.length := Nat.lt_of_not_le hl
          rw [isPrefixOf_short pat _ hlt]
          cases hx : pat.isPrefixOf (c :: cs ++ b) with
          | false => rfl
          | true => rw [isPrefixOf_of_append pat _ b hlt hx] at hn; cases hn
    have hrec := ih h.2
    simp only [List.cons_append] at hp ⊢
    simp only [occurrences, hp, hrec]
    omega

theorem occurrences_plain (q : List Char) :
    ∀ u : List Char, '<' ∉ u →
      occurrences ('<' :: q) u = 0 ∧ straddleFree ('<' :: q) u = true := by
  intro u
  induction u with
  | nil => intro _; simp [occurrences, straddleFree]
  | cons c cs ih =>
    intro h
    have hc : c ≠ '<' := fun hc => h (by simp [hc])
    have hcs := ih (fun hm => h (List.mem_cons_of_mem _ hm))
    have h1 : ('<' :: q).isPrefixOf (c :: cs) = false := by
      simp [List.isPrefixOf, Ne.symm hc]
    have h2 : (c :: cs).isPrefixOf ('<' :: q) = false := by
      simp [List.isPrefixOf, hc]
    refine ⟨by simp [occurrences, h1, hcs.1], ?_⟩
    simp only [straddleFree, h2, hcs.2]
    simp

theorem occurrences_plain_append (q u b : List Char) (h : '<' ∉ u) :
    occurrences ('<' :: q) (u ++ b) = occurrences ('<' :: q) b := by
  rw [occurrences_append _ _ _ (occurrences_plain q u h).2, (occurrences_plain q u h).1]
  simp

theorem splitSlash_chars : ∀ (p : List Char), ∀ s ∈ splitSlash p, ∀ c ∈ s, c ∈ p := by
  intro p
  induction p with
  | nil => intro s hs c hc; simp [splitSlash] at hs; subst hs; cases hc
  | cons x xs ih =>
    intro s hs c hc
    by_cases hx : x = '/'
    · simp only [splitSlash, if_pos hx, List.mem_cons] at hs
      rcases hs with hs | hs
      · subst hs; cases hc
      · exact List.mem_cons_of_mem _ (ih s hs c hc)
    · simp only [splitSlash, if_neg hx] at hs
      cases hsp : splitSlash xs with
      | nil =>
        rw [hsp] at hs
        simp only [List.mem_singleton] at hs
        subst hs
        simp only [List.mem_singleton] at hc
        subst hc
        exact List.mem_cons_self _ _
      | cons t ts =>
        rw [hsp] at hs
        simp only [List.mem_cons] at hs
        rcases hs with hs | hs
        · subst hs
          rcases List.mem_cons.1 hc with hc | hc
          · subst hc; exact List.mem_cons_self _ _
          · exact List.mem_cons_of_mem _ (ih t (by rw [hsp]; exact List.mem_cons_self _ _) c hc)
        · exact List.mem_cons_of_mem _
            (ih s (by rw [hsp]; exact List.mem_cons_of_mem _ hs) c hc)

theorem normalizeSegments_mem (f : Bool) :
    ∀ (xs acc : List (List Char)), ∀ s ∈ normalizeSegments f acc xs, s ∈ acc ∨ s ∈ xs := by
  intro xs
  induction xs with
  | nil => intro acc s hs; simp [normalizeSegments] at hs; exact Or.inl hs
  | cons x rest ih =>
    intro acc s hs
    unfold normalizeSegments at hs
    split at hs
    · rcases ih acc s hs with h | h
      · exact Or.inl h
      · exact Or.inr (List.mem_cons_of_mem _ h)
    · split at hs
      · cases acc with
        | nil =>
          simp only at hs
          rcases ih _ s hs with h | h
          · cases f <;> simp at h
            exact Or.inr (by simp [h])
          · exact Or.inr (List.mem_cons_of_mem _ h)
        | cons t acc' =>
          simp only at hs
          split at hs
          · rcases ih _ s hs with h | h
            · cases f <;> simp at h
              · exact Or.inl (by simpa using h)
              · rcases h with h | h | h
                · exact Or.inr (by simp [h])
                · exact Or.inl (by simp [h])
                · exact Or.inl (by simp [h])
            · exact Or.inr (List.mem_cons_of_mem _ h)
          · rcases ih _ s hs with h | h
            · exact Or.inl (List.mem_cons_of_mem _ h)
            · exact Or.inr (List.mem_cons_of_mem _ h)
      · rcases ih _ s hs with h | h
        · rcases List.mem_cons.1 h with h | h
          · exact Or.inr (by simp [h])
          · exact Or.inl h
        · exact Or.inr (List.mem_cons_of_mem _ h)

theorem joinSegments_chars :
    ∀ (xs : List (List Char)), ∀ c ∈ joinSegments xs, c = '/' ∨ ∃ s ∈ xs, c ∈ s := by
  intro xs
  induction xs with
  | nil => intro c hc; simp [joinSegments] at hc
  | cons x rest ih =>
    intro c hc
    cases rest with
    | nil =>
      simp only [joinSegments] at hc
      exact Or.inr ⟨x, List.mem_cons_self _ _, hc⟩
    | cons y ys =>
      simp only [joinSegments, List.mem_append, List.mem_cons] at hc
      rcases hc with hc | hc | hc
      · exact Or.inr ⟨x, List.mem_cons_self _ _, hc⟩
      · exact Or.inl hc
      · rcases ih c hc with h | ⟨s, hs, hcs⟩
        · exact Or.inl h
        · exact Or.inr ⟨s, List.mem_cons_of_mem _ hs, hcs⟩

theorem normalizeChars_chars (p : List Char) :
    ∀ c ∈ normalizeChars p, c = '/' ∨ c = '.' ∨ c ∈ p := by
  intro c hc
  have hbody : ∀ f, c ∈ joinSegments (normalizeSegments f [] (splitSlash p)) →
      c = '/' ∨ c = '.' ∨ c ∈ p := by
    intro f hb
    rcases joinSegments_chars _ c hb with h | ⟨s, hs, hcs⟩
    · exact Or.inl h
    · rcases normalizeSegments_mem f _ _ s hs with h | h
      · cases h
      · exact Or.inr (Or.inr (splitSlash_chars p s h c hcs))
  unfold normalizeChars at hc
  split at hc
  · simp at hc; exact Or.inr (Or.inl hc)
  · dsimp only at hc
    split at hc
    · split at hc
      · simp at hc; exact Or.inl hc
      · split at hc
        · simp at hc; rcases hc with h | h
          · exact Or.inr (Or.inl h)
          · exact Or.inl h
        · simp at hc; exact Or.inr (Or.inl hc)
    · simp only [List.mem_append] at hc
      rcases hc with (hc | hc) | hc
      · split at hc
        · simp at hc; exact Or.inl hc
        · cases hc
      · exact hbody _ hc
      · split at hc
        · simp at hc; exact Or.inl hc
        · cases hc

theorem path_join_chars (a b : String) :
    ∀ c ∈ (path.join a b).data, c = '/' ∨ c = '.' ∨ c ∈ a.data ∨ c ∈ b.data := by
  intro c hc
  unfold path.join at hc
  split at hc
  · simp at hc; exact Or.inr (Or.inl hc)
  · rename_i joined hj
    rcases normalizeChars_chars joined c hc with h | h | h
    · exact Or.inl h
    · exact Or.inr (Or.inl h)
    · have : c = '/' ∨ c ∈ a.data ∨ c ∈ b.data := by
        by_cases ha : a.data = [] <;> by_cases hb : b.data = [] <;>
          simp [joinArg, ha, hb] at hj
        · subst hj; exact Or.inr (Or.inr h)
        · subst hj; exact Or.inr (Or.inl h)
        · subst hj
          simp only [List.mem_append, List.mem_cons] at h
          rcases h with h | h | h
          · exact Or.inr (Or.inl h)
          · exact Or.inl h
          · exact Or.inr (Or.inr h)
      rcases this with h | h | h
      · exact Or.inl h
      · exact Or.inr (Or.inr (Or.inl h))
      · exact Or.inr (Or.inr (Or.inr h))

theorem path_join_plain (b : String) (h : '<' ∉ b.data) :
    '<' ∉ (path.join "capturas" b).data := by
  intro hc
  rcases path_join_chars "capturas" b _ hc with h1 | h1 | h1 | h1
  · exact absurd h1 (by decide)
  · exact absurd h1 (by decide)
  · exact absurd h1 (by decide)
  · exact h h1

theorem occurrences_rowMarkup (q : List Char) (k : Nat)
    (h1 : straddleFree ('<' :: q) "\n    <tr>\n      <td>".data = true)
    (h2 : straddleFree ('<' :: q) "</td>\n      <td class=\"".data = true)
    (h3 : straddleFree ('<' :: q) "\">".data = true)
    (h4 : straddleFree ('<' :: q) "</td>\n      <td><a href=\"".data = true)
    (h5 : straddleFree ('<' :: q) "\" target=\"_blank\">Ver</a></td>\n    </tr>\n    ".data = true)
    (hk : occurrences ('<' :: q) "\n    <tr>\n      <td>".data +
      (occurrences ('<' :: q) "</td>\n      <td class=\"".data +
      (occurrences ('<' :: q) "\">".data +
      (occurrences ('<' :: q) "</td>\n      <td><a href=\"".data +
      occurrences ('<' :: q) "\" target=\"_blank\">Ver</a></td>\n    </tr>\n    ".data))) = k)
    (testName statusClass result href : String)
    (ht : '<' ∉ testName.data) (hs : '<' ∉ statusClass.data) (hr : '<' ∉ result.data)
    (hh : '<' ∉ href.data) (rest : List Char) :
    occurrences ('<' :: q) ((rowMarkup testName statusClass result href).data ++ rest) =
      k + occurrences ('<' :: q) rest := by
  simp only [rowMarkup, String.data_append, List.append_assoc]
  rw [occurrences_append _ _ _ h1, occurrences_plain_append q _ _ ht,
    occurrences_append _ _ _ h2, occurrences_plain_append q _ _ hs,
    occurrences_append _ _ _ h3, occurrences_plain_append q _ _ hr,
    occurrences_append _ _ _ h4, occurrences_plain_append q _ _ hh,
    occurrences_append _ _ _ h5, ← hk]
  omega

/-- The arguments of a call of `addToReport` hold no `<`. -/
theorem reportRow_plain (c : RowCall)
    (h : '<' ∉ c.testName.data ∧ '<' ∉ c.result.data ∧ '<' ∉ c.screenshot.data) :
    '<' ∉ c.testName.data ∧
      '<' ∉ (if c.result = "Completada" then "success" else "failure" : String).data ∧
      '<' ∉ c.result.data ∧ '<' ∉ (path.join "capturas" c.screenshot).data := by
  refine ⟨h.1, ?_, h.2.1, path_join_plain _ h.2.2⟩
  split <;> decide

theorem occurrences_rows (q : List Char) (k : Nat)
    (hrow : ∀ (testName statusClass result href : String), '<' ∉ testName.data →
      '<' ∉ statusClass.data → '<' ∉ result.data → '<' ∉ href.data → ∀ rest : List Char,
      occurrences ('<' :: q) ((rowMarkup testName statusClass result href).data ++ rest) =
        k + occurrences ('<' :: q) rest)
    (rest : List Char) :
    ∀ calls : List RowCall,
      (∀ c ∈ calls, '<' ∉ c.testName.data ∧ '<' ∉ c.result.data ∧ '<' ∉ c.screenshot.data) →
      occurrences ('<' :: q)
        ((String.join (calls.map
          (fun c => reportRow c.testName c.result c.screenshot))).data ++ rest) =
        calls.length * k + occurrences ('<' :: q) rest := by
  intro calls
  induction calls with
  | nil => intro _; simp [string_join_nil]
  | cons c cs ih =>
    intro h
    have hc := reportRow_plain c (h c (List.mem_cons_self _ _))
    have hcs := ih (fun x hx => h x (List.mem_cons_of_mem _ hx))
    simp only [List.map_cons, string_join_cons, String.data_append, List.append_assoc,
      List.length_cons]
    rw [reportRow_markup, hrow _ _ _ _ hc.1 hc.2.1 hc.2.2.1 hc.2.2.2, hcs, Nat.succ_mul]
    omega

theorem occurrences_report (q : List Char) (k : Nat)
    (hrow : ∀ (testName statusClass result href : String), '<' ∉ testName.data →
      '<' ∉ statusClass.data → '<' ∉ result.data → '<' ∉ href.data → ∀ rest : List Char,
      occurrences ('<' :: q) ((rowMarkup testName statusClass result href).data ++ rest) =
        k + occurrences ('<' :: q) rest)
    (hh : straddleFree ('<' :: q) generateReportHeader.data = true)
    (calls : List RowCall)
    (h : ∀ c ∈ calls, '<' ∉ c.testName.data ∧ '<' ∉ c.result.data ∧ '<' ∉ c.screenshot.data) :
    occurrences ('<' :: q) (generateReportHeader ++
      String.join (calls.map (fun c => reportRow c.testName c.result c.screenshot)) ++
      reportFooter).data =
      occurrences ('<' :: q) generateReportHeader.data + calls.length * k +
        occurrences ('<' :: q) reportFooter.data := by
  simp only [String.data_append, List.append_assoc]
  rw [occurrences_append _ _ _ hh, occurrences_rows q k hrow _ calls h]
  omega

theorem row_count_tr :
    ∀ (testName statusClass result href : String), '<' ∉ testName.data →
      '<' ∉ statusClass.data → '<' ∉ result.data → '<' ∉ href.data → ∀ rest : List Char,
      occurrences "<tr>".data ((rowMarkup testName statusClass result href).data ++ rest) =
        1 + occurrences "<tr>".data rest :=
  occurrences_rowMarkup "tr>".data 1 (by decide) (by decide) (by decide) (by decide) (by decide)
    (by decide)

theorem row_count_html :
    ∀ (testName statusClass result href : String), '<' ∉ testName.data →
      '<' ∉ statusClass.data → '<' ∉ result.data → '<' ∉ href.data → ∀ rest : List Char,
      occurrences "<html>".data ((rowMarkup testName statusClass result href).data ++ rest) =
        0 + occurrences "<html>".data rest :=
  occurrences_rowMarkup "html>".data 0 (by decide) (by decide) (by decide) (by decide)
    (by decide) (by decide)

theorem row_count_html_end :
    ∀ (testName statusClass result href : String), '<' ∉ testName.data →
      '<' ∉ statusClass.data → '<' ∉ result.data → '<' ∉ href.data → ∀ rest : List Char,
      occurrences "</html>".data ((rowMarkup testName statusClass result href).data ++ rest) =
        0 + occurrences "</html>".data rest :=
  occurrences_rowMarkup "/html>".data 0 (by decide) (by decide) (by decide) (by decide)
    (by decide) (by decide)

theorem row_count_tbody :
    ∀ (testName statusClass result href : String), '<' ∉ testName.data →
      '<' ∉ statusClass.data → '<' ∉ result.data → '<' ∉ href.data → ∀ rest : List Char,
      occurrences "<tbody>".data ((rowMarkup testName statusClass result href).data ++ rest) =
        0 + occurrences "<tbody>".data rest :=
  occurrences_rowMarkup "tbody>".data 0 (by decide) (by decide) (by decide) (by decide)
    (by decide) (by decide)

theorem row_count_tbody_end :
    ∀ (testName statusClass result href : String), '<' ∉ testName.data →
      '<' ∉ statusClass.data → '<' ∉ result.data → '<' ∉ href.data → ∀ rest : List Char,
      occurrences "</tbody>".data ((rowMarkup testName statusClass result href).data ++ rest) =
        0 + occurrences "</tbody>".data rest :=
  occurrences_rowMarkup "/tbody>".data 0 (by decide) (by decide) (by decide) (by decide)
    (by decide) (by decide)

set_option maxRecDepth 100000 in
theorem header_counts :
    (straddleFree "<tr>".data generateReportHeader.data = true ∧
      straddleFree "<html>".data generateReportHeader.data = true ∧
      straddleFree "</html>".data generateReportHeader.data = true ∧
      straddleFree "<tbody>".data generateReportHeader.data = true ∧
      straddleFree "</tbody>".data generateReportHeader.data = true) ∧
    (countOf "<tr>" generateReportHeader = 1 ∧ countOf "<html>" generateReportHeader = 1 ∧
      countOf "</html>" generateReportHeader = 0 ∧ countOf "<tbody>" generateReportHeader = 1 ∧
      countOf "</tbody>" generateReportHeader = 0) ∧
    (countOf "<tr>" reportFooter = 0 ∧ countOf "<html>" reportFooter = 0 ∧
      countOf "</html>" reportFooter = 1 ∧ countOf "<tbody>" reportFooter = 0 ∧
      countOf "</tbody>" reportFooter = 1) := by
  decide

/-! ## C1: a failure of the first step is not isolated -/

/-- The four steps wrapped in `try`/`catch` contain their errors: when the
diagnostic of `handleTestError` does not throw, each of them returns, whatever
its own calls do, and appends exactly one row. -/
theorem later_steps_isolated {env : Env} {cap rep : String} (h : DiagOk env cap rep)
    (d : Driver) (w : World) :
    ((selectFirstQuestion env d cap rep w).1 = Outcome.ok () ∧
      (appended rep (delta (selectFirstQuestion env d cap rep) w)).length = 1) ∧
    ((searchTags env d cap rep w).1 = Outcome.ok () ∧
      (appended rep (delta (searchTags env d cap rep) w)).length = 1) ∧
    ((validateLoginOnAskPage env d cap rep w).1 = Outcome.ok () ∧
      (appended rep (delta (validateLoginOnAskPage env d cap rep) w)).length = 1) ∧
    ((searchAndClickCompany env d cap rep w).1 = Outcome.ok () ∧
      (appended rep (delta (searchAndClickCompany env d cap rep) w)).length = 1) := by
  have hone : ∀ {url row shot errShot : String} {P : Entry → Prop} {m : Eff Unit},
      StepRun env rep url P m w row shot errShot → (m w).1 = Outcome.ok () →
      (appended rep (delta m w)).length = 1 := by
    intro url row shot errShot P m hs hok
    rcases hs.outcome with ⟨_, _, g, _⟩ | ⟨_, _, g, _⟩ | ⟨e, g, _⟩
    · rw [g]; rfl
    · rw [g]; rfl
    · rw [hok] at g; cases g
  have hq : (selectFirstQuestion env d cap rep w).1 = Outcome.ok () :=
    tryCatch_ok (fun x w' => handleTestError_ok h d x w') w
  have ht : (searchTags env d cap rep w).1 = Outcome.ok () :=
    tryCatch_ok (fun x w' => handleTestError_ok h d x w') w
  have ha : (validateLoginOnAskPage env d cap rep w).1 = Outcome.ok () :=
    tryCatch_ok (fun x w' => handleTestError_ok h d x w') w
  have hc : (searchAndClickCompany env d cap rep w).1 = Outcome.ok () :=
    tryCatch_ok (fun x w' => handleTestError_ok h d x w') w
  exact ⟨⟨hq, hone (selectFirstQuestion_run env d cap rep w) hq⟩,
    ⟨ht, hone (searchTags_run env d cap rep w) ht⟩,
    ⟨ha, hone (validateLoginOnAskPage_run env d cap rep w) ha⟩,
    ⟨hc, hone (searchAndClickCompany_run env d cap rep w) hc⟩⟩

/-- C1 (the code breaks the claim at the first step): whenever the navigation
of `navigateToHome` throws, the error leaves the step and `testSuite` with it;
the failed navigation is all the suite logs, so none of the four later steps
runs and none of them appends a row. -/
theorem navigateToHome_error_leaves_testSuite (env : Env) (d : Driver) (cap rep : String)
    (w : World) (e : Err)
    (h : env.fault w.trace (Call.get "https://stackoverflow.com") = some e) :
    navigateToHome env d cap rep w =
      (Outcome.throw e,
        { files := w.files,
          trace := w.trace ++ [⟨Call.get "https://stackoverflow.com", some e⟩] }) ∧
    testSuite env d cap rep w =
      (Outcome.throw e,
        { files := w.files,
          trace := w.trace ++ [⟨Call.get "https://stackoverflow.com", some e⟩] }) ∧
    segments (suiteSteps env d cap rep) w =
      [[⟨Call.get "https://stackoverflow.com", some e⟩]] := by
  have h1 : navigateToHome env d cap rep w =
      (Outcome.throw e,
        { files := w.files,
          trace := w.trace ++ [⟨Call.get "https://stackoverflow.com", some e⟩] }) := by
    simp [navigateToHome, Eff.bind, Driver.get, prim, h]
  refine ⟨h1, ?_, ?_⟩
  · simp only [testSuite, bind_run]
    exact bind_throw h1
  · have hd : delta (navigateToHome env d cap rep) w =
        [⟨Call.get "https://stackoverflow.com", some e⟩] :=
      delta_of_eq (by rw [h1])
    simp [suiteSteps, segments, h1, hd]

/-- C1, at a concrete input: the home page times out in an otherwise healthy
environment. -/
theorem navigateToHome_error_leaves_testSuite_witness :
    navigateToHome homeDownEnv chrome "/home/u/tarea/capturas" "/home/u/tarea/reporte.html"
        emptyWorld =
      (Outcome.throw "TimeoutError",
        { files := [],
          trace := [⟨Call.get "https://stackoverflow.com", some "TimeoutError"⟩] }) ∧
    testSuite homeDownEnv chrome "/home/u/tarea/capturas" "/home/u/tarea/reporte.html"
        emptyWorld =
      (Outcome.throw "TimeoutError",
        { files := [],
          trace := [⟨Call.get "https://stackoverflow.com", some "TimeoutError"⟩] }) ∧
    segments (suiteSteps homeDownEnv chrome "/home/u/tarea/capturas"
        "/home/u/tarea/reporte.html") emptyWorld =
      [[⟨Call.get "https://stackoverflow.com", some "TimeoutError"⟩]] :=
  navigateToHome_error_leaves_testSuite homeDownEnv chrome "/home/u/tarea/capturas"
    "/home/u/tarea/reporte.html" emptyWorld "TimeoutError" (by decide)

/-! ## C8: `setupDirectory` -/

/-- C8 (as stated, refuted): when `capturas` exists as a regular file,
`setupDirectory` returns the path and throws nothing. -/
theorem setupDirectory_regular_file_returns :
    (setupDirectory calmEnv "capturas" capturasIsFile).1 = Outcome.ok "/home/u/tarea/capturas" ∧
    ¬ ∃ e, (setupDirectory calmEnv "capturas" capturasIsFile).1 = Outcome.throw e := by
  have h : (setupDirectory calmEnv "capturas" capturasIsFile).1
      = Outcome.ok "/home/u/tarea/capturas" := by decide
  refine ⟨h, ?_⟩
  rintro ⟨e, he⟩
  rw [h] at he
  cases he

/-- C8 (amended): on a file system where the path is absent and `mkdirSync`
does not throw, `setupDirectory` creates the directory and returns the path,
and a second call returns the same path and leaves the files as they are; when
the path already holds something, a regular file included, it returns the path
without an error and leaves the files as they are. -/
theorem setupDirectory_contract (env : Env) (dirName : String) (w : World) :
    (FS.find w.files (path.join env.dirname dirName) = none →
      env.fault (w.trace ++ [⟨Call.existsSync (path.join env.dirname dirName), none⟩])
        (Call.mkdirSync (path.join env.dirname dirName)) = none →
      (setupDirectory env dirName w).1 = Outcome.ok (path.join env.dirname dirName) ∧
      FS.find (setupDirectory env dirName w).2.files (path.join env.dirname dirName)
        = some Node.dir ∧
      (setupDirectory env dirName (setupDirectory env dirName w).2).1
        = Outcome.ok (path.join env.dirname dirName) ∧
      (setupDirectory env dirName (setupDirectory env dirName w).2).2.files
        = (setupDirectory env dirName w).2.files) ∧
    (∀ n, FS.find w.files (path.join env.dirname dirName) = some n →
      (setupDirectory env dirName w).1 = Outcome.ok (path.join env.dirname dirName) ∧
      (setupDirectory env dirName w).2.files = w.files) := by
  constructor
  · intro h hm
    simp only [FS.find] at h
    have hrun : setupDirectory env dirName w =
        (Outcome.ok (path.join env.dirname dirName),
          { files := (path.join env.dirname dirName, Node.dir) :: w.files,
            trace := w.trace ++ [⟨Call.existsSync (path.join env.dirname dirName), none⟩,
              ⟨Call.mkdirSync (path.join env.dirname dirName), none⟩] }) := by
      simp [-bind_pure_comp, setupDirectory, Eff.bind, fs.existsSync, note, fs.mkdirSync, prim,
        FS.find, h, hm]
    rw [hrun]
    simp [-bind_pure_comp, setupDirectory, Eff.bind, fs.existsSync, note, FS.find, List.lookup]
  · intro n h
    simp only [FS.find] at h
    simp [-bind_pure_comp, setupDirectory, Eff.bind, fs.existsSync, note, FS.find, h]

/-- C8, at concrete inputs: an empty file system, and one where `capturas` is
a regular file. -/
theorem setupDirectory_contract_witness :
    ((setupDirectory calmEnv "capturas" emptyWorld).1 = Outcome.ok "/home/u/tarea/capturas" ∧
      FS.find (setupDirectory calmEnv "capturas" emptyWorld).2.files "/home/u/tarea/capturas"
        = some Node.dir ∧
      (setupDirectory calmEnv "capturas" (setupDirectory calmEnv "capturas" emptyWorld).2).1
        = Outcome.ok "/home/u/tarea/capturas" ∧
      (setupDirectory calmEnv "capturas" (setupDirectory calmEnv "capturas" emptyWorld).2).2.files
        = (setupDirectory calmEnv "capturas" emptyWorld).2.files) ∧
    ((setupDirectory calmEnv "capturas" capturasIsFile).1 = Outcome.ok "/home/u/tarea/capturas" ∧
      (setupDirectory calmEnv "capturas" capturasIsFile).2.files = capturasIsFile.files) :=
  ⟨(setupDirectory_contract calmEnv "capturas" emptyWorld).1 (by decide) (by decide),
   (setupDirectory_contract calmEnv "capturas" capturasIsFile).2 (Node.file "not a directory")
     (by decide)⟩

/-! ## C3: shape of the report -/

theorem addAll_ok (env : Env) (rep : String) (calls : List RowCall) :
    ∀ w, (addAll env rep calls w).1 = Outcome.ok () →
      FS.read (addAll env rep calls w).2.files rep =
        FS.read w.files rep ++
          String.join (calls.map (fun c => reportRow c.testName c.result c.screenshot)) ∧
      appended rep (delta (addAll env rep calls) w) =
        calls.map (fun c => reportRow c.testName c.result c.screenshot) ∧
      (addAll env rep calls w).2.trace = w.trace ++ delta (addAll env rep calls) w := by
  induction calls with
  | nil =>
    intro w _
    have hd : delta (addAll env rep []) w = [] := delta_of_eq (by simp [addAll])
    rw [hd]
    simp [addAll, appended]
  | cons c rest ih =>
    intro w h
    have hrun := addToReport_run env rep c.testName c.result c.screenshot w
    cases hf : env.fault w.trace
        (Call.appendFileSync rep (reportRow c.testName c.result c.screenshot)) with
    | some e =>
      rw [hf] at hrun
      simp only [addAll, bind_run] at h
      rw [bind_throw hrun] at h
      simp at h
    | none =>
      rw [hf] at hrun
      simp only [] at hrun
      obtain ⟨wa, hwa⟩ : ∃ wa : World, wa =
          { files := (rep, Node.file (FS.read w.files rep ++
              reportRow c.testName c.result c.screenshot)) :: w.files,
            trace := w.trace ++
              [⟨Call.appendFileSync rep (reportRow c.testName c.result c.screenshot), none⟩] } :=
        ⟨_, rfl⟩
      rw [← hwa] at hrun
      have hb : addAll env rep (c :: rest) w = addAll env rep rest wa := by
        simp only [addAll, bind_run]
        exact bind_ok hrun
      rw [hb] at h ⊢
      obtain ⟨h1, h2, h3⟩ := ih wa h
      have hd : delta (addAll env rep (c :: rest)) w =
          ⟨Call.appendFileSync rep (reportRow c.testName c.result c.screenshot), none⟩ ::
            delta (addAll env rep rest) wa :=
        delta_of_eq (by rw [hb, h3, hwa]; simp)
      rw [hd]
      refine ⟨?_, ?_, ?_⟩
      · rw [h1, hwa, read_cons_self]
        simp [String.append_assoc]
      · have : appended rep
            (⟨Call.appendFileSync rep (reportRow c.testName c.result c.screenshot), none⟩ ::
              delta (addAll env rep rest) wa) =
            reportRow c.testName c.result c.screenshot ::
              appended rep (delta (addAll env rep rest) wa) := by
          simp [appended, appendedData]
        rw [this, h2]
        rfl
      · rw [h3, hwa]; simp

set_option maxRecDepth 100000 in
/-- C3 (as stated, refuted): a session of one call whose scenario name holds
markup completes with two `<tr>` tags in the body of the report; and in the run
of `main` in which the append of the row of the second step throws, six row
blocks are handed to `addToReport` before the footer while the finished report
holds five, hence five `<tr>` tags in its body. -/
theorem rows_differ_from_calls :
    ((reportSession calmEnv "reporte.html" markupRow staleReport).1 = Outcome.ok () ∧
      FS.read (reportSession calmEnv "reporte.html" markupRow staleReport).2.files
          "/home/u/tarea/reporte.html" =
        generateReportHeader ++
          String.join (markupRow.map (fun c => reportRow c.testName c.result c.screenshot)) ++
          reportFooter ∧
      markupRow.length = 1 ∧
      countOf "<tr>"
        (String.join (markupRow.map (fun c => reportRow c.testName c.result c.screenshot)))
        = 2) ∧
    ((main rowLostEnv emptyWorld).1 = Outcome.ok () ∧
      attempted "/home/u/tarea/reporte.html" (main rowLostEnv emptyWorld).2.trace =
        [homeInfo.row, questionInfo.row, failedRow, tagsInfo.row, askInfo.row,
          companyInfo.row, reportFooter] ∧
      FS.read (main rowLostEnv emptyWorld).2.files "/home/u/tarea/reporte.html" =
        generateReportHeader ++
          String.join [homeInfo.row, failedRow, tagsInfo.row, askInfo.row, companyInfo.row] ++
          reportFooter ∧
      countOf "<tr>"
        (String.join [homeInfo.row, failedRow, tagsInfo.row, askInfo.row, companyInfo.row])
        = 5) := by
  refine ⟨⟨by decide, by rfl, by decide, by decide⟩, ⟨by decide, by rfl, by rfl, by decide⟩⟩

/-- C3 (amended): when a report session of `K` calls of `addToReport`
completes (no write or append throws), whatever the report file held before,
the file holds the header, then the `K` row blocks in call order, then the
footer, and these `K + 1` blocks are the appends logged, in that order.  When
moreover no scenario name, result or capture name holds the character `<`, the
body (the row blocks) holds exactly `K` tags `<tr>`, the whole report one more
(the row of the table head, in the header), and the report holds exactly one
`<html>` and one `<tbody>` (those of the header, which opens the body) and
exactly one `</tbody>` and one `</html>` (those of the footer). -/
theorem report_well_formed (env : Env) (fileName : String) (calls : List RowCall) (w : World)
    (h : (reportSession env fileName calls w).1 = Outcome.ok ()) :
    FS.find (reportSession env fileName calls w).2.files (path.join env.dirname fileName) =
      some (Node.file (generateReportHeader ++
        String.join (calls.map (fun c => reportRow c.testName c.result c.screenshot)) ++
        reportFooter)) ∧
    appended (path.join env.dirname fileName) (delta (reportSession env fileName calls) w) =
      calls.map (fun c => reportRow c.testName c.result c.screenshot) ++ [reportFooter] ∧
    ((∀ c ∈ calls, '<' ∉ c.testName.data ∧ '<' ∉ c.result.data ∧ '<' ∉ c.screenshot.data) →
      countOf "<tr>"
        (String.join (calls.map (fun c => reportRow c.testName c.result c.screenshot)))
        = calls.length ∧
      countOf "<tr>" (generateReportHeader ++
        String.join (calls.map (fun c => reportRow c.testName c.result c.screenshot)) ++
        reportFooter) = calls.length + 1 ∧
      (countOf "<html>" (generateReportHeader ++
          String.join (calls.map (fun c => reportRow c.testName c.result c.screenshot)) ++
          reportFooter) = 1 ∧
        countOf "<tbody>" (generateReportHeader ++
          String.join (calls.map (fun c => reportRow c.testName c.result c.screenshot)) ++
          reportFooter) = 1 ∧
        countOf "<html>" generateReportHeader = 1 ∧
        countOf "<tbody>" generateReportHeader = 1) ∧
      (countOf "</tbody>" (generateReportHeader ++
          String.join (calls.map (fun c => reportRow c.testName c.result c.screenshot)) ++
          reportFooter) = 1 ∧
        countOf "</html>" (generateReportHeader ++
          String.join (calls.map (fun c => reportRow c.testName c.result c.screenshot)) ++
          reportFooter) = 1 ∧
        countOf "</tbody>" reportFooter = 1 ∧
        countOf "</html>" reportFooter = 1)) := by
  have hbase :
      FS.find (reportSession env fileName calls w).2.files (path.join env.dirname fileName) =
        some (Node.file (generateReportHeader ++
          String.join (calls.map (fun c => reportRow c.testName c.result c.screenshot)) ++
          reportFooter)) ∧
      appended (path.join env.dirname fileName) (delta (reportSession env fileName calls) w) =
        calls.map (fun c => reportRow c.testName c.result c.screenshot) ++ [reportFooter] := by
    refine ⟨?_, ?_⟩ <;>
    · unfold reportSession at h ⊢
      rcases hi : initializeReportFile env fileName w with ⟨r1, w1⟩
      cases r1 with
      | throw e => simp only [bind_run] at h; rw [bind_throw hi] at h; simp at h
      | ok rep =>
        obtain ⟨hrep, hw1⟩ := initializeReportFile_returns hi
        have hb1 : ∀ (f : String → Eff Unit), (initializeReportFile env fileName >>= f) w
            = f rep w1 := fun f => by rw [bind_run]; exact bind_ok hi
        rw [hb1] at h
        rcases ha : addAll env rep calls w1 with ⟨r2, w2⟩
        cases r2 with
        | throw e => simp only [bind_run] at h; rw [bind_throw ha] at h; simp at h
        | ok u =>
          have hall := addAll_ok env rep calls w1 (by rw [ha])
          rw [ha] at hall
          simp only at hall
          obtain ⟨g1, g2, g3⟩ := hall
          have hb2 : (addAll env rep calls >>= fun _ => finalizeReport env rep) w1
              = finalizeReport env rep w2 := by rw [bind_run]; exact bind_ok ha
          rw [hb2] at h
          cases hf : env.fault w2.trace (Call.appendFileSync rep reportFooter) with
          | some e => simp [finalizeReport, fs.appendFileSync, prim, hf] at h
          | none =>
            have hfin : finalizeReport env rep w2 =
                (Outcome.ok (),
                  { files := (rep, Node.file (FS.read w2.files rep ++ reportFooter)) :: w2.files,
                    trace := w2.trace ++ [⟨Call.appendFileSync rep reportFooter, none⟩] }) := by
              simp [finalizeReport, fs.appendFileSync, prim, hf]
            have hread : FS.read w1.files rep = generateReportHeader := by
              rw [hw1]; exact read_cons_self _ _ _
            first
            | rw [hb1, hb2, hfin, ← hrep, g1, hread]
              simp [FS.find, List.lookup]
            | have hd : delta (initializeReportFile env fileName >>= fun reportFile =>
                  addAll env reportFile calls >>= fun _ => finalizeReport env reportFile) w =
                  ⟨Call.writeFileSync rep generateReportHeader none, none⟩ ::
                    (delta (addAll env rep calls) w1 ++
                      [⟨Call.appendFileSync rep reportFooter, none⟩]) :=
                delta_of_eq (by rw [hb1, hb2, hfin, g3, hw1]; simp)
              rw [← hrep, hd]
              have happ : appended rep
                  (⟨Call.writeFileSync rep generateReportHeader none, none⟩ ::
                    (delta (addAll env rep calls) w1 ++
                      [⟨Call.appendFileSync rep reportFooter, none⟩])) =
                  appended rep (delta (addAll env rep calls) w1) ++ [reportFooter] := by
                simp [appended, appendedData]
              rw [happ, g2]
  refine ⟨hbase.1, hbase.2, ?_⟩
  intro hplain
  obtain ⟨⟨s1, s2, s3, s4, s5⟩, ⟨a1, a2, a3, a4, a5⟩, ⟨b1, b2, b3, b4, b5⟩⟩ := header_counts
  simp only [countOf] at a1 a2 a3 a4 a5 b1 b2 b3 b4 b5
  have hbody : countOf "<tr>"
      (String.join (calls.map (fun c => reportRow c.testName c.result c.screenshot)))
      = calls.length := by
    have := occurrences_rows "tr>".data 1 row_count_tr [] calls hplain
    simp only [List.append_nil, occurrences, Nat.mul_one, Nat.add_zero] at this
    exact this
  have htr := occurrences_report "tr>".data 1 row_count_tr s1 calls hplain
  have hhtml := occurrences_report "html>".data 0 row_count_html s2 calls hplain
  have hhtmlEnd := occurrences_report "/html>".data 0 row_count_html_end s3 calls hplain
  have htbody := occurrences_report "tbody>".data 0 row_count_tbody s4 calls hplain
  have htbodyEnd := occurrences_report "/tbody>".data 0 row_count_tbody_end s5 calls hplain
  refine ⟨hbody, ?_, ⟨?_, ?_, a2, a4⟩, ⟨?_, ?_, b5, b3⟩⟩
  · show occurrences "<tr>".data _ = _
    rw [show "<tr>".data = '<' :: "tr>".data from rfl, htr,
      show ('<' :: "tr>".data) = "<tr>".data from rfl, a1, b1]
    omega
  · show occurrences "<html>".data _ = _
    rw [show "<html>".data = '<' :: "html>".data from rfl, hhtml,
      show ('<' :: "html>".data) = "<html>".data from rfl, a2, b2]
    omega
  · show occurrences "<tbody>".data _ = _
    rw [show "<tbody>".data = '<' :: "tbody>".data from rfl, htbody,
      show ('<' :: "tbody>".data) = "<tbody>".data from rfl, a4, b4]
    omega
  · show occurrences "</tbody>".data _ = _
    rw [show "</tbody>".data = '<' :: "/tbody>".data from rfl, htbodyEnd,
      show ('<' :: "/tbody>".data) = "</tbody>".data from rfl, a5, b5]
    omega
  · show occurrences "</html>".data _ = _
    rw [show "</html>".data = '<' :: "/html>".data from rfl, hhtmlEnd,
      show ('<' :: "/html>".data) = "</html>".data from rfl, a3, b3]
    omega

set_option maxRecDepth 100000 in
/-- C3, at a concrete input: a session of two rows over a report file left by
an older run. -/
theorem report_well_formed_witness :
    (reportSession calmEnv "reporte.html" twoRows staleReport).1 = Outcome.ok () ∧
    (∀ c ∈ twoRows, '<' ∉ c.testName.data ∧ '<' ∉ c.result.data ∧ '<' ∉ c.screenshot.data) ∧
    FS.find (reportSession calmEnv "reporte.html" twoRows staleReport).2.files
        (path.join calmEnv.dirname "reporte.html") =
      some (Node.file (generateReportHeader ++
        String.join (twoRows.map (fun c => reportRow c.testName c.result c.screenshot)) ++
        reportFooter)) ∧
    countOf "<tr>"
      (String.join (twoRows.map (fun c => reportRow c.testName c.result c.screenshot)))
      = twoRows.length :=
  ⟨by decide, by decide,
    (report_well_formed calmEnv "reporte.html" twoRows staleReport (by decide)).1,
    ((report_well_formed calmEnv "reporte.html" twoRows staleReport (by decide)).2.2
      (by decide)).1⟩

/-! ## C4: CSS class of the result cell -/

/-- C4: the row `addToReport` appends is the row markup whose result cell has
the class `success` when the result is `Completada` and `failure` for every
other result string, the cell text being the result itself; the block it
appends to the report is that row; and in a run of the `try` statement of
`main` every append other than the footer is either the row of
`handleTestError`, with class `failure` and text `Fallo`, or the row of a
step, with class `success` and text `Completada`. -/
theorem status_class :
    (∀ testName screenshot, reportRow testName "Completada" screenshot =
      rowMarkup testName "success" "Completada" (path.join "capturas" screenshot)) ∧
    (∀ testName result screenshot, result ≠ "Completada" →
      reportRow testName result screenshot =
        rowMarkup testName "failure" result (path.join "capturas" screenshot)) ∧
    (∀ (env : Env) (rep testName result screenshot : String) (w : World),
      delta (addToReport env rep testName result screenshot) w =
        [⟨Call.appendFileSync rep (reportRow testName result screenshot),
          env.fault w.trace (Call.appendFileSync rep (reportRow testName result screenshot))⟩]) ∧
    (∀ (env : Env) (d : Driver) (cap rep : String) (w : World),
      ∀ e ∈ delta (mainGuarded env d cap rep) w, ∀ p data,
        e.call = Call.appendFileSync p data →
        p = rep ∧
        (data = reportFooter ∨
         data = rowMarkup "Error durante la ejecución" "failure" "Fallo"
           "capturas/test_error.png" ∨
         ∃ info ∈ suiteInfo, data =
           rowMarkup info.testName "success" "Completada"
             ("capturas/" ++ info.name ++ ".png"))) := by
  refine ⟨fun t s => rfl, ?_, ?_, ?_⟩
  · intro t r s hr
    rw [reportRow_markup, if_neg hr]
  · intro env rep t r s w
    exact delta_prim env _ _ _ w
  · intro env d cap rep w e he p data hcall
    obtain ⟨hp, h | h | ⟨info, hinfo, h⟩⟩ := mainGuarded_appends env d cap rep w e he p data hcall
    · exact ⟨hp, Or.inl h⟩
    · exact ⟨hp, Or.inr (Or.inl (h.trans failedRow_markup))⟩
    · exact ⟨hp, Or.inr (Or.inr ⟨info, hinfo, h.trans (suite_rows_markup info hinfo)⟩)⟩

/-- C4, at concrete inputs: a `Fallo` row, and the appends of the run in which
the second step finds no question. -/
theorem status_class_witness :
    reportRow "Error durante la ejecución" "Fallo" "test_error.png" =
      rowMarkup "Error durante la ejecución" "failure" "Fallo"
        (path.join "capturas" "test_error.png") ∧
    (∀ e ∈ delta (mainGuarded noQuestionEnv chrome "/home/u/tarea/capturas"
        "/home/u/tarea/reporte.html") emptyWorld, ∀ p data,
        e.call = Call.appendFileSync p data →
        p = "/home/u/tarea/reporte.html" ∧
        (data = reportFooter ∨
         data = rowMarkup "Error durante la ejecución" "failure" "Fallo"
           "capturas/test_error.png" ∨
         ∃ info ∈ suiteInfo, data =
           rowMarkup info.testName "success" "Completada"
             ("capturas/" ++ info.name ++ ".png"))) :=
  ⟨status_class.2.1 "Error durante la ejecución" "Fallo" "test_error.png" (by decide),
   status_class.2.2.2 noQuestionEnv chrome "/home/u/tarea/capturas"
     "/home/u/tarea/reporte.html" emptyWorld⟩

/-! ## C2: finalization -/

/-- C2 (as stated, refuted): when the append of the footer throws, here on a
full disk, `finalizeReport` has been invoked once and `driver.quit` is never
invoked. -/
theorem footer_failure_skips_quit :
    callCount (Call.appendFileSync "/home/u/tarea/reporte.html" reportFooter)
      (main diskFullEnv emptyWorld).2.trace = 1 ∧
    callCount Call.quit (main diskFullEnv emptyWorld).2.trace = 0 := by
  decide

/-- C2 (amended): once the three resources are acquired, whatever the steps,
`testSuite`, the top-level `handleTestError` or any file-system call do, the
rest of the run of `main` invokes `finalizeReport` exactly once (one append of
the footer is attempted), and it invokes `driver.quit` exactly once when that
append succeeds and not at all when it throws. -/
theorem main_finalizes_once (env : Env) (w w3 : World) (d : Driver) (cap rep : String)
    (h : Acquired env w d cap rep w3) :
    ∃ t, (main env w).2.trace = w3.trace ++ t ∧
      callCount (Call.appendFileSync rep reportFooter) t = 1 ∧
      callCount Call.quit t = if footerEntry rep none ∈ t then 1 else 0 := by
  obtain ⟨hmain, -, -, -⟩ := acquired_main h
  obtain ⟨top, fin, mid, hr⟩ := mainGuarded_run env d cap rep w3
  rw [hmain]
  refine ⟨_, hr.trace_eq, ?_, ?_⟩
  · rw [callCount_append, callCount_eq_zero (fun e he => (inner_not_final (mainRun_inner hr e he)).1)]
    rcases hr.fin_cases with ⟨x, hf, _⟩ | ⟨x, hf, _⟩ | ⟨hf, _⟩ <;> rw [hf] <;>
      simp [callCount, footerEntry]
  · have hin : footerEntry rep none ∉
        (segments (suiteSteps env d cap rep) w3).flatten ++ top := fun hc =>
      (inner_not_final (mainRun_inner hr _ hc)).1 rfl
    have key : footerEntry rep none ∈
        (segments (suiteSteps env d cap rep) w3).flatten ++ top ++ fin ↔
        footerEntry rep none ∈ fin := by
      rw [List.mem_append]
      exact ⟨fun hc => hc.resolve_left hin, Or.inr⟩
    rw [callCount_append,
      callCount_eq_zero (fun e he => (inner_not_final (mainRun_inner hr e he)).2)]
    simp only [key]
    rcases hr.fin_cases with ⟨x, hf, _⟩ | ⟨x, hf, _⟩ | ⟨hf, _⟩ <;> rw [hf] <;>
      simp [callCount, footerEntry]

/-- C2, at a concrete input: the run in which the second step finds no
question. -/
theorem main_finalizes_once_witness :
    ∃ t, (main noQuestionEnv emptyWorld).2.trace =
        (initializeReportFile noQuestionEnv "reporte.html"
          (setupDirectory noQuestionEnv "capturas"
            (initializeWebDriver noQuestionEnv "chrome" emptyWorld).2).2).2.trace ++ t ∧
      callCount (Call.appendFileSync "/home/u/tarea/reporte.html" reportFooter) t = 1 ∧
      callCount Call.quit t =
        if footerEntry "/home/u/tarea/reporte.html" none ∈ t then 1 else 0 :=
  main_finalizes_once noQuestionEnv emptyWorld _ chrome "/home/u/tarea/capturas"
    "/home/u/tarea/reporte.html" ⟨_, _, rfl, rfl, rfl⟩

/-! ## C5: evidence naming -/

theorem namesEvidence_of_stepRun {env : Env} {dirname cap : String} {m : Eff Unit}
    {info : StepInfo} (hinfo : info ∈ suiteInfo)
    (h : ∀ w, StepRun env (path.join dirname "reporte.html") info.url
      (StepEntry cap (path.join dirname "reporte.html") info) m w info.row (info.shot cap)
      (path.join cap "test_error.png")) :
    NamesEvidence env cap (path.join dirname "reporte.html") m info := by
  intro w hff
  have hs := h w
  have hne := (suite_shots_ne_report dirname cap).1 info hinfo
  obtain ⟨t, ht1, ht2⟩ := hs.wrote hff
  rcases hs.outcome with ⟨g1, _, g3, _⟩ | ⟨_, g2, _⟩ | ⟨_, _, g2, _⟩
  · exact ⟨g1, ⟨t, ht2 hne, ht1⟩, by rw [g3, suite_rows_markup info hinfo]⟩
  · exact absurd hff g2
  · exact absurd hff g2

set_option maxRecDepth 100000 in
/-- C5 (as stated, refuted): the row `validateLoginOnAskPage` appends on its
success path does not link to `captures/login_pregunta.png`; its link is
`capturas/login_pregunta.png`. -/
theorem login_row_links_to_capturas :
    appended "/home/u/tarea/reporte.html"
        (delta (validateLoginOnAskPage calmEnv chrome "/home/u/tarea/capturas"
          "/home/u/tarea/reporte.html") emptyWorld) ≠
      [rowMarkup "Validación de login en Preguntar" "success" "Completada"
        "captures/login_pregunta.png"] ∧
    appended "/home/u/tarea/reporte.html"
        (delta (validateLoginOnAskPage calmEnv chrome "/home/u/tarea/capturas"
          "/home/u/tarea/reporte.html") emptyWorld) =
      [rowMarkup "Validación de login en Preguntar" "success" "Completada"
        "capturas/login_pregunta.png"] := by
  decide

/-- C5 (amended): for each of the five steps, when no call of the step throws,
the step writes its screenshot to `<name>.png` directly under the capture
directory, replacing what the file held, and the row it appends links to
`capturas/<name>.png` with the same name. -/
theorem evidence_naming (env : Env) (d : Driver) (cap : String) :
    NamesEvidence env cap (path.join env.dirname "reporte.html")
      (navigateToHome env d cap (path.join env.dirname "reporte.html")) homeInfo ∧
    NamesEvidence env cap (path.join env.dirname "reporte.html")
      (selectFirstQuestion env d cap (path.join env.dirname "reporte.html")) questionInfo ∧
    NamesEvidence env cap (path.join env.dirname "reporte.html")
      (searchTags env d cap (path.join env.dirname "reporte.html")) tagsInfo ∧
    NamesEvidence env cap (path.join env.dirname "reporte.html")
      (validateLoginOnAskPage env d cap (path.join env.dirname "reporte.html")) askInfo ∧
    NamesEvidence env cap (path.join env.dirname "reporte.html")
      (searchAndClickCompany env d cap (path.join env.dirname "reporte.html")) companyInfo :=
  ⟨namesEvidence_of_stepRun (by decide) (navigateToHome_run env d cap _),
   namesEvidence_of_stepRun (by decide) (selectFirstQuestion_run env d cap _),
   namesEvidence_of_stepRun (by decide) (searchTags_run env d cap _),
   namesEvidence_of_stepRun (by decide) (validateLoginOnAskPage_run env d cap _),
   namesEvidence_of_stepRun (by decide) (searchAndClickCompany_run env d cap _)⟩

/-- C5, at a concrete input: `validateLoginOnAskPage` in an environment where
nothing throws. -/
theorem evidence_naming_witness :
    (validateLoginOnAskPage calmEnv chrome "/home/u/tarea/capturas"
      (path.join calmEnv.dirname "reporte.html") emptyWorld).1 = Outcome.ok () ∧
    (∃ t, FS.find (validateLoginOnAskPage calmEnv chrome "/home/u/tarea/capturas"
          (path.join calmEnv.dirname "reporte.html") emptyWorld).2.files
          (path.join "/home/u/tarea/capturas" (askInfo.name ++ ".png")) =
        some (Node.file (calmEnv.base64Decode (calmEnv.screenshot t))) ∧
      (⟨Call.writeFileSync (path.join "/home/u/tarea/capturas" (askInfo.name ++ ".png"))
        (calmEnv.screenshot t) (some "base64"), none⟩ : Entry) ∈
        delta (validateLoginOnAskPage calmEnv chrome "/home/u/tarea/capturas"
          (path.join calmEnv.dirname "reporte.html")) emptyWorld) ∧
    appended (path.join calmEnv.dirname "reporte.html")
        (delta (validateLoginOnAskPage calmEnv chrome "/home/u/tarea/capturas"
          (path.join calmEnv.dirname "reporte.html")) emptyWorld) =
      [rowMarkup askInfo.testName "success" "Completada"
        ("capturas/" ++ askInfo.name ++ ".png")] :=
  (evidence_naming calmEnv chrome "/home/u/tarea/capturas").2.2.2.1 emptyWorld (by decide)

/-! ## C6: failure diagnostic -/

set_option maxRecDepth 100000 in
/-- C6 (as stated, refuted): with a dead browser the first step's navigation
throws, and so does the screenshot of `handleTestError`; after the run there
is no `test_error.png` and the footer is the only block appended to the
report: no `Fallo` row. -/
theorem dead_browser_leaves_no_diagnostic :
    (⟨Call.get "https://stackoverflow.com", some "NoSuchSessionError"⟩ : Entry) ∈
      (main deadBrowserEnv emptyWorld).2.trace ∧
    FS.find (main deadBrowserEnv emptyWorld).2.files "/home/u/tarea/capturas/test_error.png"
      = none ∧
    appended "/home/u/tarea/reporte.html" (main deadBrowserEnv emptyWorld).2.trace
      = [reportFooter] := by
  decide

/-- C6 (amended): once the resources are acquired, in every run in which a
call of the suite throws and the diagnostic of `handleTestError` (its
screenshot, the write of `test_error.png`, the append of the `Fallo` row) does
not throw, after the run `test_error.png` is a file of the capture directory,
and the `Fallo` row, of class `failure` and linking to
`capturas/test_error.png`, is one of the blocks appended to the report, whose
content is the header followed by the blocks appended. -/
theorem failure_diagnostic (env : Env) (w w3 : World) (d : Driver) (cap rep : String)
    (h : Acquired env w d cap rep w3) (hdiag : DiagOk env cap rep)
    (hfault : ¬ FaultFree (delta (testSuite env d cap rep) w3)) :
    cap = path.join env.dirname "capturas" ∧
    IsFile (main env w).2.files (path.join cap "test_error.png") ∧
    ∃ t, (main env w).2.trace = w3.trace ++ t ∧
      rowMarkup "Error durante la ejecución" "failure" "Fallo" "capturas/test_error.png"
        ∈ appended rep t ∧
      FS.read (main env w).2.files rep = generateReportHeader ++ String.join (appended rep t) := by
  obtain ⟨hmain, hrep, hcap, hread⟩ := acquired_main h
  obtain ⟨top, fin, mid, hr⟩ := mainGuarded_run env d cap rep w3
  rw [testSuite_delta] at hfault
  have hne := suite_shots_ne_report env.dirname cap
  rw [← hrep] at hne
  rw [hmain, ← failedRow_markup]
  have hrow : IsFile (mainGuarded env d cap rep w3).2.files (path.join cap "test_error.png") ∧
      failedRow ∈ appended rep ((segments (suiteSteps env d cap rep) w3).flatten ++ top) := by
    rcases hr.suite_cases with ⟨_, _, hone⟩ | ⟨e, pre, last, hs, _, _, _, _⟩
    · have : ∃ seg ∈ segments (suiteSteps env d cap rep) w3, ¬ FaultFree seg := by
        by_contra hc
        push_neg at hc
        exact hfault (faultFree_flatten.2 hc)
      obtain ⟨seg, hseg, hnf⟩ := this
      obtain ⟨info, _, hso⟩ := forall₂_mem_right hr.segs_ok seg hseg
      rcases hso.2 with ⟨g, _⟩ | ⟨_, g2, g3⟩ | ⟨_, g2⟩
      · exact absurd g hnf
      · refine ⟨g3, ?_⟩
        rw [appended_append]
        exact List.mem_append_left _ (mem_appended_flatten hseg (by rw [g2]; simp))
      · have := hone seg hseg
        rw [g2] at this
        simp at this
    · rcases hr.top_cases with ⟨hs', _⟩ | ⟨e', t, _, ht, _, _, hcase⟩
      · rw [hs] at hs'; cases hs'
      · rcases hcase with ⟨_, _, g3, g4⟩ | ⟨x, g1, _⟩
        · refine ⟨g4, ?_⟩
          rw [appended_append, ht]
          apply List.mem_append_right
          have : appended rep (⟨Call.consoleError ["Error durante la ejecución:", e'], none⟩ :: t)
              = appended rep t := by simp [appended, appendedData]
          rw [this, g3]
          simp
        · rw [(hr.diag hdiag).1] at g1; cases g1
  refine ⟨hcap, hrow.1, _, hr.trace_eq, ?_, ?_⟩
  · rw [appended_append]
    exact List.mem_append_left _ hrow.2
  · rw [hr.read_eq hne.1 hne.2, hread]

/-- C6, at a concrete input: the run in which the second step finds no
question. -/
theorem failure_diagnostic_witness :
    "/home/u/tarea/capturas" = path.join noQuestionEnv.dirname "capturas" ∧
    IsFile (main noQuestionEnv emptyWorld).2.files
      (path.join "/home/u/tarea/capturas" "test_error.png") ∧
    ∃ t, (main noQuestionEnv emptyWorld).2.trace = (acquiredWorld noQuestionEnv).trace ++ t ∧
      rowMarkup "Error durante la ejecución" "failure" "Fallo" "capturas/test_error.png"
        ∈ appended "/home/u/tarea/reporte.html" t ∧
      FS.read (main noQuestionEnv emptyWorld).2.files "/home/u/tarea/reporte.html" =
        generateReportHeader ++ String.join (appended "/home/u/tarea/reporte.html" t) :=
  failure_diagnostic noQuestionEnv emptyWorld (acquiredWorld noQuestionEnv) chrome
    "/home/u/tarea/capturas" "/home/u/tarea/reporte.html" ⟨_, _, rfl, rfl, rfl⟩
    ⟨fun _ _ => rfl, fun _ _ => rfl, fun _ => rfl⟩ (by decide)

/-! ## C7: one row per step that starts -/

set_option maxRecDepth 100000 in
/-- C7 (as stated, refuted): when the browser dies at the second step, two
steps start, the first appends its row and the second appends nothing, and the
finished report holds one row before the footer. -/
theorem second_step_leaves_no_row :
    (segments (suiteSteps dyingBrowserEnv chrome "/home/u/tarea/capturas"
        "/home/u/tarea/reporte.html") (acquiredWorld dyingBrowserEnv)).map
        (appended "/home/u/tarea/reporte.html") = [[homeInfo.row], []] ∧
    appended "/home/u/tarea/reporte.html" (main dyingBrowserEnv emptyWorld).2.trace =
      [homeInfo.row, reportFooter] := by
  decide

/-- C7 (amended): once the resources are acquired, the rest of the run logs
the stretches of the steps that started, then the `catch` block, then the
`finally` block.  No stretch appends two blocks; the rows of the report (the
blocks appended before the `finally` block, which only appends the footer) are
at most as many as the steps that started, hence at most five; when no call of
the suite throws they are the five `Completada` rows; and when the diagnostic
of `handleTestError` does not throw there is exactly one row per step that
started, in order, each the `Completada` row of its step or the `Fallo` row.
The report holds the header, then the rows, then what the `finally` block
appended. -/
theorem one_row_per_step (env : Env) (w w3 : World) (d : Driver) (cap rep : String)
    (h : Acquired env w d cap rep w3) :
    ∃ top fin,
      (main env w).2.trace =
        w3.trace ++ ((segments (suiteSteps env d cap rep) w3).flatten ++ top ++ fin) ∧
      (∀ seg ∈ segments (suiteSteps env d cap rep) w3, (appended rep seg).length ≤ 1) ∧
      (appended rep ((segments (suiteSteps env d cap rep) w3).flatten ++ top)).length ≤
        (segments (suiteSteps env d cap rep) w3).length ∧
      (segments (suiteSteps env d cap rep) w3).length ≤ 5 ∧
      (appended rep fin = [] ∨ appended rep fin = [reportFooter]) ∧
      (FaultFree (segments (suiteSteps env d cap rep) w3).flatten →
        appended rep ((segments (suiteSteps env d cap rep) w3).flatten ++ top) =
          suiteInfo.map StepInfo.row) ∧
      (DiagOk env cap rep →
        List.Forall₂ (fun info row => row = info.row ∨ row = failedRow)
          (suiteInfo.take (segments (suiteSteps env d cap rep) w3).length)
          (appended rep ((segments (suiteSteps env d cap rep) w3).flatten ++ top))) ∧
      FS.read (main env w).2.files rep =
        generateReportHeader ++
          String.join (appended rep ((segments (suiteSteps env d cap rep) w3).flatten ++ top)) ++
          String.join (appended rep fin) := by
  obtain ⟨hmain, hrep, hcap, hread⟩ := acquired_main h
  obtain ⟨top, fin, mid, hr⟩ := mainGuarded_run env d cap rep w3
  have hne := suite_shots_ne_report env.dirname cap
  rw [← hrep] at hne
  rw [hmain]
  have hlen5 : (segments (suiteSteps env d cap rep) w3).length ≤ 5 := by
    have := hr.segs_ok.length_eq
    rw [List.length_take] at this
    have h5 : suiteInfo.length = 5 := rfl
    omega
  have hconsole : ∀ (e : Err) (t : List Entry),
      appended rep (⟨Call.consoleError ["Error durante la ejecución:", e], none⟩ :: t)
        = appended rep t := fun e t => by simp [appended, appendedData]
  refine ⟨top, fin, hr.trace_eq, ?_, ?_, hlen5, ?_, ?_, ?_, ?_⟩
  · intro seg hseg
    obtain ⟨info, _, hso⟩ := forall₂_mem_right hr.segs_ok seg hseg
    rcases hso.2 with ⟨_, g, _⟩ | ⟨_, g, _⟩ | ⟨_, g⟩ <;> rw [g] <;> simp
  · rcases hr.suite_cases with ⟨hs, _, hone⟩ | ⟨e, pre, last, hs, hsegs, hpre, hlast, _⟩
    · rcases hr.top_cases with ⟨_, ht, _⟩ | ⟨e', t, hs', _⟩
      · rw [ht, List.append_nil, appended_flatten_length hone]
      · rw [hs] at hs'; cases hs'
    · rcases hr.top_cases with ⟨hs', _⟩ | ⟨e', t, _, ht, _, _, hcase⟩
      · rw [hs] at hs'; cases hs'
      · have htop : (appended rep top).length ≤ 1 := by
          rw [ht, hconsole]
          rcases hcase with ⟨_, _, g, _⟩ | ⟨_, _, _, g⟩ <;> rw [g] <;> simp
        rw [hsegs, appended_append, List.flatten_append, appended_append]
        simp only [List.flatten_cons, List.flatten_nil, List.append_nil, hlast,
          List.length_append, List.length_nil, List.length_cons,
          appended_flatten_length hpre]
        omega
  · rcases hr.fin_cases with ⟨x, hf, _⟩ | ⟨x, hf, _⟩ | ⟨hf, _⟩ <;> rw [hf] <;>
      simp [appended, appendedData, footerEntry]
  · intro hff
    have hall := faultFree_flatten.1 hff
    have hclean : List.Forall₂ (fun info seg => ∃ r, appended rep seg = [r] ∧ r = info.row)
        (suiteInfo.take (segments (suiteSteps env d cap rep) w3).length)
        (segments (suiteSteps env d cap rep) w3) := by
      refine forall₂_imp_mem hr.segs_ok ?_
      intro info seg _ hseg hso
      rcases hso.2 with ⟨_, g, _⟩ | ⟨g, _⟩ | ⟨g, _⟩
      · exact ⟨_, g, rfl⟩
      · exact absurd (hall seg hseg) g
      · exact absurd (hall seg hseg) g
    rcases hr.suite_cases with ⟨hs, hl, _⟩ | ⟨e, pre, last, _, hsegs, _, _, hnf⟩
    · rcases hr.top_cases with ⟨_, ht, _⟩ | ⟨e', t, hs', _⟩
      · rw [ht, List.append_nil]
        have hrows := forall₂_rows hclean
        rw [hl] at hrows
        have : List.take 5 suiteInfo = suiteInfo := rfl
        rw [this] at hrows
        exact forall₂_eq_map hrows
      · rw [hs] at hs'; cases hs'
    · exact absurd (hall last (by rw [hsegs]; simp)) hnf
  · intro hdiag
    obtain ⟨hmid, hone⟩ := hr.diag hdiag
    rcases hr.suite_cases with ⟨hs, _, hall⟩ | ⟨e, pre, last, hs, hsegs, _, hlast, _⟩
    · rcases hr.top_cases with ⟨_, ht, _⟩ | ⟨e', t, hs', _⟩
      · rw [ht, List.append_nil]
        apply forall₂_rows
        refine forall₂_imp_mem hr.segs_ok ?_
        intro info seg _ hseg hso
        rcases hso.2 with ⟨_, g, _⟩ | ⟨_, g, _⟩ | ⟨_, g⟩
        · exact ⟨_, g, Or.inl rfl⟩
        · exact ⟨_, g, Or.inr rfl⟩
        · have := hall seg hseg
          rw [g] at this
          simp at this
      · rw [hs] at hs'; cases hs'
    · have hl := hone e hs
      rcases hr.top_cases with ⟨hs', _⟩ | ⟨e', t, _, ht, _, _, hcase⟩
      · rw [hs] at hs'; cases hs'
      · have hpre : pre = [] := by
          rw [hsegs] at hl
          simp only [List.length_append, List.length_cons, List.length_nil] at hl
          exact List.length_eq_zero.1 (by omega)
        rcases hcase with ⟨_, _, g, _⟩ | ⟨x, g1, _⟩
        · rw [hl, hsegs, hpre, ht, appended_append, hconsole, g]
          simp only [List.nil_append, List.flatten_cons, List.flatten_nil, List.append_nil,
            hlast]
          exact List.Forall₂.cons (Or.inr rfl) List.Forall₂.nil
        · rw [hmid] at g1; cases g1
  · rw [hr.read_eq hne.1 hne.2, hread]
    simp [appended_append, string_join_append, String.append_assoc]

/-- C7, at a concrete input: the run in which the second step finds no
question. -/
theorem one_row_per_step_witness :
    ∃ top fin,
      (main noQuestionEnv emptyWorld).2.trace =
        (acquiredWorld noQuestionEnv).trace ++
          ((segments (suiteSteps noQuestionEnv chrome "/home/u/tarea/capturas"
            "/home/u/tarea/reporte.html") (acquiredWorld noQuestionEnv)).flatten ++ top ++ fin) ∧
      (∀ seg ∈ segments (suiteSteps noQuestionEnv chrome "/home/u/tarea/capturas"
          "/home/u/tarea/reporte.html") (acquiredWorld noQuestionEnv),
        (appended "/home/u/tarea/reporte.html" seg).length ≤ 1) ∧
      (appended "/home/u/tarea/reporte.html"
        ((segments (suiteSteps noQuestionEnv chrome "/home/u/tarea/capturas"
          "/home/u/tarea/reporte.html") (acquiredWorld noQuestionEnv)).flatten ++ top)).length ≤
        (segments (suiteSteps noQuestionEnv chrome "/home/u/tarea/capturas"
          "/home/u/tarea/reporte.html") (acquiredWorld noQuestionEnv)).length ∧
      (segments (suiteSteps noQuestionEnv chrome "/home/u/tarea/capturas"
        "/home/u/tarea/reporte.html") (acquiredWorld noQuestionEnv)).length ≤ 5 ∧
      (appended "/home/u/tarea/reporte.html" fin = [] ∨
        appended "/home/u/tarea/reporte.html" fin = [reportFooter]) ∧
      (FaultFree (segments (suiteSteps noQuestionEnv chrome "/home/u/tarea/capturas"
          "/home/u/tarea/reporte.html") (acquiredWorld noQuestionEnv)).flatten →
        appended "/home/u/tarea/reporte.html"
          ((segments (suiteSteps noQuestionEnv chrome "/home/u/tarea/capturas"
            "/home/u/tarea/reporte.html") (acquiredWorld noQuestionEnv)).flatten ++ top) =
          suiteInfo.map StepInfo.row) ∧
      (DiagOk noQuestionEnv "/home/u/tarea/capturas" "/home/u/tarea/reporte.html" →
        List.Forall₂ (fun info row => row = info.row ∨ row = failedRow)
          (suiteInfo.take (segments (suiteSteps noQuestionEnv chrome "/home/u/tarea/capturas"
            "/home/u/tarea/reporte.html") (acquiredWorld noQuestionEnv)).length)
          (appended "/home/u/tarea/reporte.html"
            ((segments (suiteSteps noQuestionEnv chrome "/home/u/tarea/capturas"
              "/home/u/tarea/reporte.html") (acquiredWorld noQuestionEnv)).flatten ++ top))) ∧
      FS.read (main noQuestionEnv emptyWorld).2.files "/home/u/tarea/reporte.html" =
        generateReportHeader ++
          String.join (appended "/home/u/tarea/reporte.html"
            ((segments (suiteSteps noQuestionEnv chrome "/home/u/tarea/capturas"
              "/home/u/tarea/reporte.html") (acquiredWorld noQuestionEnv)).flatten ++ top)) ++
          String.join (appended "/home/u/tarea/reporte.html" fin) :=
  one_row_per_step noQuestionEnv emptyWorld (acquiredWorld noQuestionEnv) chrome
    "/home/u/tarea/capturas" "/home/u/tarea/reporte.html" ⟨_, _, rfl, rfl, rfl⟩

/-! ## C9: an error thrown by `testSuite` -/

set_option maxRecDepth 100000 in
/-- C9 (as stated, refuted): when the home page times out and the disk is full
at the footer, `testSuite` throws and the diagnostic succeeds (the capture is
written, the `Fallo` row is appended), yet the footer is not appended after
that row and `main` throws; and with a dead browser `testSuite` throws and the
run leaves no `test_error` capture and appends no `Fallo` row. -/
theorem footer_lost_after_suite_failure :
    ((testSuite homeDownDiskFullEnv chrome "/home/u/tarea/capturas" "/home/u/tarea/reporte.html"
        (acquiredWorld homeDownDiskFullEnv)).1 = Outcome.throw "TimeoutError" ∧
      FS.find (main homeDownDiskFullEnv emptyWorld).2.files
        "/home/u/tarea/capturas/test_error.png" = some (Node.file "iVBORw0KGgo=") ∧
      appended "/home/u/tarea/reporte.html" (main homeDownDiskFullEnv emptyWorld).2.trace
        = [failedRow] ∧
      FS.read (main homeDownDiskFullEnv emptyWorld).2.files "/home/u/tarea/reporte.html"
        = generateReportHeader ++ failedRow ∧
      (main homeDownDiskFullEnv emptyWorld).1 = Outcome.throw "ENOSPC") ∧
    ((testSuite deadBrowserEnv chrome "/home/u/tarea/capturas" "/home/u/tarea/reporte.html"
        (acquiredWorld deadBrowserEnv)).1 = Outcome.throw "NoSuchSessionError" ∧
      callCount Call.takeScreenshot (main deadBrowserEnv emptyWorld).2.trace = 1 ∧
      FS.find (main deadBrowserEnv emptyWorld).2.files "/home/u/tarea/capturas/test_error.png"
        = none ∧
      FS.read (main deadBrowserEnv emptyWorld).2.files "/home/u/tarea/reporte.html"
        = generateReportHeader ++ reportFooter) := by
  refine ⟨⟨by decide, by rfl, by rfl, by rfl, by decide⟩, ⟨by decide, by decide, by rfl, by rfl⟩⟩

/-- C9 (amended): once the resources are acquired, in every run in which
`testSuite` throws an error `e`, the rest of the run logs the stretch of the
suite, then the console line of the `catch` block, then the stretch `t` of one
call of `handleTestError` for `e`, then the `finally` block, which starts with
the append of the footer: finalization is reached.  The `catch` block is
entered exactly once.  The footer is the one block the `finally` block appends
when its append does not throw, and nothing is appended when it throws.  When
the diagnostic succeeds, `t` is one screenshot, one write of `test_error.png`
and one append of the `Fallo` row; the report holds the header, the rows of
the suite, that row, then what the `finally` block appended, which is the
footer when its append does not throw; and the error does not leave `main`:
`main` returns when no call of the `finally` block throws, and an error it
throws is one thrown by a call of the `finally` block. -/
theorem top_level_failure (env : Env) (w w3 : World) (d : Driver) (cap rep : String)
    (h : Acquired env w d cap rep w3) (e : Err)
    (hs : (testSuite env d cap rep w3).1 = Outcome.throw e) :
    ∃ t fin mid,
      (main env w).2.trace =
        w3.trace ++ (delta (testSuite env d cap rep) w3 ++
          ⟨Call.consoleError ["Error durante la ejecución:", e], none⟩ :: t ++ fin) ∧
      callCount (Call.consoleError ["Error durante la ejecución:", e])
        (delta (testSuite env d cap rep) w3 ++
          ⟨Call.consoleError ["Error durante la ejecución:", e], none⟩ :: t ++ fin) = 1 ∧
      HandlerTrace cap rep e t mid ∧
      (∃ err rest, fin = footerEntry rep err :: rest ∧
        (∀ x ∈ rest, x.call = Call.quit ∨
          x.call = Call.consoleLog ["Reporte generado en:", rep]) ∧
        appended rep fin = if err = none then [reportFooter] else []) ∧
      (mid = Outcome.ok () →
        (∃ data, t =
          [⟨Call.consoleError ["Error capturado:", e], none⟩, ⟨Call.takeScreenshot, none⟩,
            ⟨Call.writeFileSync (path.join cap "test_error.png") data (some "base64"), none⟩,
            ⟨Call.consoleLog ["Captura guardada en: " ++ path.join cap "test_error.png"],
              none⟩,
            ⟨Call.appendFileSync rep failedRow, none⟩]) ∧
        appended rep t = [failedRow] ∧
        IsFile (main env w).2.files (path.join cap "test_error.png") ∧
        FS.read (main env w).2.files rep =
          generateReportHeader ++
            String.join (appended rep (delta (testSuite env d cap rep) w3)) ++ failedRow ++
            String.join (appended rep fin) ∧
        (footerEntry rep none ∈ fin →
          FS.read (main env w).2.files rep =
            generateReportHeader ++
              String.join (appended rep (delta (testSuite env d cap rep) w3)) ++ failedRow ++
              reportFooter) ∧
        (FaultFree fin → (main env w).1 = Outcome.ok ()) ∧
        (∀ x, (main env w).1 = Outcome.throw x → ∃ c, (⟨c, some x⟩ : Entry) ∈ fin)) := by
  obtain ⟨hmain, hrep, hcap, hread⟩ := acquired_main h
  obtain ⟨top, fin, mid, hr⟩ := mainGuarded_run env d cap rep w3
  have hne := suite_shots_ne_report env.dirname cap
  rw [← hrep] at hne
  rw [hmain, testSuite_delta]
  rcases hr.top_cases with ⟨hs', _⟩ | ⟨e', t, hs', ht, hcalls, htrace, hcase⟩
  · rw [hs] at hs'; cases hs'
  rw [hs] at hs'
  cases hs'
  have hconsole : ∀ l : List Entry,
      appended rep (⟨Call.consoleError ["Error durante la ejecución:", e], none⟩ :: l)
        = appended rep l := fun l => by simp [appended, appendedData]
  have hfin : ∃ err rest, fin = footerEntry rep err :: rest ∧
      (∀ x ∈ rest, x.call = Call.quit ∨
        x.call = Call.consoleLog ["Reporte generado en:", rep]) ∧
      appended rep fin = if err = none then [reportFooter] else [] := by
    rcases hr.fin_cases with ⟨x, hf, _⟩ | ⟨x, hf, _⟩ | ⟨hf, _⟩
    · exact ⟨some x, [], hf, by simp, by rw [hf]; simp [appended, appendedData, footerEntry]⟩
    · exact ⟨none, [⟨Call.quit, some x⟩], hf, by simp,
        by rw [hf]; simp [appended, appendedData, footerEntry]⟩
    · exact ⟨none, [⟨Call.quit, none⟩,
        ⟨Call.consoleLog ["Reporte generado en:", rep], none⟩], hf, by simp,
        by rw [hf]; simp [appended, appendedData, footerEntry]⟩
  refine ⟨t, fin, mid, by rw [← ht]; exact hr.trace_eq, ?_, htrace, hfin, ?_⟩
  · have hsegs : callCount (Call.consoleError ["Error durante la ejecución:", e])
        (segments (suiteSteps env d cap rep) w3).flatten = 0 := by
      apply callCount_eq_zero
      intro x hx
      obtain ⟨seg, hseg, hxs⟩ := List.mem_flatten.1 hx
      obtain ⟨info, hinfo, hso⟩ := forall₂_mem_right hr.segs_ok seg hseg
      obtain ⟨err, rest, hh, hrest⟩ := hso.1
      rw [hh] at hxs
      rcases List.mem_cons.1 hxs with rfl | hxs
      · intro hc; cases hc
      · exact (stepEntry_not_nav (List.mem_of_mem_take hinfo) (hrest x hxs)).2 e
    have ht0 : callCount (Call.consoleError ["Error durante la ejecución:", e]) t = 0 :=
      callCount_eq_zero (fun x hx => (handlerEntry_plain (hcalls x hx)).2 e)
    have hfin0 : callCount (Call.consoleError ["Error durante la ejecución:", e]) fin = 0 := by
      obtain ⟨err, rest, hf, hrest, -⟩ := hfin
      apply callCount_eq_zero
      intro x hx
      rw [hf] at hx
      rcases List.mem_cons.1 hx with rfl | hx
      · intro hc; cases hc
      · rcases hrest x hx with hq | hq <;> rw [hq] <;> intro hc <;> cases hc
    have hcons : callCount (Call.consoleError ["Error durante la ejecución:", e])
        (⟨Call.consoleError ["Error durante la ejecución:", e], none⟩ :: t) =
        1 + callCount (Call.consoleError ["Error durante la ejecución:", e]) t := by
      simp [callCount, Nat.add_comm]
    rw [callCount_append, callCount_append, hsegs, hcons, ht0, hfin0]
  · intro hmid
    have hshape : ∃ data, t =
        [⟨Call.consoleError ["Error capturado:", e], none⟩, ⟨Call.takeScreenshot, none⟩,
          ⟨Call.writeFileSync (path.join cap "test_error.png") data (some "base64"), none⟩,
          ⟨Call.consoleLog ["Captura guardada en: " ++ path.join cap "test_error.png"], none⟩,
          ⟨Call.appendFileSync rep failedRow, none⟩] := by
      obtain ⟨data, hx⟩ := htrace
      refine ⟨data, ?_⟩
      rcases hx with ⟨x, g, _⟩ | ⟨x, g, _⟩ | ⟨x, g, _⟩ | ⟨_, g⟩
      · rw [hmid] at g; cases g
      · rw [hmid] at g; cases g
      · rw [hmid] at g; cases g
      · exact g
    have hok : appended rep t = [failedRow] ∧
        IsFile (mainGuarded env d cap rep w3).2.files (path.join cap "test_error.png") := by
      rcases hcase with ⟨_, _, g3, g4⟩ | ⟨x, g, _⟩
      · exact ⟨g3, g4⟩
      · rw [hmid] at g; cases g
    have hcontent : FS.read (mainGuarded env d cap rep w3).2.files rep =
        generateReportHeader ++
          String.join (appended rep (segments (suiteSteps env d cap rep) w3).flatten) ++
          failedRow ++ String.join (appended rep fin) := by
      rw [hr.read_eq hne.1 hne.2, hread, ht]
      simp [appended_append, string_join_append, String.append_assoc, hconsole, hok.1]
    refine ⟨hshape, hok.1, hok.2, hcontent, ?_, ?_, ?_⟩
    · intro hmem
      obtain ⟨err, rest, hf, -, happ⟩ := hfin
      have herr : err = none := by
        rw [hf] at hmem
        rcases List.mem_cons.1 hmem with hx | hx
        · simp only [footerEntry, Entry.mk.injEq, true_and] at hx
          exact hx.symm
        · rcases hr.fin_cases with ⟨y, hf2, _⟩ | ⟨y, hf2, _⟩ | ⟨hf2, _⟩ <;>
            rw [hf] at hf2 <;> simp only [List.cons.injEq] at hf2 <;>
            simp only [footerEntry, Entry.mk.injEq, true_and] at hf2
          · rw [hf2.2] at hx; cases hx
          · exact hf2.1
          · exact hf2.1
      rw [hcontent, happ, if_pos herr]
      simp [string_join_cons, string_join_nil]
    · intro hff
      rcases hr.fin_cases with ⟨x, hf, _⟩ | ⟨x, hf, _⟩ | ⟨_, hf⟩
      · rw [hf] at hff; exact absurd hff (by simp [FaultFree, footerEntry])
      · rw [hf] at hff; exact absurd hff (by simp [FaultFree, footerEntry])
      · rw [hf, hmid]
    · intro x hx
      rcases hr.fin_cases with ⟨y, hf, hres⟩ | ⟨y, hf, hres⟩ | ⟨_, hres⟩
      · rw [hres] at hx; cases hx
        exact ⟨_, by rw [hf]; exact List.mem_singleton.2 rfl⟩
      · rw [hres] at hx; cases hx
        exact ⟨Call.quit, by rw [hf]; simp⟩
      · rw [hres, hmid] at hx; cases hx

/-- C9, at a concrete input: the home page times out, the rest works. -/
theorem top_level_failure_witness :
    ∃ t fin mid,
      (main homeDownEnv emptyWorld).2.trace =
        (acquiredWorld homeDownEnv).trace ++
          (delta (testSuite homeDownEnv chrome "/home/u/tarea/capturas"
            "/home/u/tarea/reporte.html") (acquiredWorld homeDownEnv) ++
          ⟨Call.consoleError ["Error durante la ejecución:", "TimeoutError"], none⟩ :: t ++ fin) ∧
      callCount (Call.consoleError ["Error durante la ejecución:", "TimeoutError"])
        (delta (testSuite homeDownEnv chrome "/home/u/tarea/capturas"
            "/home/u/tarea/reporte.html") (acquiredWorld homeDownEnv) ++
          ⟨Call.consoleError ["Error durante la ejecución:", "TimeoutError"], none⟩ :: t ++ fin)
        = 1 ∧
      HandlerTrace "/home/u/tarea/capturas" "/home/u/tarea/reporte.html" "TimeoutError" t mid ∧
      (∃ err rest, fin = footerEntry "/home/u/tarea/reporte.html" err :: rest ∧
        (∀ x ∈ rest, x.call = Call.quit ∨
          x.call = Call.consoleLog ["Reporte generado en:", "/home/u/tarea/reporte.html"]) ∧
        appended "/home/u/tarea/reporte.html" fin = if err = none then [reportFooter] else []) ∧
      (mid = Outcome.ok () →
        (∃ data, t =
          [⟨Call.consoleError ["Error capturado:", "TimeoutError"], none⟩,
            ⟨Call.takeScreenshot, none⟩,
            ⟨Call.writeFileSync (path.join "/home/u/tarea/capturas" "test_error.png") data
              (some "base64"), none⟩,
            ⟨Call.consoleLog ["Captura guardada en: " ++
              path.join "/home/u/tarea/capturas" "test_error.png"], none⟩,
            ⟨Call.appendFileSync "/home/u/tarea/reporte.html" failedRow, none⟩]) ∧
        appended "/home/u/tarea/reporte.html" t = [failedRow] ∧
        IsFile (main homeDownEnv emptyWorld).2.files
          (path.join "/home/u/tarea/capturas" "test_error.png") ∧
        FS.read (main homeDownEnv emptyWorld).2.files "/home/u/tarea/reporte.html" =
          generateReportHeader ++
            String.join (appended "/home/u/tarea/reporte.html"
              (delta (testSuite homeDownEnv chrome "/home/u/tarea/capturas"
                "/home/u/tarea/reporte.html") (acquiredWorld homeDownEnv))) ++ failedRow ++
            String.join (appended "/home/u/tarea/reporte.html" fin) ∧
        (footerEntry "/home/u/tarea/reporte.html" none ∈ fin →
          FS.read (main homeDownEnv emptyWorld).2.files "/home/u/tarea/reporte.html" =
            generateReportHeader ++
              String.join (appended "/home/u/tarea/reporte.html"
                (delta (testSuite homeDownEnv chrome "/home/u/tarea/capturas"
                  "/home/u/tarea/reporte.html") (acquiredWorld homeDownEnv))) ++ failedRow ++
              reportFooter) ∧
        (FaultFree fin → (main homeDownEnv emptyWorld).1 = Outcome.ok ()) ∧
        (∀ x, (main homeDownEnv emptyWorld).1 = Outcome.throw x →
          ∃ c, (⟨c, some x⟩ : Entry) ∈ fin)) :=
  top_level_failure homeDownEnv emptyWorld (acquiredWorld homeDownEnv) chrome
    "/home/u/tarea/capturas" "/home/u/tarea/reporte.html" ⟨_, _, rfl, rfl, rfl⟩ "TimeoutError"
    (by decide)

/-! ## C10: sequencing -/

/-- C10: once the resources are acquired, the rest of the run logs, in this
order, one stretch per step that started, then the `catch` block, then the
`finally` block; the stretches are those of `testSuite`.  The stretch of a
step starts with the navigation of that step and goes on with entries of that
step only, its error-path capture and row included, so every call of a step
comes before any call of the next one; the steps start in the fixed order (the
navigations of the run are the addresses of the first steps of the list, in
order); and the blocks appended to the report are those of the first stretch,
then those of the second, and so on, then those of the `catch` and `finally`
blocks, which is also the order in which the report file holds them. -/
theorem steps_in_sequence (env : Env) (w w3 : World) (d : Driver) (cap rep : String)
    (h : Acquired env w d cap rep w3) :
    ∃ top fin,
      (main env w).2.trace =
        w3.trace ++ ((segments (suiteSteps env d cap rep) w3).flatten ++ top ++ fin) ∧
      delta (testSuite env d cap rep) w3 = (segments (suiteSteps env d cap rep) w3).flatten ∧
      1 ≤ (segments (suiteSteps env d cap rep) w3).length ∧
      List.Forall₂
        (fun info seg =>
          (∃ err rest, seg = ⟨Call.get info.url, err⟩ :: rest ∧
            ∀ e ∈ rest, StepEntry cap rep info e ∧ ∀ url, e.call ≠ Call.get url) ∧
          (appended rep seg = [] ∨ appended rep seg = [info.row] ∨
            appended rep seg = [failedRow]))
        (suiteInfo.take (segments (suiteSteps env d cap rep) w3).length)
        (segments (suiteSteps env d cap rep) w3) ∧
      navigations ((segments (suiteSteps env d cap rep) w3).flatten ++ top ++ fin) =
        (suiteInfo.map StepInfo.url).take (segments (suiteSteps env d cap rep) w3).length ∧
      appended rep ((segments (suiteSteps env d cap rep) w3).flatten ++ top ++ fin) =
        ((segments (suiteSteps env d cap rep) w3).map (appended rep)).flatten ++
          appended rep top ++ appended rep fin ∧
      FS.read (main env w).2.files rep =
        generateReportHeader ++
          String.join (appended rep
            ((segments (suiteSteps env d cap rep) w3).flatten ++ top ++ fin)) := by
  obtain ⟨hmain, hrep, hcap, hread⟩ := acquired_main h
  obtain ⟨top, fin, mid, hr⟩ := mainGuarded_run env d cap rep w3
  have hne := suite_shots_ne_report env.dirname cap
  rw [← hrep] at hne
  rw [hmain]
  have htop : navigations top = [] := by
    apply navigations_eq_nil
    rcases hr.top_cases with ⟨_, ht, _⟩ | ⟨e', t, _, ht, hcalls, _⟩
    · rw [ht]; intro e he; cases he
    · rw [ht]
      intro e he
      rcases List.mem_cons.1 he with rfl | he
      · intro url hc; cases hc
      · exact (handlerEntry_plain (hcalls e he)).1
  have hfin : navigations fin = [] := by
    apply navigations_eq_nil
    rcases hr.fin_cases with ⟨x, hf, _⟩ | ⟨x, hf, _⟩ | ⟨hf, _⟩ <;> rw [hf] <;> intro e he <;>
      simp only [List.mem_cons, List.mem_singleton, List.not_mem_nil, or_false] at he
    · subst he; intro url hc; cases hc
    · rcases he with rfl | rfl <;> intro url hc <;> cases hc
    · rcases he with rfl | rfl | rfl <;> intro url hc <;> cases hc
  refine ⟨top, fin, hr.trace_eq, testSuite_delta env d cap rep w3, ?_, ?_, ?_, ?_, ?_⟩
  · simp [suiteSteps, segments]
  · refine forall₂_imp_mem hr.segs_ok ?_
    intro info seg hinfo _ hso
    obtain ⟨err, rest, hseg, hrest⟩ := hso.1
    refine ⟨⟨err, rest, hseg, fun e he =>
      ⟨hrest e he, (stepEntry_not_nav (List.mem_of_mem_take hinfo) (hrest e he)).1⟩⟩, ?_⟩
    rcases hso.2 with ⟨_, g, _⟩ | ⟨_, g, _⟩ | ⟨_, g⟩
    · exact Or.inr (Or.inl g)
    · exact Or.inr (Or.inr g)
    · exact Or.inl g
  · rw [navigations_append, navigations_append, htop, hfin,
      navigations_segs (fun info hinfo => List.mem_of_mem_take hinfo) hr.segs_ok, List.map_take]
    simp
  · rw [appended_append, appended_append, appended_flatten]
  · rw [hr.read_eq hne.1 hne.2, hread]

/-- C10, at a concrete input: the run in which the second step finds no
question. -/
theorem steps_in_sequence_witness :
    ∃ top fin,
      (main noQuestionEnv emptyWorld).2.trace =
        (acquiredWorld noQuestionEnv).trace ++
          ((segments (suiteSteps noQuestionEnv chrome "/home/u/tarea/capturas"
            "/home/u/tarea/reporte.html") (acquiredWorld noQuestionEnv)).flatten ++ top ++ fin) ∧
      delta (testSuite noQuestionEnv chrome "/home/u/tarea/capturas"
          "/home/u/tarea/reporte.html") (acquiredWorld noQuestionEnv) =
        (segments (suiteSteps noQuestionEnv chrome "/home/u/tarea/capturas"
          "/home/u/tarea/reporte.html") (acquiredWorld noQuestionEnv)).flatten ∧
      1 ≤ (segments (suiteSteps noQuestionEnv chrome "/home/u/tarea/capturas"
        "/home/u/tarea/reporte.html") (acquiredWorld noQuestionEnv)).length ∧
      List.Forall₂
        (fun info seg =>
          (∃ err rest, seg = ⟨Call.get info.url, err⟩ :: rest ∧
            ∀ e ∈ rest, StepEntry "/home/u/tarea/capturas" "/home/u/tarea/reporte.html" info e ∧
              ∀ url, e.call ≠ Call.get url) ∧
          (appended "/home/u/tarea/reporte.html" seg = [] ∨
            appended "/home/u/tarea/reporte.html" seg = [info.row] ∨
            appended "/home/u/tarea/reporte.html" seg = [failedRow]))
        (suiteInfo.take (segments (suiteSteps noQuestionEnv chrome "/home/u/tarea/capturas"
          "/home/u/tarea/reporte.html") (acquiredWorld noQuestionEnv)).length)
        (segments (suiteSteps noQuestionEnv chrome "/home/u/tarea/capturas"
          "/home/u/tarea/reporte.html") (acquiredWorld noQuestionEnv)) ∧
      navigations ((segments (suiteSteps noQuestionEnv chrome "/home/u/tarea/capturas"
          "/home/u/tarea/reporte.html") (acquiredWorld noQuestionEnv)).flatten ++ top ++ fin) =
        (suiteInfo.map StepInfo.url).take
          (segments (suiteSteps noQuestionEnv chrome "/home/u/tarea/capturas"
            "/home/u/tarea/reporte.html") (acquiredWorld noQuestionEnv)).length ∧
      appended "/home/u/tarea/reporte.html"
          ((segments (suiteSteps noQuestionEnv chrome "/home/u/tarea/capturas"
            "/home/u/tarea/reporte.html") (acquiredWorld noQuestionEnv)).flatten ++ top ++ fin) =
        ((segments (suiteSteps noQuestionEnv chrome "/home/u/tarea/capturas"
          "/home/u/tarea/reporte.html") (acquiredWorld noQuestionEnv)).map
            (appended "/home/u/tarea/reporte.html")).flatten ++
          appended "/home/u/tarea/reporte.html" top ++
          appended "/home/u/tarea/reporte.html" fin ∧
      FS.read (main noQuestionEnv emptyWorld).2.files "/home/u/tarea/reporte.html" =
        generateReportHeader ++
          String.join (appended "/home/u/tarea/reporte.html"
            ((segments (suiteSteps noQuestionEnv chrome "/home/u/tarea/capturas"
              "/home/u/tarea/reporte.html") (acquiredWorld noQuestionEnv)).flatten ++ top ++
              fin)) :=
  steps_in_sequence noQuestionEnv emptyWorld (acquiredWorld noQuestionEnv) chrome
    "/home/u/tarea/capturas" "/home/u/tarea/reporte.html" ⟨_, _, rfl, rfl, rfl⟩

end Tarea4
